import Mathlib

/-!
# cyclonus: network policy matcher builder

A shallow embedding of `pkg/matcher/builder.go`, `pkg/explainer/explainer.go` and
`pkg/generator/breadthgenerator.go`.  Go pointers that may be nil are `Option`s, a Go
`panic(errors.Errorf(msg))` is `Except.error msg`, Go `for ... range` loops are structural
recursions over the list that carry the loop variables, and Go maps are association lists
kept in ascending key order (so that two maps with the same bindings are equal).
-/

namespace Cyclonus

/-! ## The Kubernetes API values the builder reads -/

/-- Protocol of a port, `v1.Protocol`, a Go string type. -/
abbrev Protocol := String

/-- The constant `v1.ProtocolTCP`. -/
def ProtocolTCP : Protocol := "TCP"

/-- The constant `v1.ProtocolUDP`. -/
def ProtocolUDP : Protocol := "UDP"

/-- Direction of a policy, `networkingv1.PolicyType`, a Go string type. -/
abbrev PolicyType := String

/-- The constant `networkingv1.PolicyTypeIngress`. -/
def PolicyTypeIngress : PolicyType := "Ingress"

/-- The constant `networkingv1.PolicyTypeEgress`. -/
def PolicyTypeEgress : PolicyType := "Egress"

/-- The constant `v1.NamespaceDefault`. -/
def NamespaceDefault : String := "default"

/-- Discriminator of `intstr.IntOrString`. -/
inductive IntOrStringKind where
  | Int
  | String
  deriving DecidableEq, Repr

/-- A port number or a port name, `intstr.IntOrString` (field `Type` is `Kind` here). -/
structure IntOrString where
  Kind : IntOrStringKind
  IntVal : Int
  StrVal : String
  deriving DecidableEq, Repr

/-- One `matchExpressions` entry, `metav1.LabelSelectorRequirement`. -/
structure LabelSelectorRequirement where
  Key : String
  Operator : String
  Values : List String
  deriving DecidableEq, Repr

/-- A label selector, `metav1.LabelSelector`; `MatchLabels` lists the bindings of the Go map. -/
structure LabelSelector where
  MatchLabels : List (String × String)
  MatchExpressions : List LabelSelectorRequirement
  deriving DecidableEq, Repr

/-- A CIDR with excepted sub-CIDRs, `networkingv1.IPBlock`. -/
structure IPBlock where
  CIDR : String
  Except : List String
  deriving DecidableEq, Repr

/-- A port of a rule, `networkingv1.NetworkPolicyPort`; both fields are pointers in Go. -/
structure NetworkPolicyPort where
  Protocol : Option Protocol
  Port : Option IntOrString
  deriving DecidableEq, Repr

/-- A peer of a rule, `networkingv1.NetworkPolicyPeer`; all three fields are pointers in Go. -/
structure NetworkPolicyPeer where
  PodSelector : Option LabelSelector
  NamespaceSelector : Option LabelSelector
  IPBlock : Option IPBlock
  deriving DecidableEq, Repr

/-- An ingress rule, `networkingv1.NetworkPolicyIngressRule`. -/
structure NetworkPolicyIngressRule where
  Ports : List NetworkPolicyPort
  From : List NetworkPolicyPeer
  deriving DecidableEq, Repr

/-- An egress rule, `networkingv1.NetworkPolicyEgressRule`. -/
structure NetworkPolicyEgressRule where
  Ports : List NetworkPolicyPort
  To : List NetworkPolicyPeer
  deriving DecidableEq, Repr

/-- The body of a policy, `networkingv1.NetworkPolicySpec`. -/
structure NetworkPolicySpec where
  PodSelector : LabelSelector
  Ingress : List NetworkPolicyIngressRule
  Egress : List NetworkPolicyEgressRule
  PolicyTypes : List PolicyType
  deriving DecidableEq, Repr

/-- A source policy, `networkingv1.NetworkPolicy` (the metadata fields the builder reads). -/
structure NetworkPolicy where
  Namespace : String
  Name : String
  Spec : NetworkPolicySpec
  deriving DecidableEq, Repr

/-! ## The matcher tree

The declarations of the matcher types are not among the source files; they follow the
data model of the specification and the field names the builder and the explainer use.
-/

/-- Modelled from the spec: the type `PortProtocolMatcher`, declared outside the given sources;
`{port: Port?, protocol: Protocol}`, an absent port meaning every port on that protocol. -/
structure PortProtocolMatcher where
  Port : Option IntOrString
  Protocol : Protocol
  deriving DecidableEq, Repr

/-- Modelled from the spec: the type `PortMatcher`, declared outside the given sources;
the sum `NonePort | AllPort | SpecificPort(list<PortProtocol>)`. -/
inductive PortMatcher where
  | NonePortMatcher
  | AllPortMatcher
  | SpecificPortMatcher (Ports : List PortProtocolMatcher)
  deriving DecidableEq, Repr

/-- Modelled from the spec: the type `NamespaceMatcher`, declared outside the given sources;
the sum `All | Exact(name) | LabelSelector(sel)`. -/
inductive NamespaceMatcher where
  | AllNamespaceMatcher
  | ExactNamespaceMatcher (Namespace : String)
  | LabelSelectorNamespaceMatcher (Selector : LabelSelector)
  deriving DecidableEq, Repr

/-- Modelled from the spec: the type `PodMatcher`, declared outside the given sources;
the sum `All | LabelSelector(sel)`. -/
inductive PodMatcher where
  | AllPodMatcher
  | LabelSelectorPodMatcher (Selector : LabelSelector)
  deriving DecidableEq, Repr

/-- Modelled from the spec: the type `NamespacePodMatcher`, declared outside the given sources;
`{namespace: NamespaceMatcher, pod: PodMatcher, port: PortMatcher}`. -/
structure NamespacePodMatcher where
  Namespace : NamespaceMatcher
  Pod : PodMatcher
  Port : PortMatcher
  deriving DecidableEq, Repr

/-- Modelled from the spec: the type `InternalMatcher`, declared outside the given sources;
the sum `NoneInternal | AllInternal | SpecificInternal{peers: map<key, NamespacePodMatcher>}`. -/
inductive InternalMatcher where
  | NoneInternalMatcher
  | AllInternalMatcher
  | SpecificInternalMatcher (NamespacePods : List (String × NamespacePodMatcher))
  deriving DecidableEq, Repr

/-- Modelled from the spec: the type `IPBlockMatcher`, declared outside the given sources;
`{cidr, except, port}`.  The builder creates it with a nil `Port` and sets the port afterwards,
so the port is an `Option`. -/
structure IPBlockMatcher where
  IPBlock : IPBlock
  Port : Option PortMatcher
  deriving DecidableEq, Repr

/-- Modelled from the spec: the type `IPMatcher`, declared outside the given sources; the sum
`NoneIP | AllIP | SpecificIP{ports_for_all_ips: PortMatcher, ip_blocks: map<cidr, IPBlockMatcher>}`. -/
inductive IPMatcher where
  | NoneIPMatcher
  | AllIPMatcher
  | SpecificIPMatcher (PortsForAllIPs : PortMatcher) (IPBlocks : List (String × IPBlockMatcher))
  deriving DecidableEq, Repr

/-- Modelled from the spec: the type `PeerMatcher`, declared outside the given sources;
the sum `None | All | Specific{ip: IPMatcher, internal: InternalMatcher}`. -/
inductive PeerMatcher where
  | NonePeerMatcher
  | AllPeerMatcher
  | SpecificPeerMatcher (IP : IPMatcher) (Internal : InternalMatcher)
  deriving DecidableEq, Repr

/-- Modelled from the spec: the type `Target`, declared outside the given sources;
`{namespace, pod_selector, source_rules, peer}`. -/
structure Target where
  Namespace : String
  PodSelector : LabelSelector
  SourceRules : List NetworkPolicy
  Peer : PeerMatcher
  deriving DecidableEq, Repr

/-- Modelled from the spec: the type `Policy`, declared outside the given sources; two collections
of Targets keyed by primary key, one per direction. -/
structure Policy where
  Ingress : List (String × Target)
  Egress : List (String × Target)
  deriving DecidableEq, Repr

open PortMatcher NamespaceMatcher PodMatcher InternalMatcher IPMatcher PeerMatcher

/-! ## Helpers declared outside the given sources -/

/-- Modelled from the spec: `kube.IsLabelSelectorEmpty`, declared outside the given sources; the
injected predicate `is_label_selector_empty`: a selector with no `matchLabels` and no
`matchExpressions`, the selector that matches everything. -/
def IsLabelSelectorEmpty (l : LabelSelector) : Bool :=
  l.MatchLabels.length == 0 && l.MatchExpressions.length == 0

/-- Modelled from the spec: the update of a Go map declared outside the given sources; the
binding of `k` is inserted, and merged with `merge old new` when the key is already bound
("duplicate keys merge").  The list stays in ascending key order. -/
def upsert {V : Type} (merge : V → V → V) (k : String) (v : V) :
    List (String × V) → List (String × V)
  | [] => [(k, v)]
  | (k', v') :: rest =>
    if k < k' then (k, v) :: (k', v') :: rest
    else if k = k' then (k, merge v' v) :: rest
    else (k', v') :: upsert merge k v rest

/-- Modelled from the spec: collapsing of exact duplicates ("with duplicate pairs collapsed",
"deduplicated"), declared outside the given sources; the first occurrence of every element is
kept, so the source order is preserved. -/
def collapseDuplicates {α : Type} [DecidableEq α] : List α → List α
  | [] => []
  | x :: xs => x :: (collapseDuplicates xs).filter (fun y => decide (y ≠ x))

/-- Modelled from the spec: `union_port`, the function `CombinePortMatchers` declared outside the
given sources: `None ∪ x = x`, `All ∪ _ = All`, `Specific(L₁) ∪ Specific(L₂) = Specific(L₁ ++ L₂)`
with duplicate pairs collapsed. -/
def CombinePortMatchers : PortMatcher → PortMatcher → PortMatcher
  | NonePortMatcher, b => b
  | a, NonePortMatcher => a
  | AllPortMatcher, _ => AllPortMatcher
  | _, AllPortMatcher => AllPortMatcher
  | SpecificPortMatcher a, SpecificPortMatcher b => SpecificPortMatcher (collapseDuplicates (a ++ b))

/-- Order of `matchExpressions` entries in the canonical form: by `(key, operator, sorted(values))`. -/
def requirementLE (a b : LabelSelectorRequirement) : Bool :=
  decide (a.Key < b.Key) ||
    (a.Key == b.Key &&
      (decide (a.Operator < b.Operator) ||
        (a.Operator == b.Operator &&
          decide (¬ (b.Values.insertionSort (fun x y => x ≤ y) <
            a.Values.insertionSort (fun x y => x ≤ y))))))

/-- Text of one `matchExpressions` entry in the canonical form. -/
def SerializeRequirement (r : LabelSelectorRequirement) : String :=
  r.Key ++ " " ++ r.Operator ++ " (" ++
    ",".intercalate (r.Values.insertionSort (fun x y => x ≤ y)) ++ ")"

/-- Modelled from the spec: `kube.SerializeLabelSelector`, declared outside the given sources; the
injected `label_selector_serializer`: `matchLabels` sorted by key, then `matchExpressions` sorted
by `(key, operator, sorted(values))`. -/
def SerializeLabelSelector (l : LabelSelector) : String :=
  "matchLabels: [" ++
    ",".intercalate ((l.MatchLabels.insertionSort (fun a b => a.1 ≤ b.1)).map
      (fun kv => kv.1 ++ "=" ++ kv.2)) ++
    "], matchExpressions: [" ++
    ",".intercalate ((l.MatchExpressions.insertionSort
      (fun a b => requirementLE a b = true)).map SerializeRequirement) ++ "]"

/-- Modelled from the spec: the canonical form of a namespace matcher used as a map key,
declared outside the given sources. -/
def NamespaceMatcher.PrimaryKey : NamespaceMatcher → String
  | AllNamespaceMatcher => "all namespaces"
  | ExactNamespaceMatcher ns => "namespace " ++ ns
  | LabelSelectorNamespaceMatcher sel => "namespaces matching " ++ SerializeLabelSelector sel

/-- Modelled from the spec: the canonical form of a pod matcher used as a map key, declared
outside the given sources. -/
def PodMatcher.PrimaryKey : PodMatcher → String
  | AllPodMatcher => "all pods"
  | LabelSelectorPodMatcher sel => "pods matching " ++ SerializeLabelSelector sel

/-- Modelled from the spec: the key of a `NamespacePodMatcher` in a `SpecificInternal`, declared
outside the given sources: `(canonical(namespace_matcher), canonical(pod_matcher))`. -/
def NamespacePodMatcher.PrimaryKey (m : NamespacePodMatcher) : String :=
  "(" ++ m.Namespace.PrimaryKey ++ ", " ++ m.Pod.PrimaryKey ++ ")"

/-- Modelled from the spec: the merge of two `NamespacePodMatcher`s with the same key, declared
outside the given sources: "duplicate keys merge by union on PortMatcher". -/
def CombineNamespacePodMatchers (a b : NamespacePodMatcher) : NamespacePodMatcher :=
  { Namespace := a.Namespace, Pod := a.Pod, Port := CombinePortMatchers a.Port b.Port }

/-- Modelled from the spec: `NewSpecificInternalMatcher`, declared outside the given sources: the
`SpecificInternal` whose map holds the given matchers under their keys. -/
def NewSpecificInternalMatcher (matchers : List NamespacePodMatcher) : InternalMatcher :=
  SpecificInternalMatcher
    (matchers.foldl (fun m x => upsert CombineNamespacePodMatchers x.PrimaryKey x m) [])

/-- Modelled from the spec: `union_internal`, the function `CombineInternalMatchers` declared
outside the given sources: the same lattice as the other axes; two `Specific`s merge per key. -/
def CombineInternalMatchers : InternalMatcher → InternalMatcher → InternalMatcher
  | NoneInternalMatcher, b => b
  | a, NoneInternalMatcher => a
  | AllInternalMatcher, _ => AllInternalMatcher
  | _, AllInternalMatcher => AllInternalMatcher
  | SpecificInternalMatcher a, SpecificInternalMatcher b =>
    SpecificInternalMatcher
      (b.foldl (fun m kv => upsert CombineNamespacePodMatchers kv.1 kv.2 m) a)

/-- Modelled from the spec: the merge of two blocks with the same CIDR, declared outside the given
sources: "colliding blocks take the union of their except sets and of their PortMatchers"; a
port that was never set contributes nothing. -/
def CombineIPBlockMatchers (a b : IPBlockMatcher) : IPBlockMatcher :=
  { IPBlock :=
      { CIDR := a.IPBlock.CIDR,
        Except := collapseDuplicates (a.IPBlock.Except ++ b.IPBlock.Except) },
    Port :=
      match a.Port, b.Port with
      | some p, some q => some (CombinePortMatchers p q)
      | some p, none => some p
      | none, q => q }

/-- Modelled from the spec: the key of a block in a `SpecificIP`, declared outside the given
sources: its CIDR, taken as written (the sources do not normalize CIDRs). -/
def IPBlockMatcher.PrimaryKey (b : IPBlockMatcher) : String :=
  b.IPBlock.CIDR

/-- Modelled from the spec: `NewSpecificIPMatcher`, declared outside the given sources: the
`SpecificIP` with the given `ports_for_all_ips` whose map holds the given blocks. -/
def NewSpecificIPMatcher (portsForAllIPs : PortMatcher) (blocks : List IPBlockMatcher) :
    IPMatcher :=
  SpecificIPMatcher portsForAllIPs
    (blocks.foldl (fun m b => upsert CombineIPBlockMatchers b.PrimaryKey b m) [])

/-- Modelled from the spec: `union_ip`, the function `CombineIPMatchers` declared outside the given
sources: `None ∪ x = x`, `All ∪ _ = All`,
`Specific(p₁,B₁) ∪ Specific(p₂,B₂) = Specific(union_port(p₁,p₂), merge_blocks(B₁,B₂))`. -/
def CombineIPMatchers : IPMatcher → IPMatcher → IPMatcher
  | NoneIPMatcher, b => b
  | a, NoneIPMatcher => a
  | AllIPMatcher, _ => AllIPMatcher
  | _, AllIPMatcher => AllIPMatcher
  | SpecificIPMatcher p₁ b₁, SpecificIPMatcher p₂ b₂ =>
    SpecificIPMatcher (CombinePortMatchers p₁ p₂)
      (b₂.foldl (fun m kv => upsert CombineIPBlockMatchers kv.1 kv.2 m) b₁)

/-- Modelled from the spec: `union_peer`, the function `CombinePeerMatchers` declared outside the
given sources: `None ∪ x = x`, `All ∪ _ = All`, and `Specific ∪ Specific` unions field-wise. -/
def CombinePeerMatchers : PeerMatcher → PeerMatcher → PeerMatcher
  | NonePeerMatcher, b => b
  | a, NonePeerMatcher => a
  | AllPeerMatcher, _ => AllPeerMatcher
  | _, AllPeerMatcher => AllPeerMatcher
  | SpecificPeerMatcher ip₁ in₁, SpecificPeerMatcher ip₂ in₂ =>
    SpecificPeerMatcher (CombineIPMatchers ip₁ ip₂) (CombineInternalMatchers in₁ in₂)

/-- Modelled from the spec: `Target.GetPrimaryKey`, declared outside the given sources: the
canonical string form of namespace and pod selector, `namespace/pod_selector_canonical`. -/
def Target.GetPrimaryKey (t : Target) : String :=
  t.Namespace ++ "/" ++ SerializeLabelSelector t.PodSelector

/-- Modelled from the spec: the merge of two Targets with the same primary key, declared outside
the given sources: the peers combine under union and the `source_rules` concatenate. -/
def Target.Combine (t other : Target) : Target :=
  { Namespace := t.Namespace, PodSelector := t.PodSelector,
    SourceRules := t.SourceRules ++ other.SourceRules,
    Peer := CombinePeerMatchers t.Peer other.Peer }

/-- Modelled from the spec: `NewPolicy`, declared outside the given sources: the Policy without
Targets. -/
def NewPolicy : Policy :=
  { Ingress := [], Egress := [] }

/-- Modelled from the spec: `Policy.AddTarget`, the operation `add_target(direction, target)`
declared outside the given sources: a Target with the same primary key in that direction is
merged with the incoming one, else the incoming one is inserted. -/
def Policy.AddTarget (np : Policy) (isIngress : Bool) (target : Target) : Policy :=
  if isIngress then
    { np with Ingress := upsert Target.Combine target.GetPrimaryKey target np.Ingress }
  else
    { np with Egress := upsert Target.Combine target.GetPrimaryKey target np.Egress }

/-- Modelled from the spec: `Policy.SortedTargets`, the operation `sorted_targets()` declared
outside the given sources: the Targets of each direction in ascending primary-key order. -/
def Policy.SortedTargets (np : Policy) : List Target × List Target :=
  (np.Ingress.map Prod.snd, np.Egress.map Prod.snd)

/-! ## `pkg/matcher/builder.go` -/

/-- Loop of `BuildPortMatcher`: appends one `PortProtocolMatcher` per port to `matcher.Ports`. -/
def BuildPortMatcherLoop : List NetworkPolicyPort → List PortProtocolMatcher →
    List PortProtocolMatcher
  | [], ports => ports
  | p :: rest, ports =>
    let protocol := match p.Protocol with
      | some q => q
      | none => ProtocolTCP
    BuildPortMatcherLoop rest (ports ++ [{ Port := p.Port, Protocol := protocol }])

/-- The function `BuildPortMatcher` of builder.go. -/
def BuildPortMatcher (npPorts : List NetworkPolicyPort) : PortMatcher :=
  if npPorts.length = 0 then AllPortMatcher
  else SpecificPortMatcher (BuildPortMatcherLoop npPorts [])

/-- The function `BuildIPBlockNamespacePodMatcher` of builder.go; a component that Go returns as
nil is `none`. -/
def BuildIPBlockNamespacePodMatcher (policyNamespace : String) (peer : NetworkPolicyPeer) :
    Option IPBlockMatcher × Option NamespaceMatcher × Option PodMatcher :=
  match peer.IPBlock with
  | some block => (some { IPBlock := block, Port := none }, none, none)
  | none =>
    let podMatcher : PodMatcher :=
      match peer.PodSelector with
      | none => AllPodMatcher
      | some podSel =>
        if IsLabelSelectorEmpty podSel then AllPodMatcher
        else LabelSelectorPodMatcher podSel
    let nsMatcher : NamespaceMatcher :=
      match peer.NamespaceSelector with
      | none => ExactNamespaceMatcher policyNamespace
      | some nsSel =>
        if IsLabelSelectorEmpty nsSel then AllNamespaceMatcher
        else LabelSelectorNamespaceMatcher nsSel
    (none, some nsMatcher, some podMatcher)

/-- Loop over the peers in the else branch of `BuildPeerMatcher`; `matcherIP` and
`matcherInternal` are the fields of the `SpecificPeerMatcher` under construction.  A selector
peer whose namespace or pod matcher is nil would put a nil in a sum position; that abort is the
`Internal.TypeMismatch` of the specification. -/
def BuildPeerMatcherLoop (policyNamespace : String) (port : PortMatcher) :
    List NetworkPolicyPeer → IPMatcher → InternalMatcher → Except String PeerMatcher
  | [], matcherIP, matcherInternal => .ok (SpecificPeerMatcher matcherIP matcherInternal)
  | peer :: rest, matcherIP, matcherInternal =>
    match BuildIPBlockNamespacePodMatcher policyNamespace peer with
    | (ip, ns, pod) =>
      -- invalid netpol guards
      if ip.isNone && ns.isNone && pod.isNone then
        .error "invalid NetworkPolicyPeer: all of IPBlock, NamespaceSelector, and PodSelector are nil"
      else if ip.isSome && (ns.isSome || pod.isSome) then
        .error "invalid NetworkPolicyPeer: if NamespaceSelector or PodSelector is non-nil, IPBlock must be nil"
      else
        -- process a valid netpol
        match ip, ns, pod with
        | some ipBlock, _, _ =>
          BuildPeerMatcherLoop policyNamespace port rest
            (CombineIPMatchers matcherIP
              (NewSpecificIPMatcher NonePortMatcher [{ ipBlock with Port := some port }]))
            matcherInternal
        | none, some nsMatcher, some podMatcher =>
          -- special case: if all ports, namespaces, and pods are allowed
          let special : InternalMatcher :=
            match port, nsMatcher, podMatcher with
            | AllPortMatcher, AllNamespaceMatcher, AllPodMatcher => AllInternalMatcher
            | _, _, _ => matcherInternal
          let internal := NewSpecificInternalMatcher
            [{ Namespace := nsMatcher, Pod := podMatcher, Port := port }]
          BuildPeerMatcherLoop policyNamespace port rest matcherIP
            (CombineInternalMatchers special internal)
        | none, _, _ => .error "Internal.TypeMismatch"

/-- The function `BuildPeerMatcher` of builder.go. -/
def BuildPeerMatcher (policyNamespace : String) (npPorts : List NetworkPolicyPort)
    (peers : List NetworkPolicyPeer) : Except String PeerMatcher :=
  -- 1. build port matcher
  let port := BuildPortMatcher npPorts
  -- 2. build Peers
  if peers.length = 0 then
    match port with
    | AllPortMatcher => .ok AllPeerMatcher
    | _ =>
      let matcher : NamespacePodMatcher :=
        { Namespace := AllNamespaceMatcher, Pod := AllPodMatcher, Port := port }
      .ok (SpecificPeerMatcher (NewSpecificIPMatcher port [])
        (NewSpecificInternalMatcher [matcher]))
  else
    BuildPeerMatcherLoop policyNamespace port peers NoneIPMatcher NoneInternalMatcher

/-- Loop of `BuildIngressMatcher`; `matcher` is the loop variable. -/
def BuildIngressMatcherLoop (policyNamespace : String) :
    List NetworkPolicyIngressRule → PeerMatcher → Except String PeerMatcher
  | [], matcher => .ok matcher
  | ingress :: rest, matcher =>
    match BuildPeerMatcher policyNamespace ingress.Ports ingress.From with
    | .error e => .error e
    | .ok built =>
      BuildIngressMatcherLoop policyNamespace rest (CombinePeerMatchers matcher built)

/-- The function `BuildIngressMatcher` of builder.go. -/
def BuildIngressMatcher (policyNamespace : String)
    (ingresses : List NetworkPolicyIngressRule) : Except String PeerMatcher :=
  BuildIngressMatcherLoop policyNamespace ingresses NonePeerMatcher

/-- Loop of `BuildEgressMatcher`; `matcher` is the loop variable. -/
def BuildEgressMatcherLoop (policyNamespace : String) :
    List NetworkPolicyEgressRule → PeerMatcher → Except String PeerMatcher
  | [], matcher => .ok matcher
  | egress :: rest, matcher =>
    match BuildPeerMatcher policyNamespace egress.Ports egress.To with
    | .error e => .error e
    | .ok built =>
      BuildEgressMatcherLoop policyNamespace rest (CombinePeerMatchers matcher built)

/-- The function `BuildEgressMatcher` of builder.go. -/
def BuildEgressMatcher (policyNamespace : String)
    (egresses : List NetworkPolicyEgressRule) : Except String PeerMatcher :=
  BuildEgressMatcherLoop policyNamespace egresses NonePeerMatcher

/-- The function `getPolicyNamespace` of builder.go. -/
def getPolicyNamespace (policy : NetworkPolicy) : String :=
  if policy.Namespace = "" then NamespaceDefault else policy.Namespace

/-- Loop of `BuildTarget` over the policy types; `ingress` and `egress` are the two result
variables, nil before the loop. -/
def BuildTargetLoop (netpol : NetworkPolicy) (policyNamespace : String) :
    List PolicyType → Option Target → Option Target →
      Except String (Option Target × Option Target)
  | [], ingress, egress => .ok (ingress, egress)
  | pType :: rest, ingress, egress =>
    if pType = PolicyTypeIngress then
      match BuildIngressMatcher policyNamespace netpol.Spec.Ingress with
      | .error e => .error e
      | .ok peer =>
        BuildTargetLoop netpol policyNamespace rest
          (some { Namespace := policyNamespace, PodSelector := netpol.Spec.PodSelector,
                  SourceRules := [netpol], Peer := peer })
          egress
    else if pType = PolicyTypeEgress then
      match BuildEgressMatcher policyNamespace netpol.Spec.Egress with
      | .error e => .error e
      | .ok peer =>
        BuildTargetLoop netpol policyNamespace rest ingress
          (some { Namespace := policyNamespace, PodSelector := netpol.Spec.PodSelector,
                  SourceRules := [netpol], Peer := peer })
    else BuildTargetLoop netpol policyNamespace rest ingress egress

/-- The function `BuildTarget` of builder.go; the pair is `(ingress, egress)`. -/
def BuildTarget (netpol : NetworkPolicy) : Except String (Option Target × Option Target) :=
  if netpol.Spec.PolicyTypes.length = 0 then
    .error "invalid network policy: need at least 1 type"
  else
    BuildTargetLoop netpol (getPolicyNamespace netpol) netpol.Spec.PolicyTypes none none

/-- Loop of `BuildNetworkPolicies`; `np` is the Policy under construction. -/
def BuildNetworkPoliciesLoop : List NetworkPolicy → Policy → Except String Policy
  | [], np => .ok np
  | policy :: rest, np =>
    match BuildTarget policy with
    | .error e => .error e
    | .ok (ingress, egress) =>
      let np₁ := match ingress with
        | some t => np.AddTarget true t
        | none => np
      let np₂ := match egress with
        | some t => np₁.AddTarget false t
        | none => np₁
      BuildNetworkPoliciesLoop rest np₂

/-- The function `BuildNetworkPolicies` of builder.go. -/
def BuildNetworkPolicies (netpols : List NetworkPolicy) : Except String Policy :=
  BuildNetworkPoliciesLoop netpols NewPolicy

/-- The function `BuildNetworkPolicy` of builder.go. -/
def BuildNetworkPolicy (policy : NetworkPolicy) : Except String Policy :=
  BuildNetworkPolicies [policy]

/-! ## `pkg/explainer/explainer.go`

A `panic` of the explainer is `Except.error`.  The only position of the tree that can hold a
nil in this embedding is the port of an `IPBlockMatcher`, so `ExplainPortMatcher` takes the Go
interface value as an `Option`; the other `default:` branches have no value to run on.
-/

/-- Modelled from the spec: the method `SortedIPBlocks` of a `SpecificIPMatcher`, declared outside
the given sources: the blocks in ascending key order. -/
def SortedIPBlocks (blocks : List (String × IPBlockMatcher)) : List IPBlockMatcher :=
  blocks.map Prod.snd

/-- Modelled from the spec: the method `SortedNamespacePods` of a `SpecificInternalMatcher`,
declared outside the given sources: the matchers in ascending key order. -/
def SortedNamespacePods (peers : List (String × NamespacePodMatcher)) :
    List NamespacePodMatcher :=
  peers.map Prod.snd

/-- The method `String` of `intstr.IntOrString`: the name, or the number in decimal. -/
def IntOrString.String (p : IntOrString) : String :=
  match p.Kind with
  | IntOrStringKind.String => p.StrVal
  | IntOrStringKind.Int => toString p.IntVal

/-- Loop of `ExplainSourceRules`. -/
def ExplainSourceRulesLoop (indent : String) : List NetworkPolicy → List String → List String
  | [], lines => lines
  | sr :: rest, lines =>
    ExplainSourceRulesLoop indent rest (lines ++ [indent ++ sr.Namespace ++ "/" ++ sr.Name])

/-- The function `ExplainSourceRules` of explainer.go (the indent holds no format verb). -/
def ExplainSourceRules (sourceRules : List NetworkPolicy) (indent : String) : List String :=
  ExplainSourceRulesLoop indent sourceRules []

/-- The function `ExplainAllPortMatcher` of explainer.go. -/
def ExplainAllPortMatcher (indent : String) : List String :=
  [indent ++ "all ports all protocols"]

/-- Loop of `ExplainSpecificPortMatcher`. -/
def ExplainSpecificPortMatcherLoop (indent : String) :
    List PortProtocolMatcher → List String → List String
  | [], lines => lines
  | port :: rest, lines =>
    match port.Port with
    | some p =>
      ExplainSpecificPortMatcherLoop indent rest
        (lines ++ [indent ++ ("port " ++ p.String ++ " on protocol " ++ port.Protocol)])
    | none =>
      ExplainSpecificPortMatcherLoop indent rest
        (lines ++ [indent ++ ("all ports on protocol " ++ port.Protocol)])

/-- The function `ExplainSpecificPortMatcher` of explainer.go; the argument is the entry list of
the `SpecificPortMatcher`. -/
def ExplainSpecificPortMatcher (ports : List PortProtocolMatcher) (indent : String) :
    List String :=
  ExplainSpecificPortMatcherLoop indent ports []

/-- The function `ExplainPortMatcher` of explainer.go; `none` is the nil interface value, on which
the `default:` branch panics. -/
def ExplainPortMatcher (pm : Option PortMatcher) (indent : String) :
    Except String (List String) :=
  let lines := [indent ++ "Port(s):"]
  match pm with
  | some NonePortMatcher => .ok (lines ++ [indent ++ "no ports"])
  | some AllPortMatcher => .ok (lines ++ ExplainAllPortMatcher (indent ++ "  "))
  | some (SpecificPortMatcher ports) =>
    .ok (lines ++ ExplainSpecificPortMatcher ports (indent ++ "  "))
  | none => .error "invalid Port type <nil>"

/-- Loop `for _, port := range ...` that appends the given lines one by one. -/
def appendEach : List String → List String → List String
  | [], lines => lines
  | port :: rest, lines => appendEach rest (lines ++ [port])

/-- The function `ExplainIPBlockMatcher` of explainer.go; `%+v` of the except list prints its
elements between brackets, separated by blanks. -/
def ExplainIPBlockMatcher (ip : IPBlockMatcher) (indent : String) :
    Except String (List String) :=
  let block := "IPBlock: cidr " ++ ip.IPBlock.CIDR ++ ", except " ++
    ("[" ++ " ".intercalate ip.IPBlock.Except ++ "]")
  let lines := [indent ++ block]
  match ExplainPortMatcher ip.Port (indent ++ "  ") with
  | .error e => .error e
  | .ok ports => .ok (appendEach ports lines)

/-- Loop of `ExplainIPMatcher` over the sorted blocks. -/
def ExplainIPBlocksLoop (indent : String) :
    List IPBlockMatcher → List String → Except String (List String)
  | [], lines => .ok lines
  | ip :: rest, lines =>
    match ExplainIPBlockMatcher ip (indent ++ "  ") with
    | .error e => .error e
    | .ok block => ExplainIPBlocksLoop indent rest (lines ++ block)

/-- The function `ExplainIPMatcher` of explainer.go. -/
def ExplainIPMatcher (ip : IPMatcher) (indent : String) : Except String (List String) :=
  match ip with
  | AllIPMatcher => .ok [indent ++ "all ips"]
  | NoneIPMatcher => .ok [indent ++ "no ips"]
  | SpecificIPMatcher portsForAllIPs blocks =>
    let lines := [indent ++ "Ports for all IPs"]
    match ExplainPortMatcher (some portsForAllIPs) (indent ++ "  ") with
    | .error e => .error e
    | .ok ports =>
      ExplainIPBlocksLoop indent (SortedIPBlocks blocks)
        ((lines ++ ports) ++ [indent ++ "IPBlock(s):"])

/-- The function `ExplainPodMatcher` of explainer.go. -/
def ExplainPodMatcher (pm : PodMatcher) (indent : String) : String :=
  match pm with
  | AllPodMatcher => indent ++ "all pods"
  | LabelSelectorPodMatcher sel => indent ++ "pods matching " ++ SerializeLabelSelector sel

/-- The function `ExplainNamespaceMatcher` of explainer.go. -/
def ExplainNamespaceMatcher (pm : NamespaceMatcher) (indent : String) : String :=
  match pm with
  | AllNamespaceMatcher => indent ++ "all namespaces"
  | ExactNamespaceMatcher ns => indent ++ "namespace " ++ ns
  | LabelSelectorNamespaceMatcher sel =>
    indent ++ "namespaces matching " ++ SerializeLabelSelector sel

/-- The function `ExplainNamespacePod` of explainer.go. -/
def ExplainNamespacePod (peer : NamespacePodMatcher) (indent : String) :
    Except String (List String) :=
  let lines := [indent ++ "Namespace/Pod:"]
  let lines := lines ++ [ExplainNamespaceMatcher peer.Namespace (indent ++ "  "),
    ExplainPodMatcher peer.Pod (indent ++ "  ")]
  match ExplainPortMatcher (some peer.Port) (indent ++ "  ") with
  | .error e => .error e
  | .ok ports => .ok (appendEach ports lines)

/-- Loop of `ExplainInternalMatcher` over the sorted namespace/pod matchers. -/
def ExplainNamespacePodsLoop (indent : String) :
    List NamespacePodMatcher → List String → Except String (List String)
  | [], lines => .ok lines
  | peer :: rest, lines =>
    match ExplainNamespacePod peer (indent ++ "  ") with
    | .error e => .error e
    | .ok block => ExplainNamespacePodsLoop indent rest (lines ++ block)

/-- The function `ExplainInternalMatcher` of explainer.go. -/
def ExplainInternalMatcher (i : InternalMatcher) (indent : String) :
    Except String (List String) :=
  let lines := [indent ++ "Internal:"]
  match i with
  | NoneInternalMatcher => .ok (lines ++ [indent ++ "all pods blocked"])
  | AllInternalMatcher => .ok (lines ++ [indent ++ "all pods in all namespaces"])
  | SpecificInternalMatcher peers =>
    ExplainNamespacePodsLoop indent (SortedNamespacePods peers) lines

/-- The function `ExplainSpecificPeerMatcher` of explainer.go; the arguments are the two fields
of the `SpecificPeerMatcher`. -/
def ExplainSpecificPeerMatcher (ip : IPMatcher) (internal : InternalMatcher)
    (indent : String) : Except String (List String) :=
  match ExplainIPMatcher ip indent with
  | .error e => .error e
  | .ok lines =>
    match ExplainInternalMatcher internal indent with
    | .error e => .error e
    | .ok more => .ok (lines ++ more)

/-- The peer block of `ExplainTarget`: the `switch` over the variant of `target.Peer`, appending
to the lines so far. -/
def ExplainTargetPeer (peer : PeerMatcher) (targetType : String) (indent : String)
    (lines : List String) : Except String (List String) :=
  match peer with
  | NonePeerMatcher => .ok (lines ++ [indent ++ "all " ++ targetType ++ " blocked"])
  | AllPeerMatcher => .ok (lines ++ [indent ++ "all " ++ targetType ++ " allowed"])
  | SpecificPeerMatcher ip internal =>
    match ExplainSpecificPeerMatcher ip internal (indent ++ "  ") with
    | .error e => .error e
    | .ok block => .ok ((lines ++ [indent ++ targetType ++ ":"]) ++ block)

/-- The function `ExplainTarget` of explainer.go. -/
def ExplainTarget (target : Target) (isIngress : Bool) : Except String (List String) :=
  let indent := "  "
  let targetType := if isIngress then "ingress" else "egress"
  let lines := [target.GetPrimaryKey]
  let lines :=
    if target.SourceRules.length ≠ 0 then
      (lines ++ [indent ++ "source rules:"]) ++
        ExplainSourceRules target.SourceRules (indent ++ "  ")
    else lines
  match ExplainTargetPeer target.Peer targetType indent lines with
  | .error e => .error e
  | .ok lines => .ok (lines ++ [""])

/-- Loops of `Explain` over the sorted targets of one direction. -/
def ExplainTargetsLoop (isIngress : Bool) :
    List Target → List String → Except String (List String)
  | [], lines => .ok lines
  | t :: rest, lines =>
    match ExplainTarget t isIngress with
    | .error e => .error e
    | .ok block => ExplainTargetsLoop isIngress rest (lines ++ block)

/-- The function `Explain` of explainer.go; `strings.Join(lines, "\n")` is `intercalate`. -/
def Explain (policies : Policy) : Except String String :=
  match policies.SortedTargets with
  | (ingress, egress) =>
    -- 1. ingress
    match ExplainTargetsLoop true ingress [] with
    | .error e => .error e
    | .ok lines =>
      -- 2. egress
      match ExplainTargetsLoop false egress lines with
      | .error e => .error e
      | .ok lines => .ok ("\n".intercalate lines)

/-! ## Evaluation of the Internal arm

The evaluator is not among the source files; it follows section 4.3 of the specification.
-/

/-- Modelled from the spec: the value of a label, declared outside the given sources. -/
def lookupLabel (labels : List (String × String)) (key : String) : Option String :=
  (labels.find? (fun kv => kv.1 == key)).map Prod.snd

/-- Modelled from the spec: one `matchExpressions` entry against labels, declared outside the
given sources: the operators `In`, `NotIn`, `Exists`, `DoesNotExist`. -/
def LabelSelectorRequirement.Matches (r : LabelSelectorRequirement)
    (labels : List (String × String)) : Bool :=
  if r.Operator = "In" then
    match lookupLabel labels r.Key with
    | some v => r.Values.contains v
    | none => false
  else if r.Operator = "NotIn" then
    match lookupLabel labels r.Key with
    | some v => !r.Values.contains v
    | none => true
  else if r.Operator = "Exists" then (lookupLabel labels r.Key).isSome
  else if r.Operator = "DoesNotExist" then (lookupLabel labels r.Key).isNone
  else false

/-- Modelled from the spec: a label selector against labels, declared outside the given sources:
`matchLabels` AND `matchExpressions`, combined by AND; the empty selector matches everything. -/
def LabelSelector.Matches (sel : LabelSelector) (labels : List (String × String)) : Bool :=
  sel.MatchLabels.all (fun kv => lookupLabel labels kv.1 == some kv.2) &&
    sel.MatchExpressions.all (fun r => r.Matches labels)

/-- Modelled from the spec: evaluation of a port matcher against `(port, protocol)`, declared
outside the given sources: AllPort allows, NonePort denies, SpecificPort allows iff some entry
has the protocol and either no port or the queried port. -/
def PortMatcher.Allows (pm : PortMatcher) (port : IntOrString) (protocol : Protocol) : Bool :=
  match pm with
  | AllPortMatcher => true
  | NonePortMatcher => false
  | SpecificPortMatcher ports =>
    ports.any (fun e => e.Protocol == protocol &&
      (match e.Port with
       | none => true
       | some p =>
         match p.Kind with
         | IntOrStringKind.Int => port.Kind == IntOrStringKind.Int && port.IntVal == p.IntVal
         | IntOrStringKind.String =>
           port.Kind == IntOrStringKind.String && port.StrVal == p.StrVal))

/-- Modelled from the spec: evaluation of a namespace matcher against the peer's namespace and
namespace labels, declared outside the given sources. -/
def NamespaceMatcher.Allows (m : NamespaceMatcher) (peerNamespace : String)
    (namespaceLabels : List (String × String)) : Bool :=
  match m with
  | AllNamespaceMatcher => true
  | ExactNamespaceMatcher ns => peerNamespace == ns
  | LabelSelectorNamespaceMatcher sel => sel.Matches namespaceLabels

/-- Modelled from the spec: evaluation of a pod matcher against the peer's pod labels, declared
outside the given sources. -/
def PodMatcher.Allows (m : PodMatcher) (podLabels : List (String × String)) : Bool :=
  match m with
  | AllPodMatcher => true
  | LabelSelectorPodMatcher sel => sel.Matches podLabels

/-- Modelled from the spec: a `NamespacePodMatcher` matches when its namespace matcher, its pod
matcher and its port matcher all accept; declared outside the given sources. -/
def NamespacePodMatcher.Allows (m : NamespacePodMatcher) (peerNamespace : String)
    (namespaceLabels podLabels : List (String × String)) (port : IntOrString)
    (protocol : Protocol) : Bool :=
  m.Namespace.Allows peerNamespace namespaceLabels && m.Pod.Allows podLabels &&
    m.Port.Allows port protocol

/-- Modelled from the spec: evaluation of an Internal matcher against
`(peer_namespace, peer_namespace_labels, peer_pod_labels, port, protocol)`, declared outside the
given sources: AllInternal allows, NoneInternal denies, SpecificInternal allows iff some
contained `NamespacePodMatcher` matches. -/
def InternalMatcher.Allows (m : InternalMatcher) (peerNamespace : String)
    (namespaceLabels podLabels : List (String × String)) (port : IntOrString)
    (protocol : Protocol) : Bool :=
  match m with
  | AllInternalMatcher => true
  | NoneInternalMatcher => false
  | SpecificInternalMatcher peers =>
    peers.any (fun kv => kv.2.Allows peerNamespace namespaceLabels podLabels port protocol)

/-! ## The builder without the AllInternal shortcut

The procedure of the specification with the absorption shortcut removed: the peer loop of
`BuildPeerMatcher`, guards included, in which every selector peer is unioned into the Internal
arm and the arm is never replaced by `AllInternal`.  It is compared with the code, never used
by it.
-/

/-- Peer loop of the specification without the shortcut ("start from
`SpecificPeer{ip: NoneIP, internal: NoneInternal}` and union each peer entry"): the loop of
`BuildPeerMatcher` without its special case. -/
def BuildPeerMatcherLoopNoShortcut (policyNamespace : String) (port : PortMatcher) :
    List NetworkPolicyPeer → IPMatcher → InternalMatcher → Except String PeerMatcher
  | [], matcherIP, matcherInternal => .ok (SpecificPeerMatcher matcherIP matcherInternal)
  | peer :: rest, matcherIP, matcherInternal =>
    match BuildIPBlockNamespacePodMatcher policyNamespace peer with
    | (ip, ns, pod) =>
      if ip.isNone && ns.isNone && pod.isNone then
        .error "invalid NetworkPolicyPeer: all of IPBlock, NamespaceSelector, and PodSelector are nil"
      else if ip.isSome && (ns.isSome || pod.isSome) then
        .error "invalid NetworkPolicyPeer: if NamespaceSelector or PodSelector is non-nil, IPBlock must be nil"
      else
        match ip, ns, pod with
        | some ipBlock, _, _ =>
          BuildPeerMatcherLoopNoShortcut policyNamespace port rest
            (CombineIPMatchers matcherIP
              (NewSpecificIPMatcher NonePortMatcher [{ ipBlock with Port := some port }]))
            matcherInternal
        | none, some nsMatcher, some podMatcher =>
          let internal := NewSpecificInternalMatcher
            [{ Namespace := nsMatcher, Pod := podMatcher, Port := port }]
          BuildPeerMatcherLoopNoShortcut policyNamespace port rest matcherIP
            (CombineInternalMatchers matcherInternal internal)
        | none, _, _ => .error "Internal.TypeMismatch"

/-- The rule-to-peer procedure of the specification without the shortcut: as `BuildPeerMatcher`,
with the shortcut-free peer loop. -/
def BuildPeerMatcherNoShortcut (policyNamespace : String) (npPorts : List NetworkPolicyPort)
    (peers : List NetworkPolicyPeer) : Except String PeerMatcher :=
  let port := BuildPortMatcher npPorts
  if peers.length = 0 then
    match port with
    | AllPortMatcher => .ok AllPeerMatcher
    | _ =>
      .ok (SpecificPeerMatcher (NewSpecificIPMatcher port [])
        (NewSpecificInternalMatcher
          [{ Namespace := AllNamespaceMatcher, Pod := AllPodMatcher, Port := port }]))
  else
    BuildPeerMatcherLoopNoShortcut policyNamespace port peers NoneIPMatcher NoneInternalMatcher

/-! ## Vocabulary of the statements -/

/-- The `NamespacePodMatcher`s held by an Internal matcher (none for NoneInternal, AllInternal). -/
def InternalMatcher.namespacePods : InternalMatcher → List NamespacePodMatcher
  | SpecificInternalMatcher peers => SortedNamespacePods peers
  | _ => []

/-- The map of an Internal matcher (empty for NoneInternal and AllInternal). -/
def InternalMatcher.namespacePodsMap : InternalMatcher → List (String × NamespacePodMatcher)
  | SpecificInternalMatcher peers => peers
  | _ => []

/-- The `IPBlockMatcher`s held by an IP matcher (none for NoneIP and AllIP). -/
def IPMatcher.ipBlocks : IPMatcher → List IPBlockMatcher
  | SpecificIPMatcher _ blocks => SortedIPBlocks blocks
  | _ => []

/-- The `NamespacePodMatcher`s in the tree of a peer matcher. -/
def PeerMatcher.namespacePods : PeerMatcher → List NamespacePodMatcher
  | SpecificPeerMatcher _ internal => internal.namespacePods
  | _ => []

/-- The `IPBlockMatcher`s in the tree of a peer matcher. -/
def PeerMatcher.ipBlocks : PeerMatcher → List IPBlockMatcher
  | SpecificPeerMatcher ip _ => ip.ipBlocks
  | _ => []

/-- Every `NamespacePodMatcher` in the tree of a peer matcher has `φ` and every
`IPBlockMatcher` in it has `ψ`. -/
def PeerMatcher.Forall (φ : NamespacePodMatcher → Prop) (ψ : IPBlockMatcher → Prop)
    (peer : PeerMatcher) : Prop :=
  (∀ v ∈ peer.namespacePods, φ v) ∧ (∀ b ∈ peer.ipBlocks, ψ b)

/-- The Targets of a Policy, ingress first. -/
def Policy.targets (np : Policy) : List Target :=
  np.SortedTargets.1 ++ np.SortedTargets.2

/-- The primary key of the Targets that `BuildTarget` makes of a policy: effective namespace
and canonical pod selector. -/
def policyPrimaryKey (p : NetworkPolicy) : String :=
  Target.GetPrimaryKey
    { Namespace := getPolicyNamespace p, PodSelector := p.Spec.PodSelector,
      SourceRules := [p], Peer := NonePeerMatcher }

/-- The special case of the peer loop of `BuildPeerMatcher` as a function: the Internal arm
after the `switch` over port, namespace and pod matcher, before the union. -/
def applyShortcut (port : PortMatcher) (nsMatcher : NamespaceMatcher) (podMatcher : PodMatcher)
    (matcherInternal : InternalMatcher) : InternalMatcher :=
  match port, nsMatcher, podMatcher with
  | AllPortMatcher, AllNamespaceMatcher, AllPodMatcher => AllInternalMatcher
  | _, _, _ => matcherInternal

/-- The body of the loop of `BuildNetworkPolicies` as a function: the Policy after the Targets
that `BuildTarget` returned for one policy have been added. -/
def addTargets (np : Policy) (ingress egress : Option Target) : Policy :=
  let np₁ := match ingress with
    | some t => np.AddTarget true t
    | none => np
  match egress with
  | some t => np₁.AddTarget false t
  | none => np₁

/-- Two policies declare a common direction. -/
def shareDirection (p q : NetworkPolicy) : Prop :=
  (PolicyTypeIngress ∈ p.Spec.PolicyTypes ∧ PolicyTypeIngress ∈ q.Spec.PolicyTypes) ∨
    (PolicyTypeEgress ∈ p.Spec.PolicyTypes ∧ PolicyTypeEgress ∈ q.Spec.PolicyTypes)

/-- No two different policies of the list that declare a common direction have the same primary
key: no two policies of the list are merged into one Target. -/
def noMergedTargets (ps : List NetworkPolicy) : Prop :=
  ∀ p ∈ ps, ∀ q ∈ ps, p ≠ q → shareDirection p q → policyPrimaryKey p ≠ policyPrimaryKey q

/-- The value bound to a key in a map, if there is one. -/
def bindingOf {V : Type} (k : String) : List (String × V) → Option V
  | [] => none
  | (k', v') :: rest => if k = k' then some v' else bindingOf k rest

/-- The policies of a list that declare a direction and have a primary key, in the order of the
list. -/
def policiesOfTarget (isIngress : Bool) (key : String) (ps : List NetworkPolicy) :
    List NetworkPolicy :=
  ps.filter (fun p =>
    decide ((if isIngress then PolicyTypeIngress else PolicyTypeEgress) ∈ p.Spec.PolicyTypes) &&
      decide (policyPrimaryKey p = key))

/-- Invariant of the loop of `BuildNetworkPolicies` for the map of one direction, after the
policies `ps`: the keys ascend, every Target is bound under its primary key and its source rules
are the policies of `ps` with its direction and key, in the order of `ps`, and a key without a
binding has no such policy. -/
def sourceRulesInOrder (isIngress : Bool) (ps : List NetworkPolicy)
    (m : List (String × Target)) : Prop :=
  m.Pairwise (fun a b => a.1 < b.1) ∧
  (∀ k t, bindingOf k m = some t →
    t.GetPrimaryKey = k ∧ t.SourceRules ≠ [] ∧
      t.SourceRules = policiesOfTarget isIngress k ps) ∧
  (∀ k, bindingOf k m = none → policiesOfTarget isIngress k ps = [])

/-- The NamespacePodMatcher that allows every pod of every namespace on every port. -/
def allowAllNamespacePod : NamespacePodMatcher :=
  { Namespace := AllNamespaceMatcher, Pod := AllPodMatcher, Port := AllPortMatcher }

/-- Relation between the Internal arm `s` built with the shortcut and the arm `n` built without
it, kept by every step of the peer loop: either the shortcut has not fired, the arms are equal
and every key of the map is the key of its matcher, or it has fired, `s` is AllInternal and `n`
is a SpecificInternal holding the allow-everything matcher. -/
def shortcutRelated (s n : InternalMatcher) : Prop :=
  (s = n ∧ n ≠ AllInternalMatcher ∧
      ∀ m, n = SpecificInternalMatcher m → ∀ kv ∈ m, kv.1 = kv.2.PrimaryKey) ∨
    (s = AllInternalMatcher ∧
      ∃ m, n = SpecificInternalMatcher m ∧ ∃ kv ∈ m, kv.2 = allowAllNamespacePod)

/-! ## `pkg/generator/breadthgenerator.go`

The types `Netpol`, `NetpolTarget`, `NetpolPeers` and `Rule`, the package variables and the
test-case constructors that the file uses are declared outside the given sources.  The types
have the fields that the file reads and writes, the package variables and the constructors are
parameters.  A setter is a function on the policy; a Go run-time panic is `Except.error`.
-/

/-- The type `NetpolTarget`, declared outside the given sources; fields as the struct literal
of `baseBreadthPolicy` gives them. -/
structure NetpolTarget where
  Namespace : String
  PodSelector : LabelSelector
  deriving DecidableEq, Repr

/-- The type `Rule`, declared outside the given sources; fields as the struct literals of
`baseBreadthPolicy` give them. -/
structure Rule where
  Ports : List NetworkPolicyPort
  Peers : List NetworkPolicyPeer
  deriving DecidableEq, Repr

/-- The type `NetpolPeers`, declared outside the given sources; `Rules` is a slice of pointers
to rules. -/
structure NetpolPeers where
  Rules : List Rule
  deriving DecidableEq, Repr

/-- The type `Netpol`, declared outside the given sources; `Target`, `Ingress` and `Egress`
are pointers. -/
structure Netpol where
  Name : String
  Description : String
  Target : Option NetpolTarget
  Ingress : Option NetpolPeers
  Egress : Option NetpolPeers
  deriving DecidableEq, Repr

/-- The package variables that breadthgenerator.go uses and that are declared outside the given
sources, as parameters.  The selectors that `Policies` dereferences (`*emptySelector`,
`*podAMatchLabelsSelector`, `*podABMatchExpressionsSelector`) are given by their value, the
selectors that are only passed on as pointers by the pointer. -/
structure BreadthVars where
  port80 : IntOrString
  port81 : IntOrString
  portServe81TCP : IntOrString
  portServe81UDP : IntOrString
  portServe81SCTP : IntOrString
  tcp : Protocol
  udp : Protocol
  sctp : Protocol
  emptySelector : LabelSelector
  podAMatchLabelsSelector : LabelSelector
  podABMatchExpressionsSelector : LabelSelector
  podBCMatchExpressionsSelector : Option LabelSelector
  podCMatchLabelsSelector : Option LabelSelector
  nsXYMatchExpressionsSelector : Option LabelSelector
  nsYZMatchExpressionsSelector : Option LabelSelector
  nsXMatchLabelsSelector : Option LabelSelector
  nilSelector : Option LabelSelector
  AllowDNSRule : Rule
  emptySliceOfPorts : List NetworkPolicyPort
  emptySliceOfPeers : List NetworkPolicyPeer

/-- The run-time panic of Go on `s[0]` for an empty slice `s`. -/
def indexOutOfRange : String := "runtime error: index out of range [0] with length 0"

/-- The run-time panic of Go on a field access through a nil pointer. -/
def nilPointerDereference : String :=
  "runtime error: invalid memory address or nil pointer dereference"

/-- The function `baseBreadthPolicy` of breadthgenerator.go. -/
def baseBreadthPolicy (v : BreadthVars) : Netpol :=
  { Name := "base",
    Description := "",
    Target := some
      { Namespace := "x",
        PodSelector := { MatchLabels := [("pod", "a")], MatchExpressions := [] } },
    Ingress := some { Rules := [
      { Ports := [{ Port := some v.port80, Protocol := some v.tcp }],
        Peers := [{ PodSelector := v.podBCMatchExpressionsSelector,
                    NamespaceSelector := v.nsXYMatchExpressionsSelector,
                    IPBlock := none }] }] },
    Egress := some { Rules := [
      { Ports := [{ Port := some v.port80, Protocol := some v.tcp }],
        Peers := [{ PodSelector := some v.podABMatchExpressionsSelector,
                    NamespaceSelector := v.nsYZMatchExpressionsSelector,
                    IPBlock := none }] },
      v.AllowDNSRule] } }

/-- The type `Setter` of breadthgenerator.go, `func(policy *Netpol)`: the policy after the
call, or the panic. -/
abbrev Setter := Netpol → Except String Netpol

/-- The function `SetDescription` of breadthgenerator.go. -/
def SetDescription (description : String) : Setter :=
  fun policy => .ok { policy with Description := description }

/-- The function `SetNamespace` of breadthgenerator.go. -/
def SetNamespace (ns : String) : Setter :=
  fun policy =>
    match policy.Target with
    | some target => .ok { policy with Target := some { target with Namespace := ns } }
    | none => .error nilPointerDereference

/-- The function `SetRules` of breadthgenerator.go. -/
def SetRules (isIngress : Bool) (rules : List Rule) : Setter :=
  fun policy =>
    if isIngress then
      match policy.Ingress with
      | some peers => .ok { policy with Ingress := some { peers with Rules := rules } }
      | none => .error nilPointerDereference
    else
      match policy.Egress with
      | some peers => .ok { policy with Egress := some { peers with Rules := rules } }
      | none => .error nilPointerDereference

/-- The function `SetPodSelector` of breadthgenerator.go. -/
def SetPodSelector (sel : LabelSelector) : Setter :=
  fun policy =>
    match policy.Target with
    | some target => .ok { policy with Target := some { target with PodSelector := sel } }
    | none => .error nilPointerDereference

/-- The function `SetPorts` of breadthgenerator.go. -/
def SetPorts (isIngress : Bool) (ports : List NetworkPolicyPort) : Setter :=
  fun policy =>
    if isIngress then
      match policy.Ingress with
      | some peers =>
        match peers.Rules with
        | rule :: rest =>
          .ok { policy with
                Ingress := some { peers with Rules := { rule with Ports := ports } :: rest } }
        | [] => .error indexOutOfRange
      | none => .error nilPointerDereference
    else
      match policy.Egress with
      | some peers =>
        match peers.Rules with
        | rule :: rest =>
          .ok { policy with
                Egress := some { peers with Rules := { rule with Ports := ports } :: rest } }
        | [] => .error indexOutOfRange
      | none => .error nilPointerDereference

/-- The function `SetPeers` of breadthgenerator.go. -/
def SetPeers (isIngress : Bool) (peers : List NetworkPolicyPeer) : Setter :=
  fun policy =>
    if isIngress then
      match policy.Ingress with
      | some netpolPeers =>
        match netpolPeers.Rules with
        | rule :: rest =>
          .ok { policy with
                Ingress := some
                  { netpolPeers with Rules := { rule with Peers := peers } :: rest } }
        | [] => .error indexOutOfRange
      | none => .error nilPointerDereference
    else
      match policy.Egress with
      | some netpolPeers =>
        match netpolPeers.Rules with
        | rule :: rest =>
          .ok { policy with
                Egress := some
                  { netpolPeers with Rules := { rule with Peers := peers } :: rest } }
        | [] => .error indexOutOfRange
      | none => .error nilPointerDereference

/-- Loop of `BuildPolicy`: the setters are applied in order to the policy. -/
def BuildPolicyLoop : List Setter → Netpol → Except String Netpol
  | [], policy => .ok policy
  | setter :: rest, policy =>
    match setter policy with
    | .error e => .error e
    | .ok policy => BuildPolicyLoop rest policy

/-- The function `BuildPolicy` of breadthgenerator.go. -/
def BuildPolicy (v : BreadthVars) (setters : List Setter) : Except String Netpol :=
  BuildPolicyLoop setters (baseBreadthPolicy v)

/-- The type `BreadthGenerator` of breadthgenerator.go. -/
structure BreadthGenerator where
  PodIP : String
  AllowDNS : Bool
  deriving DecidableEq, Repr

/-- The function `NewBreadthGenerator` of breadthgenerator.go. -/
def NewBreadthGenerator (allowDNS : Bool) (podIP : String) : BreadthGenerator :=
  { PodIP := podIP, AllowDNS := allowDNS }

/-- The closure `addPolicy` of `Policies`, with the slice it appends to as an argument. -/
def addPolicy (policies : List (List Setter)) (description : String)
    (setters : List Setter) : List (List Setter) :=
  policies ++ [[SetDescription description] ++ setters]

/-- Loop of `Policies` over the two directions (`pre` is the variable `prefix` of the source). -/
def PoliciesLoop (v : BreadthVars) (e : BreadthGenerator) :
    List Bool → List (List Setter) → List (List Setter)
  | [], policies => policies
  | isIngress :: rest, policies =>
    let pre := if !isIngress then "egress: " else "ingress: "
    let policies := addPolicy policies (pre ++ "deny all") [SetRules isIngress []]
    let policies := addPolicy policies (pre ++ "allow all")
      [SetRules isIngress [{ Ports := [], Peers := [] }]]
    let policies := addPolicy policies (pre ++ "all ports/protocols")
      [SetPorts isIngress v.emptySliceOfPorts]
    let policies := addPolicy policies (pre ++ "numbered port on TCP")
      [SetPorts isIngress [{ Protocol := some v.tcp, Port := some v.port81 }]]
    let policies := addPolicy policies (pre ++ "numbered port on UDP")
      [SetPorts isIngress [{ Protocol := some v.udp, Port := some v.port81 }]]
    let policies := addPolicy policies (pre ++ "numbered port on SCTP")
      [SetPorts isIngress [{ Protocol := some v.sctp, Port := some v.port81 }]]
    let policies := addPolicy policies (pre ++ "named port on TCP")
      [SetPorts isIngress [{ Protocol := some v.tcp, Port := some v.portServe81TCP }]]
    let policies := addPolicy policies (pre ++ "named port on UDP")
      [SetPorts isIngress [{ Protocol := some v.udp, Port := some v.portServe81UDP }]]
    let policies := addPolicy policies (pre ++ "named port on SCTP")
      [SetPorts isIngress [{ Protocol := some v.sctp, Port := some v.portServe81SCTP }]]
    let policies := addPolicy policies (pre ++ "all pods and ip address")
      [SetPeers isIngress v.emptySliceOfPeers]
    let policies := addPolicy policies (pre ++ "all pods, policy namespace")
      [SetPeers isIngress [{ PodSelector := some v.emptySelector,
                             NamespaceSelector := v.nilSelector, IPBlock := none }]]
    let policies := addPolicy policies (pre ++ "all pods, namespace by label")
      [SetPeers isIngress [{ PodSelector := some v.emptySelector,
                             NamespaceSelector := v.nsXMatchLabelsSelector, IPBlock := none }]]
    let policies := addPolicy policies (pre ++ "all pods, all namespaces")
      [SetPeers isIngress [{ PodSelector := some v.emptySelector,
                             NamespaceSelector := some v.emptySelector, IPBlock := none }]]
    let policies := addPolicy policies (pre ++ "pods by label, policy namespace")
      [SetPeers isIngress [{ PodSelector := v.podCMatchLabelsSelector,
                             NamespaceSelector := v.nilSelector, IPBlock := none }]]
    let policies := addPolicy policies (pre ++ "pods by label, namespace by label")
      [SetPeers isIngress [{ PodSelector := v.podCMatchLabelsSelector,
                             NamespaceSelector := v.nsXMatchLabelsSelector, IPBlock := none }]]
    let policies := addPolicy policies (pre ++ "pods by label, all namespaces")
      [SetPeers isIngress [{ PodSelector := v.podCMatchLabelsSelector,
                             NamespaceSelector := some v.emptySelector, IPBlock := none }]]
    -- TODO normalize these CIDRs
    let cidr24 := e.PodIP ++ "/24"
    let cidr28 := e.PodIP ++ "/28"
    let policies := addPolicy policies (pre ++ "ipblock")
      [SetPeers isIngress [{ PodSelector := none, NamespaceSelector := none,
                             IPBlock := some { CIDR := cidr24, Except := [] } }]]
    let policies := addPolicy policies (pre ++ "ipblock with except")
      [SetPeers isIngress [{ PodSelector := none, NamespaceSelector := none,
                             IPBlock := some { CIDR := cidr24, Except := [cidr28] } }]]
    PoliciesLoop v e rest policies

/-- The method `Policies` of `BreadthGenerator`. -/
def BreadthGenerator.Policies (v : BreadthVars) (e : BreadthGenerator) : List (List Setter) :=
  let policies : List (List Setter) := []
  let policies := addPolicy policies "base policy" []
  -- target
  -- namespace
  let policies := addPolicy policies "target: set namespace" [SetNamespace "y"]
  -- pod selector
  let policies := addPolicy policies "target: empty selector" [SetPodSelector v.emptySelector]
  let policies := addPolicy policies "target: match labels selector"
    [SetPodSelector v.podAMatchLabelsSelector]
  let policies := addPolicy policies "target: match expressions selector"
    [SetPodSelector v.podABMatchExpressionsSelector]
  PoliciesLoop v e [true, false] policies

/-- The type `TestCase`, declared outside the given sources; fields as the struct literals of
`ActionTestCases` give them. -/
structure TestCase (TestStep : Type) where
  Description : String
  Steps : List TestStep

/-- The test-case vocabulary that breadthgenerator.go uses and that is declared outside the
given sources, as parameters: the types of steps, actions and probes, their constructors, and
the method `NetworkPolicy` of `Netpol`. -/
structure TestKit where
  TestStep : Type
  Action : Type
  ProbeConfig : Type
  ProbeAllAvailable : ProbeConfig
  NewSingleStepTestCase : String → ProbeConfig → List Action → TestCase TestStep
  NewTestStep : ProbeConfig → List Action → TestStep
  CreatePolicy : NetworkPolicy → Action
  UpdatePolicy : NetworkPolicy → Action
  DeletePolicy : String → String → Action
  CreateNamespace : String → List (String × String) → Action
  SetNamespaceLabels : String → List (String × String) → Action
  DeleteNamespace : String → Action
  CreatePod : String → String → List (String × String) → Action
  SetPodLabels : String → String → List (String × String) → Action
  DeletePod : String → String → Action
  NetworkPolicy : Netpol → NetworkPolicy

/-- The expression `baseBreadthPolicy().Target.Namespace`, through the pointer `Target`. -/
def baseTargetNamespace (v : BreadthVars) : Except String String :=
  match (baseBreadthPolicy v).Target with
  | some target => .ok target.Namespace
  | none => .error nilPointerDereference

/-- The method `ActionTestCases` of `BreadthGenerator`. -/
def BreadthGenerator.ActionTestCases (v : BreadthVars) (k : TestKit) (_e : BreadthGenerator) :
    Except String (List (TestCase k.TestStep)) := do
  let baseNamespace ← baseTargetNamespace v
  let updated ← BuildPolicy v
    [SetPorts true [{ Protocol := some v.udp, Port := some v.portServe81UDP }]]
  let newNamespace ← BuildPolicy v
    [SetPeers true
      [{ PodSelector := none,
         NamespaceSelector := some { MatchLabels := [("new-ns", "qrs")], MatchExpressions := [] },
         IPBlock := none }]]
  let newLabel ← BuildPolicy v
    [SetPeers true
      [{ PodSelector := some { MatchLabels := [("new-label", "abc")], MatchExpressions := [] },
         NamespaceSelector := v.nsYZMatchExpressionsSelector,
         IPBlock := none }]]
  pure [
    { Description := "Create/delete policy",
      Steps := [
        k.NewTestStep k.ProbeAllAvailable
          [k.CreatePolicy (k.NetworkPolicy (baseBreadthPolicy v))],
        k.NewTestStep k.ProbeAllAvailable
          [k.DeletePolicy baseNamespace (baseBreadthPolicy v).Name]] },
    { Description := "Create/update policy",
      Steps := [
        k.NewTestStep k.ProbeAllAvailable
          [k.CreatePolicy (k.NetworkPolicy (baseBreadthPolicy v))],
        k.NewTestStep k.ProbeAllAvailable [k.UpdatePolicy (k.NetworkPolicy updated)]] },
    { Description := "Create/delete namespace",
      Steps := [
        k.NewTestStep k.ProbeAllAvailable
          [k.CreatePolicy (k.NetworkPolicy (baseBreadthPolicy v))],
        k.NewTestStep k.ProbeAllAvailable
          [k.CreateNamespace "y-2" [("ns", "y")],
           k.CreatePod "y-2" "a" [("pod", "a")],
           k.CreatePod "y-2" "b" [("pod", "b")]],
        k.NewTestStep k.ProbeAllAvailable [k.DeleteNamespace "y-2"]] },
    { Description :=
        "Update namespace so that policy applies, then again so it no longer applies",
      Steps := [
        k.NewTestStep k.ProbeAllAvailable [k.CreatePolicy (k.NetworkPolicy newNamespace)],
        k.NewTestStep k.ProbeAllAvailable
          [k.SetNamespaceLabels "y" [("ns", "y"), ("new-ns", "qrs")]],
        k.NewTestStep k.ProbeAllAvailable [k.SetNamespaceLabels "y" [("ns", "y")]]] },
    { Description := "Create/delete pod",
      Steps := [
        k.NewTestStep k.ProbeAllAvailable
          [k.CreatePolicy (k.NetworkPolicy (baseBreadthPolicy v))],
        k.NewTestStep k.ProbeAllAvailable [k.CreatePod "x" "d" [("pod", "d")]],
        k.NewTestStep k.ProbeAllAvailable [k.DeletePod "x" "d"]] },
    { Description := "Update pod so that policy applies, then again so it no longer applies",
      Steps := [
        k.NewTestStep k.ProbeAllAvailable [k.CreatePolicy (k.NetworkPolicy newLabel)],
        k.NewTestStep k.ProbeAllAvailable
          [k.SetPodLabels "y" "b" [("pod", "b"), ("new-label", "abc")]],
        k.NewTestStep k.ProbeAllAvailable [k.SetPodLabels "y" "b" [("pod", "b")]]] }]

/-- Loop of `GenerateTestCases` over the setter lists of `Policies`. -/
def GenerateTestCasesLoop (v : BreadthVars) (k : TestKit) :
    List (List Setter) → List (TestCase k.TestStep) → Except String (List (TestCase k.TestStep))
  | [], cases => .ok cases
  | modifications :: rest, cases =>
    match BuildPolicy v modifications with
    | .error e => .error e
    | .ok policy =>
      GenerateTestCasesLoop v k rest
        (cases ++ [k.NewSingleStepTestCase policy.Description k.ProbeAllAvailable
          [k.CreatePolicy (k.NetworkPolicy policy)]])

/-- The method `GenerateTestCases` of `BreadthGenerator`. -/
def BreadthGenerator.GenerateTestCases (v : BreadthVars) (k : TestKit) (e : BreadthGenerator) :
    Except String (List (TestCase k.TestStep)) :=
  match GenerateTestCasesLoop v k (e.Policies v) [] with
  | .error err => .error err
  | .ok cases =>
    match e.ActionTestCases v k with
    | .error err => .error err
    | .ok actions => .ok (cases ++ actions)

/-- A setter list that `Policies` returns: `SetDescription` followed by at most one further
setter, which `BuildPolicy` applies to the base policy without a panic. -/
def runsOnBase (v : BreadthVars) (setters : List Setter) : Prop :=
  ∃ (description : String) (tail : List Setter) (policy : Netpol),
    setters = SetDescription description :: tail ∧ tail.length ≤ 1 ∧
      BuildPolicy v setters = .ok policy

/-! ## Concrete inputs used by the evaluation theorems -/

/-- The peer of scenario S6: an IPBlock together with an (empty) pod selector. -/
def mixedPeer : NetworkPolicyPeer :=
  { IPBlock := some { CIDR := "10.0.0.0/24", Except := [] },
    PodSelector := some { MatchLabels := [], MatchExpressions := [] },
    NamespaceSelector := none }

/-- A peer with IPBlock, NamespaceSelector and PodSelector all nil. -/
def allNilPeer : NetworkPolicyPeer :=
  { IPBlock := none, PodSelector := none, NamespaceSelector := none }

/-- A policy in namespace `x` for pods `pod=a` with the given directions and rules. -/
def policyOf (name : String) (types : List PolicyType)
    (ingress : List NetworkPolicyIngressRule) (egress : List NetworkPolicyEgressRule) :
    NetworkPolicy :=
  { Namespace := "x", Name := name,
    Spec := { PodSelector := { MatchLabels := [("pod", "a")], MatchExpressions := [] },
              Ingress := ingress, Egress := egress, PolicyTypes := types } }

/-- A policy that declares ingress and whose only rule has the peer of scenario S6. -/
def mixedPeerPolicy : NetworkPolicy :=
  policyOf "mixed" [PolicyTypeIngress] [{ Ports := [], From := [mixedPeer] }] []

/-- A policy that declares ingress and whose only rule has the all-nil peer. -/
def allNilPeerPolicy : NetworkPolicy :=
  policyOf "all-nil" [PolicyTypeIngress] [{ Ports := [], From := [allNilPeer] }] []

/-- A valid policy: ingress declared, no rules (deny all ingress). -/
def denyAllIngressPolicy : NetworkPolicy :=
  policyOf "deny-all" [PolicyTypeIngress] [] []

/-- The deny-all ingress policy of a namespace, for all pods of the namespace. -/
def denyAllIngressIn (ns name : String) : NetworkPolicy :=
  { Namespace := ns, Name := name,
    Spec := { PodSelector := { MatchLabels := [], MatchExpressions := [] },
              Ingress := [], Egress := [], PolicyTypes := [PolicyTypeIngress] } }

/-- A policy with an empty `policyTypes` list. -/
def noTypePolicy : NetworkPolicy :=
  policyOf "no-type" [] [] []

/-- Values for the package variables of the generator, for the evaluation theorems. -/
def sampleVars : BreadthVars :=
  { port80 := ⟨.Int, 80, ""⟩,
    port81 := ⟨.Int, 81, ""⟩,
    portServe81TCP := ⟨.String, 0, "serve-81-tcp"⟩,
    portServe81UDP := ⟨.String, 0, "serve-81-udp"⟩,
    portServe81SCTP := ⟨.String, 0, "serve-81-sctp"⟩,
    tcp := "TCP",
    udp := "UDP",
    sctp := "SCTP",
    emptySelector := { MatchLabels := [], MatchExpressions := [] },
    podAMatchLabelsSelector := { MatchLabels := [("pod", "a")], MatchExpressions := [] },
    podABMatchExpressionsSelector :=
      { MatchLabels := [], MatchExpressions := [⟨"pod", "In", ["a", "b"]⟩] },
    podBCMatchExpressionsSelector :=
      some { MatchLabels := [], MatchExpressions := [⟨"pod", "In", ["b", "c"]⟩] },
    podCMatchLabelsSelector := some { MatchLabels := [("pod", "c")], MatchExpressions := [] },
    nsXYMatchExpressionsSelector :=
      some { MatchLabels := [], MatchExpressions := [⟨"ns", "In", ["x", "y"]⟩] },
    nsYZMatchExpressionsSelector :=
      some { MatchLabels := [], MatchExpressions := [⟨"ns", "In", ["y", "z"]⟩] },
    nsXMatchLabelsSelector := some { MatchLabels := [("ns", "x")], MatchExpressions := [] },
    nilSelector := none,
    AllowDNSRule :=
      { Ports := [{ Protocol := some "UDP", Port := some ⟨.Int, 53, ""⟩ }], Peers := [] },
    emptySliceOfPorts := [],
    emptySliceOfPeers := [] }

/-! ## Lemmas about the builder -/

/-- `BuildIPBlockNamespacePodMatcher` on a peer with an IPBlock. -/
theorem BuildIPBlockNamespacePodMatcher_block (ns : String) (peer : NetworkPolicyPeer)
    (b : IPBlock) (h : peer.IPBlock = some b) :
    BuildIPBlockNamespacePodMatcher ns peer = (some { IPBlock := b, Port := none }, none, none) := by
  simp [BuildIPBlockNamespacePodMatcher, h]

/-- `BuildIPBlockNamespacePodMatcher` on a peer without an IPBlock returns both selectors' matchers. -/
theorem BuildIPBlockNamespacePodMatcher_selector (ns : String) (peer : NetworkPolicyPeer)
    (h : peer.IPBlock = none) :
    ∃ n p, BuildIPBlockNamespacePodMatcher ns peer = (none, some n, some p) := by
  simp [BuildIPBlockNamespacePodMatcher, h]

/-- One step of the peer loop on a peer with an IPBlock: the block is unioned into the IP arm. -/
theorem BuildPeerMatcherLoop_block (ns : String) (port : PortMatcher) (peer : NetworkPolicyPeer)
    (rest : List NetworkPolicyPeer) (ip : IPMatcher) (int : InternalMatcher) (b : IPBlock)
    (h : peer.IPBlock = some b) :
    BuildPeerMatcherLoop ns port (peer :: rest) ip int =
      BuildPeerMatcherLoop ns port rest
        (CombineIPMatchers ip
          (NewSpecificIPMatcher NonePortMatcher [{ IPBlock := b, Port := some port }])) int := by
  rw [BuildPeerMatcherLoop, BuildIPBlockNamespacePodMatcher_block ns peer b h]
  simp

/-- The peer loop returns a matcher for every peer list: neither guard fires. -/
theorem BuildPeerMatcherLoop_ok (ns : String) (port : PortMatcher) :
    ∀ (peers : List NetworkPolicyPeer) (ip : IPMatcher) (int : InternalMatcher),
      ∃ m, BuildPeerMatcherLoop ns port peers ip int = .ok m := by
  intro peers
  induction peers with
  | nil => intro ip int; exact ⟨_, rfl⟩
  | cons peer rest ih =>
    intro ip int
    cases hb : peer.IPBlock with
    | some b =>
      rw [BuildPeerMatcherLoop_block ns port peer rest ip int b hb]
      exact ih _ _
    | none =>
      obtain ⟨n, p, hnp⟩ := BuildIPBlockNamespacePodMatcher_selector ns peer hb
      rw [BuildPeerMatcherLoop, hnp]
      simp only [Option.isNone_none, Option.isNone_some, Option.isSome_none, Bool.and_false,
        Bool.false_and, Bool.false_eq_true, if_false]
      exact ih _ _

/-- The function `BuildPeerMatcher` returns a matcher for every input. -/
theorem BuildPeerMatcher_ok (ns : String) (ports : List NetworkPolicyPort)
    (peers : List NetworkPolicyPeer) : ∃ m, BuildPeerMatcher ns ports peers = .ok m := by
  unfold BuildPeerMatcher
  by_cases hp : peers.length = 0
  · simp only [hp, if_true]
    cases BuildPortMatcher ports <;> exact ⟨_, rfl⟩
  · simp only [hp, if_false]
    exact BuildPeerMatcherLoop_ok ns _ peers _ _

/-- The ingress loop is the left fold of `CombinePeerMatchers` over the rules' peer matchers. -/
theorem BuildIngressMatcherLoop_fold (ns : String) :
    ∀ (rules : List NetworkPolicyIngressRule) (m₀ : PeerMatcher),
      ∃ ms : List PeerMatcher,
        List.Forall₂ (fun r m => BuildPeerMatcher ns r.Ports r.From = .ok m) rules ms ∧
        BuildIngressMatcherLoop ns rules m₀ = .ok (ms.foldl CombinePeerMatchers m₀) := by
  intro rules
  induction rules with
  | nil => intro m₀; exact ⟨[], List.Forall₂.nil, rfl⟩
  | cons r rest ih =>
    intro m₀
    obtain ⟨m, hm⟩ := BuildPeerMatcher_ok ns r.Ports r.From
    obtain ⟨ms, hall, hms⟩ := ih (CombinePeerMatchers m₀ m)
    refine ⟨m :: ms, List.Forall₂.cons hm hall, ?_⟩
    rw [BuildIngressMatcherLoop, hm]
    simpa using hms

/-- The egress loop is the left fold of `CombinePeerMatchers` over the rules' peer matchers. -/
theorem BuildEgressMatcherLoop_fold (ns : String) :
    ∀ (rules : List NetworkPolicyEgressRule) (m₀ : PeerMatcher),
      ∃ ms : List PeerMatcher,
        List.Forall₂ (fun r m => BuildPeerMatcher ns r.Ports r.To = .ok m) rules ms ∧
        BuildEgressMatcherLoop ns rules m₀ = .ok (ms.foldl CombinePeerMatchers m₀) := by
  intro rules
  induction rules with
  | nil => intro m₀; exact ⟨[], List.Forall₂.nil, rfl⟩
  | cons r rest ih =>
    intro m₀
    obtain ⟨m, hm⟩ := BuildPeerMatcher_ok ns r.Ports r.To
    obtain ⟨ms, hall, hms⟩ := ih (CombinePeerMatchers m₀ m)
    refine ⟨m :: ms, List.Forall₂.cons hm hall, ?_⟩
    rw [BuildEgressMatcherLoop, hm]
    simpa using hms

/-- The function `BuildIngressMatcher` returns a matcher for every rule list. -/
theorem BuildIngressMatcher_ok (ns : String) (rules : List NetworkPolicyIngressRule) :
    ∃ m, BuildIngressMatcher ns rules = .ok m := by
  obtain ⟨ms, _, h⟩ := BuildIngressMatcherLoop_fold ns rules NonePeerMatcher
  exact ⟨_, h⟩

/-- The function `BuildEgressMatcher` returns a matcher for every rule list. -/
theorem BuildEgressMatcher_ok (ns : String) (rules : List NetworkPolicyEgressRule) :
    ∃ m, BuildEgressMatcher ns rules = .ok m := by
  obtain ⟨ms, _, h⟩ := BuildEgressMatcherLoop_fold ns rules NonePeerMatcher
  exact ⟨_, h⟩

/-- The two direction constants differ. -/
theorem PolicyTypeIngress_ne_Egress : PolicyTypeIngress ≠ PolicyTypeEgress := by decide

/-- The loop of `BuildTarget`: a direction's Target is set exactly when the direction occurs in
the list, and is otherwise left as it was. -/
theorem BuildTargetLoop_eq (netpol : NetworkPolicy) (ns : String) (pi pe : PeerMatcher)
    (hi : BuildIngressMatcher ns netpol.Spec.Ingress = .ok pi)
    (he : BuildEgressMatcher ns netpol.Spec.Egress = .ok pe) :
    ∀ (types : List PolicyType) (ingress egress : Option Target),
      BuildTargetLoop netpol ns types ingress egress = .ok
        (if PolicyTypeIngress ∈ types then
            some { Namespace := ns, PodSelector := netpol.Spec.PodSelector,
                   SourceRules := [netpol], Peer := pi }
          else ingress,
         if PolicyTypeEgress ∈ types then
            some { Namespace := ns, PodSelector := netpol.Spec.PodSelector,
                   SourceRules := [netpol], Peer := pe }
          else egress) := by
  intro types
  induction types with
  | nil => intro ingress egress; simp [BuildTargetLoop]
  | cons t rest ih =>
    intro ingress egress
    have hne := PolicyTypeIngress_ne_Egress
    by_cases h1 : t = PolicyTypeIngress
    · subst h1
      rw [BuildTargetLoop, if_pos rfl, hi]
      simp only [ih]
      by_cases h2 : PolicyTypeIngress ∈ rest <;> by_cases h3 : PolicyTypeEgress ∈ rest <;>
        simp [h2, h3, hne, hne.symm]
    · by_cases h4 : t = PolicyTypeEgress
      · subst h4
        rw [BuildTargetLoop, if_neg h1, if_pos rfl, he]
        simp only [ih]
        by_cases h2 : PolicyTypeIngress ∈ rest <;> by_cases h3 : PolicyTypeEgress ∈ rest <;>
          simp [h2, h3, hne, hne.symm]
      · rw [BuildTargetLoop, if_neg h1, if_neg h4, ih]
        have h1' : ¬ PolicyTypeIngress = t := fun h => h1 h.symm
        have h4' : ¬ PolicyTypeEgress = t := fun h => h4 h.symm
        simp [h1', h4']

/-- The result of `BuildTarget` on a policy that declares at least one policy type. -/
theorem BuildTarget_eq (p : NetworkPolicy) (h : p.Spec.PolicyTypes ≠ []) :
    ∃ pi pe,
      BuildIngressMatcher (getPolicyNamespace p) p.Spec.Ingress = .ok pi ∧
      BuildEgressMatcher (getPolicyNamespace p) p.Spec.Egress = .ok pe ∧
      BuildTarget p = .ok
        (if PolicyTypeIngress ∈ p.Spec.PolicyTypes then
            some { Namespace := getPolicyNamespace p, PodSelector := p.Spec.PodSelector,
                   SourceRules := [p], Peer := pi }
          else none,
         if PolicyTypeEgress ∈ p.Spec.PolicyTypes then
            some { Namespace := getPolicyNamespace p, PodSelector := p.Spec.PodSelector,
                   SourceRules := [p], Peer := pe }
          else none) := by
  obtain ⟨pi, hi⟩ := BuildIngressMatcher_ok (getPolicyNamespace p) p.Spec.Ingress
  obtain ⟨pe, he⟩ := BuildEgressMatcher_ok (getPolicyNamespace p) p.Spec.Egress
  refine ⟨pi, pe, hi, he, ?_⟩
  have hlen : ¬ p.Spec.PolicyTypes.length = 0 := by
    intro h0; exact h (List.length_eq_zero.mp h0)
  rw [BuildTarget, if_neg hlen]
  exact BuildTargetLoop_eq p _ pi pe hi he _ none none

/-- The function `BuildTarget` fails on an empty `policyTypes` list. -/
theorem BuildTarget_no_type (p : NetworkPolicy) (h : p.Spec.PolicyTypes = []) :
    BuildTarget p = .error "invalid network policy: need at least 1 type" := by
  simp [BuildTarget, h]

/-- The loop of `BuildNetworkPolicies` fails as soon as one of the remaining policies has an
empty `policyTypes` list, whatever Policy has been built so far. -/
theorem BuildNetworkPoliciesLoop_no_type (p : NetworkPolicy) (h : p.Spec.PolicyTypes = []) :
    ∀ (ps : List NetworkPolicy) (np : Policy), p ∈ ps →
      BuildNetworkPoliciesLoop ps np = .error "invalid network policy: need at least 1 type" := by
  intro ps
  induction ps with
  | nil => intro np hmem; simp at hmem
  | cons q rest ih =>
    intro np hmem
    by_cases hq : q.Spec.PolicyTypes = []
    · rw [BuildNetworkPoliciesLoop, BuildTarget_no_type q hq]
    · obtain ⟨pi, pe, _, _, hbt⟩ := BuildTarget_eq q hq
      have hrest : p ∈ rest := by
        rcases List.mem_cons.mp hmem with heq | hr
        · subst heq; exact absurd h hq
        · exact hr
      rw [BuildNetworkPoliciesLoop, hbt]
      exact ih _ hrest

/-! ## The claims -/

/-- C1, evaluation at the peer of scenario S6 (an IPBlock together with a pod selector): the
function `BuildPeerMatcher` does not fail with the mixed-peer error but returns a matcher that
holds the block, the pod selector being dropped, and `BuildNetworkPolicies` returns a Policy for
the batch that contains a declared ingress rule with that peer. -/
theorem BuildPeerMatcher_mixed_peer_returns :
    BuildPeerMatcher "x" [] [mixedPeer] =
      .ok (SpecificPeerMatcher
        (SpecificIPMatcher NonePortMatcher
          [("10.0.0.0/24",
            { IPBlock := { CIDR := "10.0.0.0/24", Except := [] }, Port := some AllPortMatcher })])
        NoneInternalMatcher) ∧
    BuildNetworkPolicies [mixedPeerPolicy] =
      .ok { Ingress :=
              [("x/matchLabels: [pod=a], matchExpressions: []",
                { Namespace := "x",
                  PodSelector := { MatchLabels := [("pod", "a")], MatchExpressions := [] },
                  SourceRules := [mixedPeerPolicy],
                  Peer := SpecificPeerMatcher
                    (SpecificIPMatcher NonePortMatcher
                      [("10.0.0.0/24",
                        { IPBlock := { CIDR := "10.0.0.0/24", Except := [] },
                          Port := some AllPortMatcher })])
                    NoneInternalMatcher })],
            Egress := [] } := by
  constructor <;> rfl

/-- C2, evaluation at a peer whose IPBlock, NamespaceSelector and PodSelector are all nil: the
function `BuildPeerMatcher` does not fail with the all-nil error but returns a matcher whose
Internal arm allows all pods of the policy namespace, and `BuildNetworkPolicies` returns a Policy
for the batch that contains a declared ingress rule with that peer. -/
theorem BuildPeerMatcher_all_nil_peer_returns :
    BuildPeerMatcher "x" [] [allNilPeer] =
      .ok (SpecificPeerMatcher NoneIPMatcher
        (SpecificInternalMatcher
          [("(namespace x, all pods)",
            { Namespace := ExactNamespaceMatcher "x", Pod := AllPodMatcher,
              Port := AllPortMatcher })])) ∧
    BuildNetworkPolicies [allNilPeerPolicy] =
      .ok { Ingress :=
              [("x/matchLabels: [pod=a], matchExpressions: []",
                { Namespace := "x",
                  PodSelector := { MatchLabels := [("pod", "a")], MatchExpressions := [] },
                  SourceRules := [allNilPeerPolicy],
                  Peer := SpecificPeerMatcher NoneIPMatcher
                    (SpecificInternalMatcher
                      [("(namespace x, all pods)",
                        { Namespace := ExactNamespaceMatcher "x", Pod := AllPodMatcher,
                          Port := AllPortMatcher })]) })],
            Egress := [] } := by
  constructor <;> rfl

/-- C3: for every policy whose `policyTypes` list is empty `BuildTarget` fails with
"invalid network policy: need at least 1 type", and `BuildNetworkPolicies` fails with that error,
returning no Policy, for every list that holds such a policy at any position, whatever the
policies before and after it are. -/
theorem BuildTarget_empty_policyTypes_fails (p : NetworkPolicy)
    (h : p.Spec.PolicyTypes = []) :
    BuildTarget p = .error "invalid network policy: need at least 1 type" ∧
    ∀ before after : List NetworkPolicy,
      BuildNetworkPolicies (before ++ p :: after) =
        .error "invalid network policy: need at least 1 type" := by
  refine ⟨BuildTarget_no_type p h, ?_⟩
  intro before after
  exact BuildNetworkPoliciesLoop_no_type p h _ _ (by simp)

/-- Witness of C3: a policy without policy types between two valid deny-all policies. -/
theorem BuildTarget_empty_policyTypes_fails_witness :
    noTypePolicy.Spec.PolicyTypes = [] ∧
    (∃ np, BuildNetworkPolicies [denyAllIngressPolicy, denyAllIngressPolicy] = .ok np) ∧
    BuildTarget noTypePolicy = .error "invalid network policy: need at least 1 type" ∧
    BuildNetworkPolicies ([denyAllIngressPolicy] ++ noTypePolicy :: [denyAllIngressPolicy]) =
      .error "invalid network policy: need at least 1 type" :=
  ⟨rfl, ⟨_, rfl⟩, (BuildTarget_empty_policyTypes_fails noTypePolicy rfl).1,
    (BuildTarget_empty_policyTypes_fails noTypePolicy rfl).2 [denyAllIngressPolicy]
      [denyAllIngressPolicy]⟩

/-- C4: for every policy with a non-empty `policyTypes` list `BuildTarget` returns an ingress
Target if and only if Ingress is among the policy types and an egress Target if and only if
Egress is among them; each returned Target has the effective namespace, the policy's
`spec.podSelector`, the one-element source-rule list holding that policy, and the peer built from
that direction's rules; and the rules of an undeclared direction are ignored: replacing them by
any other rule list changes neither whether a Target is returned nor the other Target's peer. -/
theorem BuildTarget_declared_directions (p : NetworkPolicy) (h : p.Spec.PolicyTypes ≠ []) :
    ∃ pi pe,
      BuildIngressMatcher (getPolicyNamespace p) p.Spec.Ingress = .ok pi ∧
      BuildEgressMatcher (getPolicyNamespace p) p.Spec.Egress = .ok pe ∧
      BuildTarget p = .ok
        (if PolicyTypeIngress ∈ p.Spec.PolicyTypes then
            some { Namespace := getPolicyNamespace p, PodSelector := p.Spec.PodSelector,
                   SourceRules := [p], Peer := pi }
          else none,
         if PolicyTypeEgress ∈ p.Spec.PolicyTypes then
            some { Namespace := getPolicyNamespace p, PodSelector := p.Spec.PodSelector,
                   SourceRules := [p], Peer := pe }
          else none) ∧
      (PolicyTypeIngress ∉ p.Spec.PolicyTypes → ∀ rules : List NetworkPolicyIngressRule,
        BuildTarget { p with Spec := { p.Spec with Ingress := rules } } = .ok
          (none,
           if PolicyTypeEgress ∈ p.Spec.PolicyTypes then
              some { Namespace := getPolicyNamespace p, PodSelector := p.Spec.PodSelector,
                     SourceRules := [{ p with Spec := { p.Spec with Ingress := rules } }],
                     Peer := pe }
            else none)) ∧
      (PolicyTypeEgress ∉ p.Spec.PolicyTypes → ∀ rules : List NetworkPolicyEgressRule,
        BuildTarget { p with Spec := { p.Spec with Egress := rules } } = .ok
          (if PolicyTypeIngress ∈ p.Spec.PolicyTypes then
              some { Namespace := getPolicyNamespace p, PodSelector := p.Spec.PodSelector,
                     SourceRules := [{ p with Spec := { p.Spec with Egress := rules } }],
                     Peer := pi }
            else none,
           none)) := by
  obtain ⟨pi, pe, hi, he, hbt⟩ := BuildTarget_eq p h
  refine ⟨pi, pe, hi, he, hbt, ?_, ?_⟩
  · intro hni rules
    obtain ⟨pi', pe', _, he', hbt'⟩ :=
      BuildTarget_eq { p with Spec := { p.Spec with Ingress := rules } } h
    have hpe : pe' = pe := by
      have := he'.symm.trans he
      exact Except.ok.inj this
    rw [hbt', hpe]
    simp only [hni, if_false]
    rfl
  · intro hne rules
    obtain ⟨pi', pe', hi', _, hbt'⟩ :=
      BuildTarget_eq { p with Spec := { p.Spec with Egress := rules } } h
    have hpi : pi' = pi := by
      have := hi'.symm.trans hi
      exact Except.ok.inj this
    rw [hbt', hpi]
    simp only [hne, if_false]
    rfl

/-- Witness of C4: a policy declaring only egress, whose ingress rule is ignored. -/
theorem BuildTarget_declared_directions_witness :
    (policyOf "egress-only" [PolicyTypeEgress] [{ Ports := [], From := [] }] []).Spec.PolicyTypes
      ≠ [] ∧
    BuildTarget (policyOf "egress-only" [PolicyTypeEgress] [{ Ports := [], From := [] }] []) =
      .ok (none,
        some { Namespace := "x",
               PodSelector := { MatchLabels := [("pod", "a")], MatchExpressions := [] },
               SourceRules :=
                 [policyOf "egress-only" [PolicyTypeEgress] [{ Ports := [], From := [] }] []],
               Peer := NonePeerMatcher }) := by
  obtain ⟨pi, pe, _, he, hbt, _, _⟩ := BuildTarget_declared_directions
    (policyOf "egress-only" [PolicyTypeEgress] [{ Ports := [], From := [] }] []) (by decide)
  have hpe : pe = NonePeerMatcher := (Except.ok.inj he).symm
  subst hpe
  exact ⟨by decide, hbt⟩

/-- C5: for every namespace and every rule list, `BuildIngressMatcher` (and `BuildEgressMatcher`)
returns the left fold of `CombinePeerMatchers` (union_peer) over the matchers that
`BuildPeerMatcher` returns for the rules, starting from the None peer matcher; for the empty rule
list the result is the None peer matcher; and a policy with `policyTypes = [Ingress]` and no
ingress rule yields exactly one ingress Target, with peer None, and no egress Target. -/
theorem BuildIngressMatcher_left_fold (ns : String) (ingresses : List NetworkPolicyIngressRule)
    (egresses : List NetworkPolicyEgressRule) (name : String) (sel : LabelSelector) :
    (∃ ms : List PeerMatcher,
      List.Forall₂ (fun r m => BuildPeerMatcher ns r.Ports r.From = .ok m) ingresses ms ∧
      BuildIngressMatcher ns ingresses = .ok (ms.foldl CombinePeerMatchers NonePeerMatcher)) ∧
    (∃ ms : List PeerMatcher,
      List.Forall₂ (fun r m => BuildPeerMatcher ns r.Ports r.To = .ok m) egresses ms ∧
      BuildEgressMatcher ns egresses = .ok (ms.foldl CombinePeerMatchers NonePeerMatcher)) ∧
    BuildIngressMatcher ns [] = .ok NonePeerMatcher ∧
    BuildEgressMatcher ns [] = .ok NonePeerMatcher ∧
    BuildTarget { Namespace := ns, Name := name,
                  Spec := { PodSelector := sel, Ingress := [], Egress := egresses,
                            PolicyTypes := [PolicyTypeIngress] } } =
      .ok (some { Namespace := getPolicyNamespace
                    { Namespace := ns, Name := name,
                      Spec := { PodSelector := sel, Ingress := [], Egress := egresses,
                                PolicyTypes := [PolicyTypeIngress] } },
                  PodSelector := sel,
                  SourceRules := [{ Namespace := ns, Name := name,
                                    Spec := { PodSelector := sel, Ingress := [],
                                              Egress := egresses,
                                              PolicyTypes := [PolicyTypeIngress] } }],
                  Peer := NonePeerMatcher },
           none) ∧
    ∃ t : Target, t.Peer = NonePeerMatcher ∧
      BuildNetworkPolicy { Namespace := ns, Name := name,
                           Spec := { PodSelector := sel, Ingress := [], Egress := egresses,
                                     PolicyTypes := [PolicyTypeIngress] } } =
        .ok { Ingress := [(t.GetPrimaryKey, t)], Egress := [] } := by
  refine ⟨BuildIngressMatcherLoop_fold ns ingresses NonePeerMatcher,
    BuildEgressMatcherLoop_fold ns egresses NonePeerMatcher, rfl, rfl, ?_, ?_⟩
  · rfl
  · exact ⟨_, rfl, rfl⟩

/-- The None peer matcher is a left and right identity of `CombinePeerMatchers`. -/
theorem CombinePeerMatchers_none (P : PeerMatcher) :
    CombinePeerMatchers NonePeerMatcher P = P ∧ CombinePeerMatchers P NonePeerMatcher = P := by
  cases P <;> exact ⟨rfl, rfl⟩

/-- C6: the None peer matcher is the identity of `CombinePeerMatchers` (union_peer), so for a rule
list with exactly one rule `r` the direction's matcher, and with it the peer of the Target of a
policy that declares the direction, is what `BuildPeerMatcher` returns for `r`; a rule with no
ports and no peers gives the All peer matcher, and a policy with `policyTypes = [Egress]` and the
single empty egress rule yields one egress Target with peer All and no ingress Target. -/
theorem BuildEgressMatcher_single_rule (ns : String) (P : PeerMatcher)
    (ri : NetworkPolicyIngressRule) (re : NetworkPolicyEgressRule) (p : NetworkPolicy) :
    (CombinePeerMatchers NonePeerMatcher P = P ∧ CombinePeerMatchers P NonePeerMatcher = P) ∧
    BuildIngressMatcher ns [ri] = BuildPeerMatcher ns ri.Ports ri.From ∧
    BuildEgressMatcher ns [re] = BuildPeerMatcher ns re.Ports re.To ∧
    (p.Spec.Ingress = [ri] → PolicyTypeIngress ∈ p.Spec.PolicyTypes →
      ∃ m t e, BuildPeerMatcher (getPolicyNamespace p) ri.Ports ri.From = .ok m ∧
        BuildTarget p = .ok (some t, e) ∧ t.Peer = m) ∧
    (p.Spec.Egress = [re] → PolicyTypeEgress ∈ p.Spec.PolicyTypes →
      ∃ m t i, BuildPeerMatcher (getPolicyNamespace p) re.Ports re.To = .ok m ∧
        BuildTarget p = .ok (i, some t) ∧ t.Peer = m) ∧
    BuildPeerMatcher ns [] [] = .ok AllPeerMatcher ∧
    (p.Spec.PolicyTypes = [PolicyTypeEgress] → p.Spec.Egress = [{ Ports := [], To := [] }] →
      BuildTarget p = .ok (none,
        some { Namespace := getPolicyNamespace p, PodSelector := p.Spec.PodSelector,
               SourceRules := [p], Peer := AllPeerMatcher })) := by
  have hin : ∀ (n : String) (r : NetworkPolicyIngressRule),
      BuildIngressMatcher n [r] = BuildPeerMatcher n r.Ports r.From := by
    intro n r
    obtain ⟨m, hm⟩ := BuildPeerMatcher_ok n r.Ports r.From
    rw [BuildIngressMatcher, BuildIngressMatcherLoop, hm]
    simp [BuildIngressMatcherLoop, (CombinePeerMatchers_none m).1]
  have heg : ∀ (n : String) (r : NetworkPolicyEgressRule),
      BuildEgressMatcher n [r] = BuildPeerMatcher n r.Ports r.To := by
    intro n r
    obtain ⟨m, hm⟩ := BuildPeerMatcher_ok n r.Ports r.To
    rw [BuildEgressMatcher, BuildEgressMatcherLoop, hm]
    simp [BuildEgressMatcherLoop, (CombinePeerMatchers_none m).1]
  refine ⟨CombinePeerMatchers_none P, hin ns ri, heg ns re, ?_, ?_, rfl, ?_⟩
  · intro hr hmem
    have hne : p.Spec.PolicyTypes ≠ [] := List.ne_nil_of_mem hmem
    obtain ⟨pi, pe, hi, _, hbt⟩ := BuildTarget_eq p hne
    rw [hr, hin] at hi
    exact ⟨pi, _, _, hi, by rw [hbt, if_pos hmem], rfl⟩
  · intro hr hmem
    have hne : p.Spec.PolicyTypes ≠ [] := List.ne_nil_of_mem hmem
    obtain ⟨pi, pe, _, he, hbt⟩ := BuildTarget_eq p hne
    rw [hr, heg] at he
    exact ⟨pe, _, _, he, by rw [hbt, if_pos hmem], rfl⟩
  · intro ht hr
    have hne : p.Spec.PolicyTypes ≠ [] := by rw [ht]; simp
    obtain ⟨pi, pe, _, he, hbt⟩ := BuildTarget_eq p hne
    rw [hr, heg] at he
    have hpe : pe = AllPeerMatcher := (Except.ok.inj he).symm
    rw [hbt, hpe, ht]
    have h1 : PolicyTypeIngress ∉ [PolicyTypeEgress] := by decide
    have h2 : PolicyTypeEgress ∈ [PolicyTypeEgress] := by decide
    rw [if_neg h1, if_pos h2]

/-- Witness of C6: scenario S2, the allow-all egress policy. -/
theorem BuildEgressMatcher_single_rule_witness :
    (policyOf "allow-all" [PolicyTypeEgress] [] [{ Ports := [], To := [] }]).Spec.PolicyTypes =
      [PolicyTypeEgress] ∧
    (policyOf "allow-all" [PolicyTypeEgress] [] [{ Ports := [], To := [] }]).Spec.Egress =
      [{ Ports := [], To := [] }] ∧
    BuildTarget (policyOf "allow-all" [PolicyTypeEgress] [] [{ Ports := [], To := [] }]) =
      .ok (none,
        some { Namespace := "x",
               PodSelector := { MatchLabels := [("pod", "a")], MatchExpressions := [] },
               SourceRules :=
                 [policyOf "allow-all" [PolicyTypeEgress] [] [{ Ports := [], To := [] }]],
               Peer := AllPeerMatcher }) :=
  ⟨rfl, rfl,
    (BuildEgressMatcher_single_rule "x" AllPeerMatcher { Ports := [], From := [] }
      { Ports := [], To := [] }
      (policyOf "allow-all" [PolicyTypeEgress] [] [{ Ports := [], To := [] }])).2.2.2.2.2.2
      rfl rfl⟩

/-- The entry that `BuildPortMatcher` makes of one port: the port unchanged, and the protocol, or
TCP when the protocol is missing. -/
theorem BuildPortMatcherLoop_eq :
    ∀ (npPorts : List NetworkPolicyPort) (ports : List PortProtocolMatcher),
      BuildPortMatcherLoop npPorts ports =
        ports ++ npPorts.map
          (fun p => { Port := p.Port, Protocol := p.Protocol.getD ProtocolTCP }) := by
  intro npPorts
  induction npPorts with
  | nil => intro ports; simp [BuildPortMatcherLoop]
  | cons p rest ih =>
    intro ports
    rw [BuildPortMatcherLoop, ih]
    cases hp : p.Protocol <;> simp [hp]

/-- The function `BuildPortMatcher` on a non-empty port list. -/
theorem BuildPortMatcher_specific (npPorts : List NetworkPolicyPort) (h : npPorts ≠ []) :
    BuildPortMatcher npPorts =
      SpecificPortMatcher (npPorts.map
        (fun p => { Port := p.Port, Protocol := p.Protocol.getD ProtocolTCP })) := by
  have hlen : ¬ npPorts.length = 0 := fun h0 => h (List.length_eq_zero.mp h0)
  rw [BuildPortMatcher, if_neg hlen, BuildPortMatcherLoop_eq]
  simp

/-- C7: for every port list `BuildPortMatcher` returns AllPort when the list is empty, and
otherwise the SpecificPort whose entry list has the length and the order of the input, entry `i`
carrying the port of input `i` unchanged (an absent port stays absent) and its protocol, or TCP
when the protocol is missing; it never returns NonePort. -/
theorem BuildPortMatcher_entries (npPorts : List NetworkPolicyPort) :
    BuildPortMatcher [] = AllPortMatcher ∧
    (npPorts ≠ [] →
      ∃ entries : List PortProtocolMatcher,
        BuildPortMatcher npPorts = SpecificPortMatcher entries ∧
        entries = npPorts.map
          (fun p => { Port := p.Port, Protocol := p.Protocol.getD ProtocolTCP }) ∧
        entries.length = npPorts.length ∧
        ∀ i : Nat, entries[i]? = npPorts[i]?.map
          (fun p => { Port := p.Port,
                      Protocol := match p.Protocol with
                        | some q => q
                        | none => ProtocolTCP })) ∧
    BuildPortMatcher npPorts ≠ NonePortMatcher := by
  refine ⟨rfl, ?_, ?_⟩
  · intro h
    refine ⟨_, BuildPortMatcher_specific npPorts h, rfl, by simp, ?_⟩
    intro i
    rw [List.getElem?_map]
    cases npPorts[i]? with
    | none => rfl
    | some p => cases hp : p.Protocol <;> simp [hp]
  · by_cases h : npPorts = []
    · subst h; simp [BuildPortMatcher]
    · rw [BuildPortMatcher_specific npPorts h]; simp

/-- Witness of C7: a named TCP port, a port without protocol and a protocol without port. -/
theorem BuildPortMatcher_entries_witness :
    BuildPortMatcher
        [{ Protocol := some ProtocolTCP, Port := some ⟨.String, 0, "serve-80"⟩ },
         { Protocol := none, Port := some ⟨.Int, 80, ""⟩ },
         { Protocol := some ProtocolUDP, Port := none }] =
      SpecificPortMatcher
        [{ Port := some ⟨.String, 0, "serve-80"⟩, Protocol := "TCP" },
         { Port := some ⟨.Int, 80, ""⟩, Protocol := "TCP" },
         { Port := none, Protocol := "UDP" }] := by
  obtain ⟨entries, h, hmap, _, _⟩ := (BuildPortMatcher_entries
    [{ Protocol := some ProtocolTCP, Port := some ⟨.String, 0, "serve-80"⟩ },
     { Protocol := none, Port := some ⟨.Int, 80, ""⟩ },
     { Protocol := some ProtocolUDP, Port := none }]).2.1 (by decide)
  rw [h, hmap]
  rfl

/-- C8: for every rule with an empty peer list and a non-empty port list `BuildPeerMatcher`
returns the Specific peer matcher whose IP arm is the SpecificIP with `ports_for_all_ips` the
rule's port matcher and no IP block, and whose Internal arm is the SpecificInternal holding
exactly one NamespacePodMatcher: all namespaces, all pods, the rule's port matcher. -/
theorem BuildPeerMatcher_no_peers_ports (ns : String) (npPorts : List NetworkPolicyPort)
    (h : npPorts ≠ []) :
    BuildPeerMatcher ns npPorts [] =
      .ok (SpecificPeerMatcher
        (SpecificIPMatcher (BuildPortMatcher npPorts) [])
        (SpecificInternalMatcher
          [("(all namespaces, all pods)",
            { Namespace := AllNamespaceMatcher, Pod := AllPodMatcher,
              Port := BuildPortMatcher npPorts })])) ∧
    BuildPortMatcher npPorts =
      SpecificPortMatcher (npPorts.map
        (fun p => { Port := p.Port, Protocol := p.Protocol.getD ProtocolTCP })) := by
  refine ⟨?_, BuildPortMatcher_specific npPorts h⟩
  unfold BuildPeerMatcher
  rw [BuildPortMatcher_specific npPorts h]
  rfl

/-- Witness of C8: scenario S3, the named port `serve-80` on TCP with no peers. -/
theorem BuildPeerMatcher_no_peers_ports_witness :
    BuildPeerMatcher "x"
        [{ Protocol := some ProtocolTCP, Port := some ⟨.String, 0, "serve-80"⟩ }] [] =
      .ok (SpecificPeerMatcher
        (SpecificIPMatcher
          (SpecificPortMatcher [{ Port := some ⟨.String, 0, "serve-80"⟩, Protocol := "TCP" }]) [])
        (SpecificInternalMatcher
          [("(all namespaces, all pods)",
            { Namespace := AllNamespaceMatcher, Pod := AllPodMatcher,
              Port := SpecificPortMatcher
                [{ Port := some ⟨.String, 0, "serve-80"⟩, Protocol := "TCP" }] })])) :=
  (BuildPeerMatcher_no_peers_ports "x"
    [{ Protocol := some ProtocolTCP, Port := some ⟨.String, 0, "serve-80"⟩ }] (by decide)).1

/-- The peer loop on IPBlock peers only: every block is unioned into the IP arm, as a SpecificIP
with `ports_for_all_ips` NonePort holding that one block, and the Internal arm is untouched. -/
theorem BuildPeerMatcherLoop_blocks (ns : String) (port : PortMatcher) :
    ∀ (peers : List NetworkPolicyPeer) (ip : IPMatcher) (int : InternalMatcher),
      (∀ p ∈ peers, p.IPBlock.isSome) →
      BuildPeerMatcherLoop ns port peers ip int =
        .ok (SpecificPeerMatcher
          ((peers.filterMap (fun p => p.IPBlock)).foldl
            (fun acc b => CombineIPMatchers acc
              (SpecificIPMatcher NonePortMatcher
                [(b.CIDR, { IPBlock := b, Port := some port })])) ip) int) := by
  intro peers
  induction peers with
  | nil => intro ip int _; rfl
  | cons peer rest ih =>
    intro ip int hall
    have hsome := hall peer (List.mem_cons_self _ _)
    obtain ⟨b, hb⟩ := Option.isSome_iff_exists.mp hsome
    rw [BuildPeerMatcherLoop_block ns port peer rest ip int b hb,
      ih _ _ (fun p hp => hall p (List.mem_cons_of_mem _ hp))]
    simp [List.filterMap_cons, hb, NewSpecificIPMatcher, upsert, IPBlockMatcher.PrimaryKey]

/-- C9: for every rule whose peer list is non-empty and consists only of IPBlock peers,
`BuildPeerMatcher` returns the Specific peer matcher with Internal arm NoneInternal and the IP arm
that is the union, starting from NoneIP, of one SpecificIP per peer with `ports_for_all_ips`
NonePort and the single IPBlockMatcher carrying that peer's cidr and except list and the rule's
port matcher; for a single IPBlock peer the IP arm is exactly that one block with
`ports_for_all_ips` NonePort. -/
theorem BuildPeerMatcher_ipblock_peers (ns : String) (npPorts : List NetworkPolicyPort)
    (peers : List NetworkPolicyPeer) (hne : peers ≠ [])
    (hall : ∀ p ∈ peers, p.IPBlock.isSome ∧ p.NamespaceSelector = none ∧ p.PodSelector = none) :
    BuildPeerMatcher ns npPorts peers =
      .ok (SpecificPeerMatcher
        ((peers.filterMap (fun p => p.IPBlock)).foldl
          (fun acc b => CombineIPMatchers acc
            (SpecificIPMatcher NonePortMatcher
              [(b.CIDR, { IPBlock := b, Port := some (BuildPortMatcher npPorts) })]))
          NoneIPMatcher)
        NoneInternalMatcher) ∧
    (∀ b : IPBlock,
      peers = [{ IPBlock := some b, NamespaceSelector := none, PodSelector := none }] →
      BuildPeerMatcher ns npPorts peers =
        .ok (SpecificPeerMatcher
          (SpecificIPMatcher NonePortMatcher
            [(b.CIDR, { IPBlock := { CIDR := b.CIDR, Except := b.Except },
                        Port := some (BuildPortMatcher npPorts) })])
          NoneInternalMatcher)) := by
  have hlen : ¬ peers.length = 0 := fun h0 => hne (List.length_eq_zero.mp h0)
  have hmain := BuildPeerMatcherLoop_blocks ns (BuildPortMatcher npPorts) peers NoneIPMatcher
    NoneInternalMatcher (fun p hp => (hall p hp).1)
  have hbuild : BuildPeerMatcher ns npPorts peers =
      BuildPeerMatcherLoop ns (BuildPortMatcher npPorts) peers NoneIPMatcher
        NoneInternalMatcher := by
    simp only [BuildPeerMatcher, hlen, if_false]
  refine ⟨hbuild.trans hmain, ?_⟩
  intro b hb
  rw [hbuild, hmain, hb]
  rfl

/-- Witness of C9: scenario S4, cidr 10.0.0.0/24 except 10.0.0.5/32 on TCP port 80. -/
theorem BuildPeerMatcher_ipblock_peers_witness :
    BuildPeerMatcher "x" [{ Protocol := some ProtocolTCP, Port := some ⟨.Int, 80, ""⟩ }]
        [{ IPBlock := some { CIDR := "10.0.0.0/24", Except := ["10.0.0.5/32"] },
           NamespaceSelector := none, PodSelector := none }] =
      .ok (SpecificPeerMatcher
        (SpecificIPMatcher NonePortMatcher
          [("10.0.0.0/24",
            { IPBlock := { CIDR := "10.0.0.0/24", Except := ["10.0.0.5/32"] },
              Port := some (SpecificPortMatcher
                [{ Port := some ⟨.Int, 80, ""⟩, Protocol := "TCP" }]) })])
        NoneInternalMatcher) :=
  (BuildPeerMatcher_ipblock_peers "x"
    [{ Protocol := some ProtocolTCP, Port := some ⟨.Int, 80, ""⟩ }]
    [{ IPBlock := some { CIDR := "10.0.0.0/24", Except := ["10.0.0.5/32"] },
       NamespaceSelector := none, PodSelector := none }]
    (by decide) (by decide)).2
    { CIDR := "10.0.0.0/24", Except := ["10.0.0.5/32"] } rfl

/-- C10: for every peer without an IPBlock and every policy namespace,
`BuildIPBlockNamespacePodMatcher` returns no IP block matcher, the namespace matcher
Exact(policyNamespace) when the namespace selector is nil, All when it is present and empty, and
LabelSelector(sel) otherwise, and the pod matcher All when the pod selector is nil or empty, and
LabelSelector(sel) otherwise; a selector is empty when it has neither labels nor expressions. -/
theorem BuildIPBlockNamespacePodMatcher_selectors (policyNamespace : String)
    (peer : NetworkPolicyPeer) (h : peer.IPBlock = none) :
    ∃ (nsMatcher : NamespaceMatcher) (podMatcher : PodMatcher),
      BuildIPBlockNamespacePodMatcher policyNamespace peer =
        (none, some nsMatcher, some podMatcher) ∧
      (peer.NamespaceSelector = none → nsMatcher = ExactNamespaceMatcher policyNamespace) ∧
      (∀ sel, peer.NamespaceSelector = some sel →
        (sel.MatchLabels = [] ∧ sel.MatchExpressions = [] → nsMatcher = AllNamespaceMatcher) ∧
        (¬ (sel.MatchLabels = [] ∧ sel.MatchExpressions = []) →
          nsMatcher = LabelSelectorNamespaceMatcher sel)) ∧
      (peer.PodSelector = none → podMatcher = AllPodMatcher) ∧
      (∀ sel, peer.PodSelector = some sel →
        (sel.MatchLabels = [] ∧ sel.MatchExpressions = [] → podMatcher = AllPodMatcher) ∧
        (¬ (sel.MatchLabels = [] ∧ sel.MatchExpressions = []) →
          podMatcher = LabelSelectorPodMatcher sel)) := by
  have hempty : ∀ sel : LabelSelector,
      IsLabelSelectorEmpty sel = true ↔ (sel.MatchLabels = [] ∧ sel.MatchExpressions = []) := by
    intro sel
    simp [IsLabelSelectorEmpty, List.length_eq_zero]
  refine ⟨_, _, by simp only [BuildIPBlockNamespacePodMatcher, h]; rfl, ?_, ?_, ?_, ?_⟩
  · intro hn; simp [hn]
  · intro sel hs
    constructor
    · intro he; simp [hs, (hempty sel).mpr he]
    · intro he
      have : ¬ IsLabelSelectorEmpty sel = true := fun hc => he ((hempty sel).mp hc)
      simp [hs, this]
  · intro hn; simp [hn]
  · intro sel hs
    constructor
    · intro he; simp [hs, (hempty sel).mpr he]
    · intro he
      have : ¬ IsLabelSelectorEmpty sel = true := fun hc => he ((hempty sel).mp hc)
      simp [hs, this]

/-- Witness of C10: a peer with an empty namespace selector and a pod selector `pod=b`. -/
theorem BuildIPBlockNamespacePodMatcher_selectors_witness :
    BuildIPBlockNamespacePodMatcher "x"
        { IPBlock := none,
          NamespaceSelector := some { MatchLabels := [], MatchExpressions := [] },
          PodSelector := some { MatchLabels := [("pod", "b")], MatchExpressions := [] } } =
      (none, some AllNamespaceMatcher,
        some (LabelSelectorPodMatcher { MatchLabels := [("pod", "b")], MatchExpressions := [] })) := by
  obtain ⟨n, p, heq, _, hns, _, hpod⟩ := BuildIPBlockNamespacePodMatcher_selectors "x"
    { IPBlock := none,
      NamespaceSelector := some { MatchLabels := [], MatchExpressions := [] },
      PodSelector := some { MatchLabels := [("pod", "b")], MatchExpressions := [] } } rfl
  rw [heq, (hns _ rfl).1 ⟨rfl, rfl⟩, (hpod _ rfl).2 (by decide)]

/-! ## The AllInternal shortcut -/

/-- AllInternal absorbs every union on its right. -/
theorem CombineInternalMatchers_all_left (b : InternalMatcher) :
    CombineInternalMatchers AllInternalMatcher b = AllInternalMatcher := by
  cases b <;> rfl

/-- One step of the peer loop on a selector peer: the shortcut, then the union into Internal. -/
theorem BuildPeerMatcherLoop_selector (ns : String) (port : PortMatcher)
    (peer : NetworkPolicyPeer) (rest : List NetworkPolicyPeer) (ip : IPMatcher)
    (int : InternalMatcher) (n : NamespaceMatcher) (p : PodMatcher)
    (h : BuildIPBlockNamespacePodMatcher ns peer = (none, some n, some p)) :
    BuildPeerMatcherLoop ns port (peer :: rest) ip int =
      BuildPeerMatcherLoop ns port rest ip
        (CombineInternalMatchers
          (applyShortcut port n p int)
          (SpecificInternalMatcher
            [(NamespacePodMatcher.PrimaryKey { Namespace := n, Pod := p, Port := port },
              { Namespace := n, Pod := p, Port := port })])) := by
  rw [BuildPeerMatcherLoop, h]
  simp only [Option.isNone_none, Option.isNone_some, Option.isSome_none, Bool.and_false,
    Bool.false_and, Bool.false_eq_true, if_false]
  rfl

/-- Once the Internal arm is AllInternal the peer loop leaves it so. -/
theorem BuildPeerMatcherLoop_all (ns : String) (port : PortMatcher) :
    ∀ (peers : List NetworkPolicyPeer) (ip : IPMatcher),
      ∃ ip', BuildPeerMatcherLoop ns port peers ip AllInternalMatcher =
        .ok (SpecificPeerMatcher ip' AllInternalMatcher) := by
  intro peers
  induction peers with
  | nil => intro ip; exact ⟨ip, rfl⟩
  | cons peer rest ih =>
    intro ip
    cases hb : peer.IPBlock with
    | some b =>
      rw [BuildPeerMatcherLoop_block ns port peer rest ip _ b hb]
      exact ih _
    | none =>
      obtain ⟨n, p, hnp⟩ := BuildIPBlockNamespacePodMatcher_selector ns peer hb
      rw [BuildPeerMatcherLoop_selector ns port peer rest ip _ n p hnp]
      have hs : applyShortcut port n p AllInternalMatcher = AllInternalMatcher := by
        cases port <;> cases n <;> cases p <;> rfl
      rw [hs, CombineInternalMatchers_all_left]
      exact ih _

/-- The peer loop over a prefix of the peers ends in some state of the two arms. -/
theorem BuildPeerMatcherLoop_append (ns : String) (port : PortMatcher)
    (l : List NetworkPolicyPeer) :
    ∀ (before : List NetworkPolicyPeer) (ip : IPMatcher) (int : InternalMatcher),
      ∃ ip' int', BuildPeerMatcherLoop ns port (before ++ l) ip int =
        BuildPeerMatcherLoop ns port l ip' int' := by
  intro before
  induction before with
  | nil => intro ip int; exact ⟨ip, int, rfl⟩
  | cons peer rest ih =>
    intro ip int
    cases hb : peer.IPBlock with
    | some b =>
      rw [List.cons_append, BuildPeerMatcherLoop_block ns port peer _ ip int b hb]
      exact ih _ _
    | none =>
      obtain ⟨n, p, hnp⟩ := BuildIPBlockNamespacePodMatcher_selector ns peer hb
      rw [List.cons_append, BuildPeerMatcherLoop_selector ns port peer _ ip int n p hnp]
      exact ih _ _

/-- C11: for every rule with an empty port list whose peer list contains, at any position, a
selector peer with a present and empty namespace selector and a nil or empty pod selector, the
Internal arm of the matcher that `BuildPeerMatcher` returns is AllInternal, whatever the peers
before and after it are. -/
theorem BuildPeerMatcher_all_internal (ns : String) (before after : List NetworkPolicyPeer)
    (peer : NetworkPolicyPeer) (nsSel : LabelSelector)
    (hblock : peer.IPBlock = none)
    (hns : peer.NamespaceSelector = some nsSel) (hnsEmpty : IsLabelSelectorEmpty nsSel = true)
    (hpod : peer.PodSelector = none ∨
      ∃ podSel, peer.PodSelector = some podSel ∧ IsLabelSelectorEmpty podSel = true) :
    ∃ ip, BuildPeerMatcher ns [] (before ++ peer :: after) =
      .ok (SpecificPeerMatcher ip AllInternalMatcher) := by
  have hlen : ¬ (before ++ peer :: after).length = 0 := by simp
  have hbuild : BuildPeerMatcher ns [] (before ++ peer :: after) =
      BuildPeerMatcherLoop ns AllPortMatcher (before ++ peer :: after) NoneIPMatcher
        NoneInternalMatcher := by
    simp only [BuildPeerMatcher, hlen, if_false]
    rfl
  obtain ⟨ip₁, int₁, hpre⟩ := BuildPeerMatcherLoop_append ns AllPortMatcher (peer :: after)
    before NoneIPMatcher NoneInternalMatcher
  have hpeer : BuildIPBlockNamespacePodMatcher ns peer =
      (none, some AllNamespaceMatcher, some AllPodMatcher) := by
    rcases hpod with hp | ⟨podSel, hp, hpe⟩
    · simp [BuildIPBlockNamespacePodMatcher, hblock, hns, hnsEmpty, hp]
    · simp [BuildIPBlockNamespacePodMatcher, hblock, hns, hnsEmpty, hp, hpe]
  rw [hbuild, hpre,
    BuildPeerMatcherLoop_selector ns AllPortMatcher peer after ip₁ int₁ _ _ hpeer]
  have hs : applyShortcut AllPortMatcher AllNamespaceMatcher AllPodMatcher int₁ =
      AllInternalMatcher := rfl
  rw [hs, CombineInternalMatchers_all_left]
  exact BuildPeerMatcherLoop_all ns AllPortMatcher after ip₁

/-- Witness of C11: the all-namespaces peer between an IPBlock peer and two selector peers. -/
theorem BuildPeerMatcher_all_internal_witness :
    ∃ ip, BuildPeerMatcher "x" []
        ([{ IPBlock := some { CIDR := "10.0.0.0/24", Except := [] },
            NamespaceSelector := none, PodSelector := none },
          { IPBlock := none, NamespaceSelector := none,
            PodSelector := some { MatchLabels := [("pod", "b")], MatchExpressions := [] } }] ++
         { IPBlock := none,
           NamespaceSelector := some { MatchLabels := [], MatchExpressions := [] },
           PodSelector := none } ::
         [{ IPBlock := none, NamespaceSelector := none,
            PodSelector := some { MatchLabels := [("pod", "c")], MatchExpressions := [] } }]) =
      .ok (SpecificPeerMatcher ip AllInternalMatcher) :=
  BuildPeerMatcher_all_internal "x" _ _ _ { MatchLabels := [], MatchExpressions := [] }
    rfl rfl rfl (Or.inl rfl)

/-- A property of the values that merging keeps holds of every binding after an update. -/
theorem upsert_forall {V : Type} (merge : V → V → V) (φ : V → Prop)
    (hmerge : ∀ a b, φ a → φ b → φ (merge a b)) (k : String) (x : V) (hx : φ x) :
    ∀ (m : List (String × V)), (∀ kv ∈ m, φ kv.2) → ∀ kv ∈ upsert merge k x m, φ kv.2 := by
  intro m
  induction m with
  | nil =>
    intro _ kv hkv
    simp only [upsert, List.mem_singleton] at hkv
    subst hkv; exact hx
  | cons hd rest ih =>
    obtain ⟨k', v'⟩ := hd
    intro hm kv hkv
    have hv' : φ v' := hm (k', v') (List.mem_cons_self _ _)
    have hrest : ∀ kv ∈ rest, φ kv.2 := fun kv h => hm kv (List.mem_cons_of_mem _ h)
    rw [upsert] at hkv
    split_ifs at hkv with h1 h2
    · rcases List.mem_cons.mp hkv with h | h
      · subst h; exact hx
      · exact hm kv h
    · rcases List.mem_cons.mp hkv with h | h
      · subst h; exact hmerge _ _ hv' hx
      · exact hrest kv h
    · rcases List.mem_cons.mp hkv with h | h
      · subst h; exact hv'
      · exact ih hrest kv h

/-- A property of the values that merging keeps holds of every binding after a series of
updates with bindings that have it. -/
theorem foldl_upsert_forall {V : Type} (merge : V → V → V) (φ : V → Prop)
    (hmerge : ∀ a b, φ a → φ b → φ (merge a b)) :
    ∀ (l m : List (String × V)), (∀ kv ∈ l, φ kv.2) → (∀ kv ∈ m, φ kv.2) →
      ∀ kv ∈ l.foldl (fun m kv => upsert merge kv.1 kv.2 m) m, φ kv.2 := by
  intro l
  induction l with
  | nil => intro m _ hm; simpa using hm
  | cons hd rest ih =>
    intro m hl hm
    rw [List.foldl_cons]
    exact ih _ (fun kv h => hl kv (List.mem_cons_of_mem _ h))
      (upsert_forall merge φ hmerge hd.1 hd.2 (hl hd (List.mem_cons_self _ _)) m hm)

/-- A binding whose value merging leaves as it is survives an update. -/
theorem upsert_exists {V : Type} (merge : V → V → V) (a : V) (hmerge : ∀ b, merge a b = a)
    (k : String) (x : V) :
    ∀ (m : List (String × V)), (∃ kv ∈ m, kv.2 = a) → ∃ kv ∈ upsert merge k x m, kv.2 = a := by
  intro m
  induction m with
  | nil => intro h; obtain ⟨kv, hkv, _⟩ := h; simp at hkv
  | cons hd rest ih =>
    obtain ⟨k', v'⟩ := hd
    intro h
    obtain ⟨kv, hkv, ha⟩ := h
    rw [upsert]
    split_ifs with h1 h2
    · exact ⟨kv, List.mem_cons_of_mem _ hkv, ha⟩
    · rcases List.mem_cons.mp hkv with h | h
      · subst h
        have hv : v' = a := ha
        exact ⟨(k, merge v' x), List.mem_cons_self _ _, by
          show merge v' x = a
          rw [hv]; exact hmerge x⟩
      · exact ⟨kv, List.mem_cons_of_mem _ h, ha⟩
    · rcases List.mem_cons.mp hkv with h | h
      · subst h; exact ⟨(k', v'), List.mem_cons_self _ _, ha⟩
      · obtain ⟨kv', hkv', ha'⟩ := ih ⟨kv, h, ha⟩
        exact ⟨kv', List.mem_cons_of_mem _ hkv', ha'⟩

/-- The key of every binding stays the key of its value after an update under the value's key. -/
theorem upsert_keys {V : Type} (merge : V → V → V) (key : V → String)
    (hmerge : ∀ a b, key (merge a b) = key a) (x : V) :
    ∀ (m : List (String × V)), (∀ kv ∈ m, kv.1 = key kv.2) →
      ∀ kv ∈ upsert merge (key x) x m, kv.1 = key kv.2 := by
  intro m
  induction m with
  | nil =>
    intro _ kv hkv
    simp only [upsert, List.mem_singleton] at hkv
    subst hkv; rfl
  | cons hd rest ih =>
    obtain ⟨k', v'⟩ := hd
    intro hm kv hkv
    have hv' : k' = key v' := hm (k', v') (List.mem_cons_self _ _)
    have hrest : ∀ kv ∈ rest, kv.1 = key kv.2 := fun kv h => hm kv (List.mem_cons_of_mem _ h)
    rw [upsert] at hkv
    split_ifs at hkv with h1 h2
    · rcases List.mem_cons.mp hkv with h | h
      · subst h; rfl
      · exact hm kv h
    · rcases List.mem_cons.mp hkv with h | h
      · subst h
        show key x = key (merge v' x)
        rw [hmerge, ← hv', h2]
      · exact hrest kv h
    · rcases List.mem_cons.mp hkv with h | h
      · subst h; exact hv'
      · exact ih hrest kv h

/-- Only the matcher of all namespaces and all pods has the key of the allow-everything matcher. -/
theorem PrimaryKey_allowAll (v : NamespacePodMatcher)
    (h : v.PrimaryKey = allowAllNamespacePod.PrimaryKey) :
    v.Namespace = AllNamespaceMatcher ∧ v.Pod = AllPodMatcher := by
  obtain ⟨n, p, port⟩ := v
  have hd := congrArg String.data h
  cases n <;> cases p <;>
    simp [NamespacePodMatcher.PrimaryKey, NamespaceMatcher.PrimaryKey, PodMatcher.PrimaryKey,
      allowAllNamespacePod] at hd ⊢

/-- AllPort absorbs every union on its right. -/
theorem CombinePortMatchers_all_left (b : PortMatcher) :
    CombinePortMatchers AllPortMatcher b = AllPortMatcher := by
  cases b <;> rfl

/-- AllPort absorbs every union on its left. -/
theorem CombinePortMatchers_all_right (a : PortMatcher) :
    CombinePortMatchers a AllPortMatcher = AllPortMatcher := by
  cases a <;> rfl

/-- Updating a map whose keys are the keys of its matchers with the allow-everything matcher
leaves a map that holds the allow-everything matcher. -/
theorem upsert_allowAll :
    ∀ (m : List (String × NamespacePodMatcher)), (∀ kv ∈ m, kv.1 = kv.2.PrimaryKey) →
      ∃ kv ∈ upsert CombineNamespacePodMatchers allowAllNamespacePod.PrimaryKey
          allowAllNamespacePod m, kv.2 = allowAllNamespacePod := by
  intro m
  induction m with
  | nil =>
    intro _
    exact ⟨(allowAllNamespacePod.PrimaryKey, allowAllNamespacePod), by simp [upsert], rfl⟩
  | cons hd rest ih =>
    obtain ⟨k', v'⟩ := hd
    intro hm
    have hv' : k' = v'.PrimaryKey := hm (k', v') (List.mem_cons_self _ _)
    rw [upsert]
    split_ifs with h1 h2
    · exact ⟨_, List.mem_cons_self _ _, rfl⟩
    · refine ⟨_, List.mem_cons_self _ _, ?_⟩
      obtain ⟨hn, hp⟩ := PrimaryKey_allowAll v' (by rw [← hv', h2])
      show CombineNamespacePodMatchers v' allowAllNamespacePod = allowAllNamespacePod
      simp [CombineNamespacePodMatchers, allowAllNamespacePod, hn, hp,
        CombinePortMatchers_all_right]
    · obtain ⟨kv, hkv, hkv'⟩ := ih (fun kv h => hm kv (List.mem_cons_of_mem _ h))
      exact ⟨kv, List.mem_cons_of_mem _ hkv, hkv'⟩

/-- One step of the shortcut-free peer loop on a peer with an IPBlock. -/
theorem BuildPeerMatcherLoopNoShortcut_block (ns : String) (port : PortMatcher)
    (peer : NetworkPolicyPeer) (rest : List NetworkPolicyPeer) (ip : IPMatcher)
    (int : InternalMatcher) (b : IPBlock) (h : peer.IPBlock = some b) :
    BuildPeerMatcherLoopNoShortcut ns port (peer :: rest) ip int =
      BuildPeerMatcherLoopNoShortcut ns port rest
        (CombineIPMatchers ip
          (NewSpecificIPMatcher NonePortMatcher [{ IPBlock := b, Port := some port }])) int := by
  rw [BuildPeerMatcherLoopNoShortcut, BuildIPBlockNamespacePodMatcher_block ns peer b h]
  simp

/-- One step of the shortcut-free peer loop on a selector peer. -/
theorem BuildPeerMatcherLoopNoShortcut_selector (ns : String) (port : PortMatcher)
    (peer : NetworkPolicyPeer) (rest : List NetworkPolicyPeer) (ip : IPMatcher)
    (int : InternalMatcher) (n : NamespaceMatcher) (p : PodMatcher)
    (h : BuildIPBlockNamespacePodMatcher ns peer = (none, some n, some p)) :
    BuildPeerMatcherLoopNoShortcut ns port (peer :: rest) ip int =
      BuildPeerMatcherLoopNoShortcut ns port rest ip
        (CombineInternalMatchers int
          (SpecificInternalMatcher
            [(NamespacePodMatcher.PrimaryKey { Namespace := n, Pod := p, Port := port },
              { Namespace := n, Pod := p, Port := port })])) := by
  rw [BuildPeerMatcherLoopNoShortcut, h]
  simp only [Option.isNone_none, Option.isNone_some, Option.isSome_none, Bool.and_false,
    Bool.false_and, Bool.false_eq_true, if_false]
  rfl

/-- The union of an Internal matcher that is not AllInternal with a one-entry SpecificInternal. -/
theorem CombineInternalMatchers_single (n : InternalMatcher) (x : NamespacePodMatcher)
    (hn : n ≠ AllInternalMatcher) :
    CombineInternalMatchers n (SpecificInternalMatcher [(x.PrimaryKey, x)]) =
      SpecificInternalMatcher
        (upsert CombineNamespacePodMatchers x.PrimaryKey x n.namespacePodsMap) := by
  cases n with
  | NoneInternalMatcher => rfl
  | AllInternalMatcher => exact absurd rfl hn
  | SpecificInternalMatcher m => rfl

/-- The keys of the map of an Internal arm on which the shortcut has not fired. -/
theorem namespacePodsMap_keys (n : InternalMatcher)
    (hQ : ∀ m, n = SpecificInternalMatcher m → ∀ kv ∈ m, kv.1 = kv.2.PrimaryKey) :
    ∀ kv ∈ n.namespacePodsMap, kv.1 = kv.2.PrimaryKey := by
  cases n with
  | NoneInternalMatcher => intro kv h; simp [InternalMatcher.namespacePodsMap] at h
  | AllInternalMatcher => intro kv h; simp [InternalMatcher.namespacePodsMap] at h
  | SpecificInternalMatcher m => exact hQ m rfl

/-- One selector peer keeps the arm built with the shortcut and the arm built without it
related. -/
theorem shortcutRelated_step (port : PortMatcher) (nm : NamespaceMatcher) (pm : PodMatcher)
    (s n : InternalMatcher) (hR : shortcutRelated s n) :
    shortcutRelated
      (CombineInternalMatchers (applyShortcut port nm pm s)
        (SpecificInternalMatcher
          [(NamespacePodMatcher.PrimaryKey { Namespace := nm, Pod := pm, Port := port },
            { Namespace := nm, Pod := pm, Port := port })]))
      (CombineInternalMatchers n
        (SpecificInternalMatcher
          [(NamespacePodMatcher.PrimaryKey { Namespace := nm, Pod := pm, Port := port },
            { Namespace := nm, Pod := pm, Port := port })])) := by
  rcases hR with ⟨hsn, hnAll, hQ⟩ | ⟨hs, m, hn, hP⟩
  · subst hsn
    have hQ' := namespacePodsMap_keys s hQ
    by_cases htrig : port = AllPortMatcher ∧ nm = AllNamespaceMatcher ∧ pm = AllPodMatcher
    · obtain ⟨h1, h2, h3⟩ := htrig
      subst h1 h2 h3
      right
      refine ⟨?_, ?_⟩
      · rw [show applyShortcut AllPortMatcher AllNamespaceMatcher AllPodMatcher s =
          AllInternalMatcher from rfl, CombineInternalMatchers_all_left]
      · rw [CombineInternalMatchers_single s _ hnAll]
        exact ⟨_, rfl, upsert_allowAll s.namespacePodsMap hQ'⟩
    · have hno : applyShortcut port nm pm s = s := by
        cases port <;> cases nm <;> cases pm <;> simp_all [applyShortcut]
      left
      rw [hno, CombineInternalMatchers_single s _ hnAll]
      refine ⟨rfl, by simp, ?_⟩
      intro m hm
      injection hm with hm
      subst hm
      exact upsert_keys CombineNamespacePodMatchers NamespacePodMatcher.PrimaryKey
        (fun _ _ => rfl) _ _ hQ'
  · subst hs hn
    right
    refine ⟨?_, ?_⟩
    · have hs : applyShortcut port nm pm AllInternalMatcher = AllInternalMatcher := by
        cases port <;> cases nm <;> cases pm <;> rfl
      rw [hs, CombineInternalMatchers_all_left]
    · refine ⟨_, rfl, ?_⟩
      apply upsert_exists CombineNamespacePodMatchers allowAllNamespacePod _ _ _ m hP
      intro b
      simp [CombineNamespacePodMatchers, allowAllNamespacePod, CombinePortMatchers_all_left]

/-- The peer loop with the shortcut and the peer loop without it return, build the same IP arm
and keep their Internal arms related. -/
theorem shortcut_simulation (ns : String) (port : PortMatcher) :
    ∀ (peers : List NetworkPolicyPeer) (ip : IPMatcher) (s n : InternalMatcher),
      shortcutRelated s n →
      ∃ ip' s' n',
        BuildPeerMatcherLoop ns port peers ip s = .ok (SpecificPeerMatcher ip' s') ∧
        BuildPeerMatcherLoopNoShortcut ns port peers ip n = .ok (SpecificPeerMatcher ip' n') ∧
        shortcutRelated s' n' := by
  intro peers
  induction peers with
  | nil => intro ip s n hR; exact ⟨ip, s, n, rfl, rfl, hR⟩
  | cons peer rest ih =>
    intro ip s n hR
    cases hb : peer.IPBlock with
    | some b =>
      rw [BuildPeerMatcherLoop_block ns port peer rest ip s b hb,
        BuildPeerMatcherLoopNoShortcut_block ns port peer rest ip n b hb]
      exact ih _ s n hR
    | none =>
      obtain ⟨nm, pm, hnp⟩ := BuildIPBlockNamespacePodMatcher_selector ns peer hb
      rw [BuildPeerMatcherLoop_selector ns port peer rest ip s nm pm hnp,
        BuildPeerMatcherLoopNoShortcut_selector ns port peer rest ip n nm pm hnp]
      exact ih ip _ _ (shortcutRelated_step port nm pm s n hR)

/-- The allow-everything matcher allows every query. -/
theorem allowAllNamespacePod_allows (peerNamespace : String)
    (namespaceLabels podLabels : List (String × String)) (port : IntOrString)
    (protocol : Protocol) :
    allowAllNamespacePod.Allows peerNamespace namespaceLabels podLabels port protocol = true := by
  rfl

/-- Related Internal arms give the same answer to every query. -/
theorem shortcutRelated_allows (s n : InternalMatcher) (hR : shortcutRelated s n)
    (peerNamespace : String) (namespaceLabels podLabels : List (String × String))
    (port : IntOrString) (protocol : Protocol) :
    s.Allows peerNamespace namespaceLabels podLabels port protocol =
      n.Allows peerNamespace namespaceLabels podLabels port protocol := by
  rcases hR with ⟨hsn, _, _⟩ | ⟨hs, m, hn, kv, hkv, hkv'⟩
  · rw [hsn]
  · subst hs hn
    symm
    simp only [InternalMatcher.Allows, List.any_eq_true]
    exact ⟨kv, hkv, by rw [hkv']; rfl⟩

/-- C12: the AllInternal shortcut is semantically equal to not taking it: for every rule,
`BuildPeerMatcher` and the same procedure without the shortcut both return, with the same IP
arm, and their Internal arms give the same allow/deny answer to every internal query (peer
namespace, namespace labels, pod labels, port, protocol); where the two arms differ, the arm of
the code is AllInternal and the arm without the shortcut is a SpecificInternal that contains the
(all namespaces, all pods, all ports) NamespacePodMatcher. -/
theorem BuildPeerMatcher_shortcut_equivalent (ns : String) (npPorts : List NetworkPolicyPort)
    (peers : List NetworkPolicyPeer) :
    (peers = [] → BuildPeerMatcherNoShortcut ns npPorts peers = BuildPeerMatcher ns npPorts peers) ∧
    (peers ≠ [] →
      ∃ ip internal internal',
        BuildPeerMatcher ns npPorts peers = .ok (SpecificPeerMatcher ip internal) ∧
        BuildPeerMatcherNoShortcut ns npPorts peers = .ok (SpecificPeerMatcher ip internal') ∧
        (∀ (peerNamespace : String) (namespaceLabels podLabels : List (String × String))
            (port : IntOrString) (protocol : Protocol),
          internal.Allows peerNamespace namespaceLabels podLabels port protocol =
            internal'.Allows peerNamespace namespaceLabels podLabels port protocol) ∧
        (internal ≠ internal' →
          internal = AllInternalMatcher ∧
          ∃ m, internal' = SpecificInternalMatcher m ∧
            ∃ kv ∈ m, kv.2 =
              { Namespace := AllNamespaceMatcher, Pod := AllPodMatcher,
                Port := AllPortMatcher })) := by
  constructor
  · intro h; subst h; rfl
  · intro hne
    have hlen : ¬ peers.length = 0 := fun h0 => hne (List.length_eq_zero.mp h0)
    have hR₀ : shortcutRelated NoneInternalMatcher NoneInternalMatcher :=
      Or.inl ⟨rfl, by simp, by intro m hm; cases hm⟩
    obtain ⟨ip, s, n, h1, h2, hR⟩ := shortcut_simulation ns (BuildPortMatcher npPorts) peers
      NoneIPMatcher NoneInternalMatcher NoneInternalMatcher hR₀
    refine ⟨ip, s, n, ?_, ?_, ?_, ?_⟩
    · simp only [BuildPeerMatcher, hlen, if_false]; exact h1
    · simp only [BuildPeerMatcherNoShortcut, hlen, if_false]; exact h2
    · intro a b c d e; exact shortcutRelated_allows s n hR a b c d e
    · intro hdiff
      rcases hR with ⟨hsn, _, _⟩ | ⟨hs, m, hn, hP⟩
      · exact absurd hsn hdiff
      · exact ⟨hs, m, hn, hP⟩

/-- Witness of C12: an all-namespaces peer followed by a selector peer, on all ports. -/
theorem BuildPeerMatcher_shortcut_equivalent_witness :
    ∃ ip internal internal',
      BuildPeerMatcher "x" []
          [{ IPBlock := none,
             NamespaceSelector := some { MatchLabels := [], MatchExpressions := [] },
             PodSelector := none },
           { IPBlock := none, NamespaceSelector := none,
             PodSelector := some { MatchLabels := [("pod", "a")], MatchExpressions := [] } }] =
        .ok (SpecificPeerMatcher ip internal) ∧
      BuildPeerMatcherNoShortcut "x" []
          [{ IPBlock := none,
             NamespaceSelector := some { MatchLabels := [], MatchExpressions := [] },
             PodSelector := none },
           { IPBlock := none, NamespaceSelector := none,
             PodSelector := some { MatchLabels := [("pod", "a")], MatchExpressions := [] } }] =
        .ok (SpecificPeerMatcher ip internal') ∧
      internal.Allows "y" [("ns", "y")] [("pod", "b")] ⟨.Int, 80, ""⟩ "TCP" =
        internal'.Allows "y" [("ns", "y")] [("pod", "b")] ⟨.Int, 80, ""⟩ "TCP" := by
  obtain ⟨ip, s, n, h1, h2, h3, _⟩ := (BuildPeerMatcher_shortcut_equivalent "x" []
    [{ IPBlock := none,
       NamespaceSelector := some { MatchLabels := [], MatchExpressions := [] },
       PodSelector := none },
     { IPBlock := none, NamespaceSelector := none,
       PodSelector := some { MatchLabels := [("pod", "a")], MatchExpressions := [] } }]).2
    (by decide)
  exact ⟨ip, s, n, h1, h2, h3 _ _ _ _ _⟩

/-! ## Duplicates of ports -/

/-- C13, counterexample: for a port list that names TCP port 80 twice, once with the protocol
left out, `BuildPortMatcher` returns a SpecificPort matcher whose two entries are equal. -/
theorem BuildPortMatcher_keeps_duplicates :
    BuildPortMatcher
        [{ Protocol := some ProtocolTCP, Port := some ⟨.Int, 80, ""⟩ },
         { Protocol := none, Port := some ⟨.Int, 80, ""⟩ }] =
      SpecificPortMatcher
        [{ Port := some ⟨.Int, 80, ""⟩, Protocol := "TCP" },
         { Port := some ⟨.Int, 80, ""⟩, Protocol := "TCP" }] ∧
    ¬ ([{ Port := some ⟨.Int, 80, ""⟩, Protocol := "TCP" },
        { Port := some ⟨.Int, 80, ""⟩, Protocol := "TCP" }] : List PortProtocolMatcher).Nodup := by
  constructor
  · rfl
  · decide

/-- C13, amended: the entry list of the SpecificPort matcher that `BuildPortMatcher` returns
has no exact duplicates if and only if no two ports of the input have the same port and the
same protocol, a missing protocol counting as TCP; duplicates of the input are kept. -/
theorem BuildPortMatcher_nodup_iff (npPorts : List NetworkPolicyPort)
    (entries : List PortProtocolMatcher)
    (h : BuildPortMatcher npPorts = SpecificPortMatcher entries) :
    entries.Nodup ↔
      npPorts.Pairwise (fun a b =>
        ¬ (a.Port = b.Port ∧ a.Protocol.getD ProtocolTCP = b.Protocol.getD ProtocolTCP)) := by
  have hne : npPorts ≠ [] := by
    intro h0
    subst h0
    simp [BuildPortMatcher] at h
  rw [BuildPortMatcher_specific npPorts hne] at h
  injection h with h
  subst h
  rw [List.Nodup, List.pairwise_map]
  simp

/-- Witness of C13 amended: two different ports give two different entries. -/
theorem BuildPortMatcher_nodup_iff_witness :
    BuildPortMatcher
        [{ Protocol := some ProtocolTCP, Port := some ⟨.Int, 80, ""⟩ },
         { Protocol := none, Port := some ⟨.Int, 81, ""⟩ }] =
      SpecificPortMatcher
        [{ Port := some ⟨.Int, 80, ""⟩, Protocol := "TCP" },
         { Port := some ⟨.Int, 81, ""⟩, Protocol := "TCP" }] ∧
    ([{ Port := some ⟨.Int, 80, ""⟩, Protocol := "TCP" },
      { Port := some ⟨.Int, 81, ""⟩, Protocol := "TCP" }] : List PortProtocolMatcher).Nodup :=
  ⟨rfl, (BuildPortMatcher_nodup_iff
    [{ Protocol := some ProtocolTCP, Port := some ⟨.Int, 80, ""⟩ },
     { Protocol := none, Port := some ⟨.Int, 81, ""⟩ }] _ rfl).mpr (by decide)⟩

/-! ## Properties of every matcher in a built tree -/

/-- The union of two Internal matchers holds only matchers with a property that the two held
and that merging keeps. -/
theorem CombineInternalMatchers_forall (φ : NamespacePodMatcher → Prop)
    (hφ : ∀ a b, φ a → φ b → φ (CombineNamespacePodMatchers a b)) (a b : InternalMatcher)
    (ha : ∀ v ∈ a.namespacePods, φ v) (hb : ∀ v ∈ b.namespacePods, φ v) :
    ∀ v ∈ (CombineInternalMatchers a b).namespacePods, φ v := by
  cases a with
  | NoneInternalMatcher => cases b <;> exact hb
  | AllInternalMatcher => cases b <;> exact ha
  | SpecificInternalMatcher ma =>
    cases b with
    | NoneInternalMatcher => exact ha
    | AllInternalMatcher => exact hb
    | SpecificInternalMatcher mb =>
      simp only [InternalMatcher.namespacePods, SortedNamespacePods, List.forall_mem_map]
        at ha hb
      simp only [CombineInternalMatchers, InternalMatcher.namespacePods, SortedNamespacePods,
        List.forall_mem_map]
      exact foldl_upsert_forall CombineNamespacePodMatchers φ hφ mb ma hb ha

/-- The union of two IP matchers holds only blocks with a property that the two held and that
merging keeps. -/
theorem CombineIPMatchers_forall (ψ : IPBlockMatcher → Prop)
    (hψ : ∀ a b, ψ a → ψ b → ψ (CombineIPBlockMatchers a b)) (a b : IPMatcher)
    (ha : ∀ v ∈ a.ipBlocks, ψ v) (hb : ∀ v ∈ b.ipBlocks, ψ v) :
    ∀ v ∈ (CombineIPMatchers a b).ipBlocks, ψ v := by
  cases a with
  | NoneIPMatcher => cases b <;> exact hb
  | AllIPMatcher => cases b <;> exact ha
  | SpecificIPMatcher pa ma =>
    cases b with
    | NoneIPMatcher => exact ha
    | AllIPMatcher => exact hb
    | SpecificIPMatcher pb mb =>
      simp only [IPMatcher.ipBlocks, SortedIPBlocks, List.forall_mem_map] at ha hb
      simp only [CombineIPMatchers, IPMatcher.ipBlocks, SortedIPBlocks, List.forall_mem_map]
      exact foldl_upsert_forall CombineIPBlockMatchers ψ hψ mb ma hb ha

/-- The union of two peer matchers keeps a property of all the matchers in the two trees. -/
theorem CombinePeerMatchers_forall (φ : NamespacePodMatcher → Prop) (ψ : IPBlockMatcher → Prop)
    (hφ : ∀ a b, φ a → φ b → φ (CombineNamespacePodMatchers a b))
    (hψ : ∀ a b, ψ a → ψ b → ψ (CombineIPBlockMatchers a b)) (a b : PeerMatcher)
    (ha : a.Forall φ ψ) (hb : b.Forall φ ψ) : (CombinePeerMatchers a b).Forall φ ψ := by
  cases a with
  | NonePeerMatcher => cases b <;> exact hb
  | AllPeerMatcher => cases b <;> exact ha
  | SpecificPeerMatcher ia na =>
    cases b with
    | NonePeerMatcher => exact ha
    | AllPeerMatcher => exact hb
    | SpecificPeerMatcher ib nb =>
      exact ⟨CombineInternalMatchers_forall φ hφ na nb ha.1 hb.1,
        CombineIPMatchers_forall ψ hψ ia ib ha.2 hb.2⟩

/-- The namespace matcher that `BuildIPBlockNamespacePodMatcher` returns names no namespace but
the policy namespace. -/
theorem BuildIPBlockNamespacePodMatcher_exact (ns : String) (peer : NetworkPolicyPeer)
    (ip : Option IPBlockMatcher) (n : NamespaceMatcher) (p : Option PodMatcher)
    (h : BuildIPBlockNamespacePodMatcher ns peer = (ip, some n, p)) :
    ∀ e, n = ExactNamespaceMatcher e → e = ns := by
  intro e he
  subst he
  unfold BuildIPBlockNamespacePodMatcher at h
  cases hb : peer.IPBlock with
  | some b => simp [hb] at h
  | none =>
    have h2 := congrArg (fun t => t.2.1) h
    simp only [hb] at h2
    cases hn : peer.NamespaceSelector with
    | none =>
      simp only [hn, Option.some.injEq, ExactNamespaceMatcher.injEq] at h2
      exact h2.symm
    | some sel =>
      by_cases hs : IsLabelSelectorEmpty sel = true <;> simp [hn, hs] at h2

/-- The peer loop keeps a property of all the matchers in the tree, when the matchers it makes
of the peers have it. -/
theorem BuildPeerMatcherLoop_forall (φ : NamespacePodMatcher → Prop)
    (ψ : IPBlockMatcher → Prop)
    (hφ : ∀ a b, φ a → φ b → φ (CombineNamespacePodMatchers a b))
    (hψ : ∀ a b, ψ a → ψ b → ψ (CombineIPBlockMatchers a b))
    (ns : String) (port : PortMatcher)
    (hnewφ : ∀ (n : NamespaceMatcher) (p : PodMatcher), (∀ e, n = ExactNamespaceMatcher e → e = ns) →
      φ { Namespace := n, Pod := p, Port := port })
    (hnewψ : ∀ blk : IPBlock, ψ { IPBlock := blk, Port := some port }) :
    ∀ (peers : List NetworkPolicyPeer) (ip : IPMatcher) (int : InternalMatcher),
      (∀ v ∈ int.namespacePods, φ v) → (∀ b ∈ ip.ipBlocks, ψ b) →
      ∀ m, BuildPeerMatcherLoop ns port peers ip int = .ok m → m.Forall φ ψ := by
  intro peers
  induction peers with
  | nil =>
    intro ip int hint hip m hm
    simp only [BuildPeerMatcherLoop, Except.ok.injEq] at hm
    subst hm
    exact ⟨hint, hip⟩
  | cons peer rest ih =>
    intro ip int hint hip m hm
    cases hb : peer.IPBlock with
    | some b =>
      rw [BuildPeerMatcherLoop_block ns port peer rest ip int b hb] at hm
      refine ih _ _ hint ?_ m hm
      apply CombineIPMatchers_forall ψ hψ _ _ hip
      intro v hv
      simp only [NewSpecificIPMatcher, List.foldl, upsert, IPMatcher.ipBlocks, SortedIPBlocks,
        List.map, List.mem_singleton] at hv
      subst hv
      exact hnewψ b
    | none =>
      obtain ⟨n, p, hnp⟩ := BuildIPBlockNamespacePodMatcher_selector ns peer hb
      rw [BuildPeerMatcherLoop_selector ns port peer rest ip int n p hnp] at hm
      refine ih _ _ ?_ hip m hm
      apply CombineInternalMatchers_forall φ hφ
      · have hcases : applyShortcut port n p int = AllInternalMatcher ∨
            applyShortcut port n p int = int := by
          cases port <;> cases n <;> cases p <;> simp [applyShortcut]
        rcases hcases with h | h
        · rw [h]; intro v hv; simp [InternalMatcher.namespacePods] at hv
        · rw [h]; exact hint
      · intro v hv
        simp only [InternalMatcher.namespacePods, SortedNamespacePods, List.map,
          List.mem_singleton] at hv
        subst hv
        exact hnewφ n p (BuildIPBlockNamespacePodMatcher_exact ns peer _ n _ hnp)

/-- The function `BuildPeerMatcher` returns a tree all of whose matchers have a property that
the matchers it makes of the peers have and that merging keeps. -/
theorem BuildPeerMatcher_forall (φ : NamespacePodMatcher → Prop) (ψ : IPBlockMatcher → Prop)
    (hφ : ∀ a b, φ a → φ b → φ (CombineNamespacePodMatchers a b))
    (hψ : ∀ a b, ψ a → ψ b → ψ (CombineIPBlockMatchers a b))
    (ns : String) (npPorts : List NetworkPolicyPort) (peers : List NetworkPolicyPeer)
    (hnewφ : ∀ (n : NamespaceMatcher) (p : PodMatcher), (∀ e, n = ExactNamespaceMatcher e → e = ns) →
      φ { Namespace := n, Pod := p, Port := BuildPortMatcher npPorts })
    (hnewψ : ∀ blk : IPBlock, ψ { IPBlock := blk, Port := some (BuildPortMatcher npPorts) }) :
    ∀ m, BuildPeerMatcher ns npPorts peers = .ok m → m.Forall φ ψ := by
  intro m hm
  unfold BuildPeerMatcher at hm
  by_cases hp : peers.length = 0
  · simp only [hp, if_true] at hm
    have hall := hnewφ AllNamespaceMatcher AllPodMatcher (by intro e he; cases he)
    cases hport : BuildPortMatcher npPorts <;> rw [hport] at hm hall <;>
      simp only [Except.ok.injEq] at hm <;> subst hm
    · refine ⟨?_, ?_⟩
      · intro v hv
        simp only [PeerMatcher.namespacePods, NewSpecificInternalMatcher, List.foldl, upsert,
          InternalMatcher.namespacePods, SortedNamespacePods, List.map, List.mem_singleton] at hv
        subst hv; exact hall
      · intro b hb
        simp [PeerMatcher.ipBlocks, NewSpecificIPMatcher, IPMatcher.ipBlocks, SortedIPBlocks]
          at hb
    · exact ⟨by intro v hv; simp [PeerMatcher.namespacePods] at hv,
        by intro b hb; simp [PeerMatcher.ipBlocks] at hb⟩
    · refine ⟨?_, ?_⟩
      · intro v hv
        simp only [PeerMatcher.namespacePods, NewSpecificInternalMatcher, List.foldl, upsert,
          InternalMatcher.namespacePods, SortedNamespacePods, List.map, List.mem_singleton] at hv
        subst hv; exact hall
      · intro b hb
        simp [PeerMatcher.ipBlocks, NewSpecificIPMatcher, IPMatcher.ipBlocks, SortedIPBlocks]
          at hb
  · simp only [hp, if_false] at hm
    exact BuildPeerMatcherLoop_forall φ ψ hφ hψ ns _ hnewφ hnewψ peers _ _
      (by intro v hv; simp [InternalMatcher.namespacePods] at hv)
      (by intro b hb; simp [IPMatcher.ipBlocks] at hb) m hm

/-- A left fold of unions keeps a property of all the matchers in the trees. -/
theorem foldl_CombinePeerMatchers_forall (φ : NamespacePodMatcher → Prop)
    (ψ : IPBlockMatcher → Prop)
    (hφ : ∀ a b, φ a → φ b → φ (CombineNamespacePodMatchers a b))
    (hψ : ∀ a b, ψ a → ψ b → ψ (CombineIPBlockMatchers a b)) :
    ∀ (ms : List PeerMatcher) (m₀ : PeerMatcher), m₀.Forall φ ψ → (∀ m ∈ ms, m.Forall φ ψ) →
      (ms.foldl CombinePeerMatchers m₀).Forall φ ψ := by
  intro ms
  induction ms with
  | nil => intro m₀ h₀ _; exact h₀
  | cons m rest ih =>
    intro m₀ h₀ hall
    rw [List.foldl_cons]
    exact ih _ (CombinePeerMatchers_forall φ ψ hφ hψ m₀ m h₀ (hall m (List.mem_cons_self _ _)))
      (fun x hx => hall x (List.mem_cons_of_mem _ hx))

/-- The None peer matcher holds no matcher. -/
theorem NonePeerMatcher_forall (φ : NamespacePodMatcher → Prop) (ψ : IPBlockMatcher → Prop) :
    NonePeerMatcher.Forall φ ψ :=
  ⟨by intro v hv; simp [PeerMatcher.namespacePods] at hv,
    by intro b hb; simp [PeerMatcher.ipBlocks] at hb⟩

/-- The function `BuildIngressMatcher` returns a tree all of whose matchers have a property
that the matchers made of the peers have and that merging keeps. -/
theorem BuildIngressMatcher_forall (φ : NamespacePodMatcher → Prop) (ψ : IPBlockMatcher → Prop)
    (hφ : ∀ a b, φ a → φ b → φ (CombineNamespacePodMatchers a b))
    (hψ : ∀ a b, ψ a → ψ b → ψ (CombineIPBlockMatchers a b)) (ns : String)
    (hnewφ : ∀ (n : NamespaceMatcher) (p : PodMatcher) (port : PortMatcher),
      (∀ e, n = ExactNamespaceMatcher e → e = ns) → φ { Namespace := n, Pod := p, Port := port })
    (hnewψ : ∀ (blk : IPBlock) (port : PortMatcher), ψ { IPBlock := blk, Port := some port })
    (rules : List NetworkPolicyIngressRule) (m : PeerMatcher)
    (hm : BuildIngressMatcher ns rules = .ok m) : m.Forall φ ψ := by
  obtain ⟨ms, hall, hfold⟩ := BuildIngressMatcherLoop_fold ns rules NonePeerMatcher
  have hms : ∀ x ∈ ms, x.Forall φ ψ := by
    clear hfold hm
    induction hall with
    | nil => intro x hx; simp at hx
    | cons hr _ ih =>
      intro x hx
      rcases List.mem_cons.mp hx with h | h
      · subst h
        exact BuildPeerMatcher_forall φ ψ hφ hψ ns _ _ (fun n p => hnewφ n p _)
          (fun blk => hnewψ blk _) _ hr
      · exact ih x h
  have heq : m = ms.foldl CombinePeerMatchers NonePeerMatcher := by
    have h := hm.symm.trans hfold
    exact Except.ok.inj h
  rw [heq]
  exact foldl_CombinePeerMatchers_forall φ ψ hφ hψ ms _ (NonePeerMatcher_forall φ ψ) hms

/-- The function `BuildEgressMatcher` returns a tree all of whose matchers have a property that
the matchers made of the peers have and that merging keeps. -/
theorem BuildEgressMatcher_forall (φ : NamespacePodMatcher → Prop) (ψ : IPBlockMatcher → Prop)
    (hφ : ∀ a b, φ a → φ b → φ (CombineNamespacePodMatchers a b))
    (hψ : ∀ a b, ψ a → ψ b → ψ (CombineIPBlockMatchers a b)) (ns : String)
    (hnewφ : ∀ (n : NamespaceMatcher) (p : PodMatcher) (port : PortMatcher),
      (∀ e, n = ExactNamespaceMatcher e → e = ns) → φ { Namespace := n, Pod := p, Port := port })
    (hnewψ : ∀ (blk : IPBlock) (port : PortMatcher), ψ { IPBlock := blk, Port := some port })
    (rules : List NetworkPolicyEgressRule) (m : PeerMatcher)
    (hm : BuildEgressMatcher ns rules = .ok m) : m.Forall φ ψ := by
  obtain ⟨ms, hall, hfold⟩ := BuildEgressMatcherLoop_fold ns rules NonePeerMatcher
  have hms : ∀ x ∈ ms, x.Forall φ ψ := by
    clear hfold hm
    induction hall with
    | nil => intro x hx; simp at hx
    | cons hr _ ih =>
      intro x hx
      rcases List.mem_cons.mp hx with h | h
      · subst h
        exact BuildPeerMatcher_forall φ ψ hφ hψ ns _ _ (fun n p => hnewφ n p _)
          (fun blk => hnewψ blk _) _ hr
      · exact ih x h
  have heq : m = ms.foldl CombinePeerMatchers NonePeerMatcher := by
    have h := hm.symm.trans hfold
    exact Except.ok.inj h
  rw [heq]
  exact foldl_CombinePeerMatchers_forall φ ψ hφ hψ ms _ (NonePeerMatcher_forall φ ψ) hms

/-- Every Target that `BuildTarget` returns has the effective namespace, the pod selector and
the one-element source-rule list of the policy, and a tree all of whose matchers have a property
that the matchers made of the peers have and that merging keeps. -/
theorem BuildTarget_forall (φ : NamespacePodMatcher → Prop) (ψ : IPBlockMatcher → Prop)
    (hφ : ∀ a b, φ a → φ b → φ (CombineNamespacePodMatchers a b))
    (hψ : ∀ a b, ψ a → ψ b → ψ (CombineIPBlockMatchers a b)) (p : NetworkPolicy)
    (hnewφ : ∀ (n : NamespaceMatcher) (pod : PodMatcher) (port : PortMatcher),
      (∀ e, n = ExactNamespaceMatcher e → e = getPolicyNamespace p) →
      φ { Namespace := n, Pod := pod, Port := port })
    (hnewψ : ∀ (blk : IPBlock) (port : PortMatcher), ψ { IPBlock := blk, Port := some port })
    (i e : Option Target) (h : BuildTarget p = .ok (i, e)) (t : Target)
    (ht : i = some t ∨ e = some t) :
    t.Namespace = getPolicyNamespace p ∧ t.PodSelector = p.Spec.PodSelector ∧
      t.SourceRules = [p] ∧ t.Peer.Forall φ ψ := by
  have hne : p.Spec.PolicyTypes ≠ [] := by
    intro h0
    rw [BuildTarget_no_type p h0] at h
    cases h
  obtain ⟨pi, pe, hi, he, hbt⟩ := BuildTarget_eq p hne
  have hpi := BuildIngressMatcher_forall φ ψ hφ hψ _ hnewφ hnewψ _ pi hi
  have hpe := BuildEgressMatcher_forall φ ψ hφ hψ _ hnewφ hnewψ _ pe he
  rw [hbt] at h
  simp only [Except.ok.injEq, Prod.mk.injEq] at h
  obtain ⟨h1, h2⟩ := h
  rcases ht with ht | ht
  · rw [ht] at h1
    by_cases hin : PolicyTypeIngress ∈ p.Spec.PolicyTypes
    · rw [if_pos hin] at h1
      injection h1 with h1
      subst h1
      exact ⟨rfl, rfl, rfl, hpi⟩
    · rw [if_neg hin] at h1
      cases h1
  · rw [ht] at h2
    by_cases hin : PolicyTypeEgress ∈ p.Spec.PolicyTypes
    · rw [if_pos hin] at h2
      injection h2 with h2
      subst h2
      exact ⟨rfl, rfl, rfl, hpe⟩
    · rw [if_neg hin] at h2
      cases h2

/-! ## The effective namespace -/

/-- C14: the effective namespace of a policy is its own namespace when that is non-empty and
"default" when it is empty; it is the Namespace of every Target that `BuildTarget` returns for
the policy, the namespace of the Exact namespace matcher that
`BuildIPBlockNamespacePodMatcher` makes of a peer with a nil namespace selector, and the only
namespace that an Exact namespace matcher in the tree of such a Target names. -/
theorem getPolicyNamespace_effective (p : NetworkPolicy) :
    (p.Namespace ≠ "" → getPolicyNamespace p = p.Namespace) ∧
    (p.Namespace = "" → getPolicyNamespace p = "default") ∧
    (∀ (i e : Option Target), BuildTarget p = .ok (i, e) →
      ∀ t, (i = some t ∨ e = some t) →
        t.Namespace = getPolicyNamespace p ∧
        ∀ v ∈ t.Peer.namespacePods, ∀ n,
          v.Namespace = ExactNamespaceMatcher n → n = getPolicyNamespace p) ∧
    (∀ peer : NetworkPolicyPeer, peer.IPBlock = none → peer.NamespaceSelector = none →
      ∃ pod, BuildIPBlockNamespacePodMatcher (getPolicyNamespace p) peer =
        (none, some (ExactNamespaceMatcher (getPolicyNamespace p)), some pod)) := by
  refine ⟨?_, ?_, ?_, ?_⟩
  · intro h; simp [getPolicyNamespace, h]
  · intro h; simp [getPolicyNamespace, h, NamespaceDefault]
  · intro i e h t ht
    have := BuildTarget_forall
      (fun v => ∀ n, v.Namespace = ExactNamespaceMatcher n → n = getPolicyNamespace p)
      (fun _ => True) (fun a b ha _ => ha) (fun _ _ _ _ => trivial) p
      (fun n pod port hn => hn) (fun _ _ => trivial) i e h t ht
    exact ⟨this.1, this.2.2.2.1⟩
  · intro peer hb hn
    simp [BuildIPBlockNamespacePodMatcher, hb, hn]

/-- Witness of C14: a policy without namespace, whose Target and whose Exact matcher name
"default". -/
theorem getPolicyNamespace_effective_witness :
    getPolicyNamespace
        { Namespace := "", Name := "p",
          Spec := { PodSelector := { MatchLabels := [], MatchExpressions := [] },
                    Ingress := [{ Ports := [], From := [allNilPeer] }], Egress := [],
                    PolicyTypes := [PolicyTypeIngress] } } = "default" ∧
    BuildTarget
        { Namespace := "", Name := "p",
          Spec := { PodSelector := { MatchLabels := [], MatchExpressions := [] },
                    Ingress := [{ Ports := [], From := [allNilPeer] }], Egress := [],
                    PolicyTypes := [PolicyTypeIngress] } } =
      .ok (some
        { Namespace := "default",
          PodSelector := { MatchLabels := [], MatchExpressions := [] },
          SourceRules :=
            [{ Namespace := "", Name := "p",
               Spec := { PodSelector := { MatchLabels := [], MatchExpressions := [] },
                         Ingress := [{ Ports := [], From := [allNilPeer] }], Egress := [],
                         PolicyTypes := [PolicyTypeIngress] } }],
          Peer := SpecificPeerMatcher NoneIPMatcher
            (SpecificInternalMatcher
              [("(namespace default, all pods)",
                { Namespace := ExactNamespaceMatcher "default", Pod := AllPodMatcher,
                  Port := AllPortMatcher })]) }, none) :=
  ⟨(getPolicyNamespace_effective
      { Namespace := "", Name := "p",
        Spec := { PodSelector := { MatchLabels := [], MatchExpressions := [] },
                  Ingress := [{ Ports := [], From := [allNilPeer] }], Egress := [],
                  PolicyTypes := [PolicyTypeIngress] } }).2.1 rfl, rfl⟩

/-! ## The explainer -/

/-- Joining with a separator: a further last line adds the separator and that line. -/
theorem intercalate_go_append (s : String) :
    ∀ (l : List String) (acc x : String),
      String.intercalate.go acc s (l ++ [x]) = String.intercalate.go acc s l ++ s ++ x := by
  intro l
  induction l with
  | nil => intro acc x; simp [String.intercalate.go]
  | cons a rest ih => intro acc x; simp [String.intercalate.go, ih]

/-- Joining non-empty lines followed by one more line. -/
theorem intercalate_append_singleton (s : String) (init : List String) (x : String)
    (h : init ≠ []) : s.intercalate (init ++ [x]) = s.intercalate init ++ s ++ x := by
  cases init with
  | nil => exact absurd rfl h
  | cons a rest => simp [String.intercalate, intercalate_go_append]

/-- The peer block of a Target is never empty. -/
theorem ExplainTargetPeer_ne_nil (peer : PeerMatcher) (targetType indent : String)
    (lines r : List String) (h : ExplainTargetPeer peer targetType indent lines = .ok r) :
    r ≠ [] := by
  cases peer with
  | NonePeerMatcher =>
    simp only [ExplainTargetPeer, Except.ok.injEq] at h
    subst h; simp
  | AllPeerMatcher =>
    simp only [ExplainTargetPeer, Except.ok.injEq] at h
    subst h; simp
  | SpecificPeerMatcher ip internal =>
    simp only [ExplainTargetPeer] at h
    cases hs : ExplainSpecificPeerMatcher ip internal (indent ++ "  ") with
    | error e => rw [hs] at h; cases h
    | ok block =>
      rw [hs] at h
      simp only [Except.ok.injEq] at h
      subst h; simp

/-- The lines of a Target end with the empty line, after at least one other line. -/
theorem ExplainTarget_last (t : Target) (isIngress : Bool) (lines : List String)
    (h : ExplainTarget t isIngress = .ok lines) : ∃ init, init ≠ [] ∧ lines = init ++ [""] := by
  simp only [ExplainTarget] at h
  split at h
  · cases h
  · next r hr =>
    simp only [Except.ok.injEq] at h
    exact ⟨r, ExplainTargetPeer_ne_nil _ _ _ _ _ hr, h.symm⟩

/-- The loop of `Explain` over the Targets of a direction either has no Target and leaves the
lines as they are, or ends with the empty line of the last Target. -/
theorem ExplainTargetsLoop_last (isIngress : Bool) :
    ∀ (ts : List Target) (acc lines : List String),
      ExplainTargetsLoop isIngress ts acc = .ok lines →
      (ts = [] ∧ lines = acc) ∨ ∃ init, init ≠ [] ∧ lines = init ++ [""] := by
  intro ts
  induction ts with
  | nil =>
    intro acc lines h
    simp only [ExplainTargetsLoop, Except.ok.injEq] at h
    exact Or.inl ⟨rfl, h.symm⟩
  | cons t rest ih =>
    intro acc lines h
    right
    rw [ExplainTargetsLoop] at h
    cases ht : ExplainTarget t isIngress with
    | error e => rw [ht] at h; cases h
    | ok block =>
      rw [ht] at h
      obtain ⟨init, hinit, hblock⟩ := ExplainTarget_last t isIngress block ht
      rcases ih _ _ h with ⟨_, hl⟩ | hl
      · refine ⟨acc ++ init, by simp [hinit], ?_⟩
        rw [hl, hblock, List.append_assoc]
      · exact hl

/-- C15, counterexample: `Explain` of the Policy built from the deny-all ingress policy ends
with a newline. -/
theorem Explain_trailing_newline :
    (BuildNetworkPolicies [denyAllIngressPolicy]).bind Explain =
      .ok ("x/matchLabels: [pod=a], matchExpressions: []\n  source rules:\n    x/deny-all\n" ++
        "  all ingress blocked" ++ "\n") := by
  rfl

/-- C15, amended: the string returned by `Explain` is the empty string for the Policy without
Targets, and for every Policy with at least one Target it ends with a newline: the lines are
joined by `\n`, and the last line of every Target is the empty line. -/
theorem Explain_ends_with_newline (policy : Policy) (s : String)
    (h : Explain policy = .ok s) :
    (policy.Ingress = [] ∧ policy.Egress = [] → s = "") ∧
    (¬ (policy.Ingress = [] ∧ policy.Egress = []) → ∃ body, s = body ++ "\n") := by
  simp only [Explain, Policy.SortedTargets] at h
  cases h1 : ExplainTargetsLoop true (policy.Ingress.map Prod.snd) [] with
  | error e => rw [h1] at h; cases h
  | ok lines1 =>
    rw [h1] at h
    simp only at h
    cases h2 : ExplainTargetsLoop false (policy.Egress.map Prod.snd) lines1 with
    | error e => rw [h2] at h; cases h
    | ok lines2 =>
      rw [h2] at h
      simp only [Except.ok.injEq] at h
      have hend : ∀ init : List String, init ≠ [] → lines2 = init ++ [""] →
          ∃ body, s = body ++ "\n" := by
        intro init hinit hl
        refine ⟨"\n".intercalate init, ?_⟩
        rw [← h, hl, intercalate_append_singleton _ _ _ hinit]
        simp
      rcases ExplainTargetsLoop_last false _ _ _ h2 with ⟨he, hl2⟩ | ⟨init, hinit, hl⟩
      · rcases ExplainTargetsLoop_last true _ _ _ h1 with ⟨hi, hl1⟩ | ⟨init, hinit, hl⟩
        · constructor
          · intro _
            rw [← h, hl2, hl1]
            rfl
          · intro hne
            exact absurd ⟨List.map_eq_nil_iff.mp hi, List.map_eq_nil_iff.mp he⟩ hne
        · constructor
          · intro hboth
            rw [hboth.1] at h1
            simp only [List.map_nil, ExplainTargetsLoop, Except.ok.injEq] at h1
            rw [← h1] at hl
            exact absurd hl (by simp)
          · intro _
            exact hend init hinit (hl2.trans hl)
      · constructor
        · intro hboth
          rw [hboth.2] at h2
          rw [hboth.1] at h1
          simp only [List.map_nil, ExplainTargetsLoop, Except.ok.injEq] at h1 h2
          rw [← h2, ← h1] at hl
          exact absurd hl (by simp)
        · intro _
          exact hend init hinit hl

/-- Witness of C15 amended: the Policy of the deny-all ingress policy. -/
theorem Explain_ends_with_newline_witness :
    Explain
        { Ingress :=
            [("x/matchLabels: [pod=a], matchExpressions: []",
              { Namespace := "x",
                PodSelector := { MatchLabels := [("pod", "a")], MatchExpressions := [] },
                SourceRules := [denyAllIngressPolicy], Peer := NonePeerMatcher })],
          Egress := [] } =
      .ok ("x/matchLabels: [pod=a], matchExpressions: []\n  source rules:\n    x/deny-all\n" ++
        "  all ingress blocked\n") ∧
    ∃ body,
      ("x/matchLabels: [pod=a], matchExpressions: []\n  source rules:\n    x/deny-all\n" ++
        "  all ingress blocked\n") = body ++ "\n" :=
  ⟨rfl, (Explain_ends_with_newline
    { Ingress :=
        [("x/matchLabels: [pod=a], matchExpressions: []",
          { Namespace := "x",
            PodSelector := { MatchLabels := [("pod", "a")], MatchExpressions := [] },
            SourceRules := [denyAllIngressPolicy], Peer := NonePeerMatcher })],
      Egress := [] } _ rfl).2 (by simp)⟩

/-- The loop of `ExplainSourceRules` appends one line per source rule, in order. -/
theorem ExplainSourceRulesLoop_eq (indent : String) :
    ∀ (rules : List NetworkPolicy) (lines : List String),
      ExplainSourceRulesLoop indent rules lines =
        lines ++ rules.map (fun sr => indent ++ sr.Namespace ++ "/" ++ sr.Name) := by
  intro rules
  induction rules with
  | nil => intro lines; simp [ExplainSourceRulesLoop]
  | cons sr rest ih => intro lines; simp [ExplainSourceRulesLoop, ih]

/-- The peer block of `ExplainTarget` is appended to the lines so far. -/
theorem ExplainTargetPeer_append (peer : PeerMatcher) (targetType indent : String)
    (lines : List String) :
    ExplainTargetPeer peer targetType indent lines =
      match ExplainTargetPeer peer targetType indent [] with
      | .error e => .error e
      | .ok block => .ok (lines ++ block) := by
  cases peer with
  | NonePeerMatcher => simp [ExplainTargetPeer]
  | AllPeerMatcher => simp [ExplainTargetPeer]
  | SpecificPeerMatcher ip internal =>
    simp only [ExplainTargetPeer]
    cases ExplainSpecificPeerMatcher ip internal (indent ++ "  ") <;> simp

/-- The lines of `ExplainTarget`: primary key, source rules, peer block, empty line. -/
theorem ExplainTarget_eq (t : Target) (isIngress : Bool) :
    ExplainTarget t isIngress =
      match ExplainTargetPeer t.Peer (if isIngress then "ingress" else "egress") "  " [] with
      | .error e => .error e
      | .ok block =>
        .ok (t.GetPrimaryKey ::
          ((if t.SourceRules = [] then []
            else "  source rules:" ::
              t.SourceRules.map (fun sr => "    " ++ sr.Namespace ++ "/" ++ sr.Name)) ++
            block ++ [""])) := by
  simp only [ExplainTarget]
  rw [ExplainTargetPeer_append]
  cases ExplainTargetPeer t.Peer (if isIngress = true then "ingress" else "egress") "  " [] with
  | error e => rfl
  | ok block =>
    simp only [Except.ok.injEq]
    by_cases hsr : t.SourceRules = []
    · simp [hsr]
    · have hlen : t.SourceRules.length ≠ 0 := fun h0 => hsr (List.length_eq_zero.mp h0)
      simp only [hlen, hsr, ne_eq, not_false_eq_true, if_true, if_false, ExplainSourceRules,
        ExplainSourceRulesLoop_eq]
      have h4 : ("  " ++ "  " : String) = "    " := by decide
      simp [h4]

/-- The output of `Explain` for a Policy with one ingress Target and no egress Target. -/
theorem Explain_single_ingress (k : String) (t : Target) (lines : List String)
    (h : ExplainTarget t true = .ok lines) :
    Explain { Ingress := [(k, t)], Egress := [] } = .ok ("\n".intercalate lines) := by
  simp [Explain, Policy.SortedTargets, ExplainTargetsLoop, h]

/-- The output of `Explain` for a Policy with one egress Target and no ingress Target. -/
theorem Explain_single_egress (k : String) (t : Target) (lines : List String)
    (h : ExplainTarget t false = .ok lines) :
    Explain { Ingress := [], Egress := [(k, t)] } = .ok ("\n".intercalate lines) := by
  simp [Explain, Policy.SortedTargets, ExplainTargetsLoop, h]

/-- C18: for every Target and direction flag the lines of `ExplainTarget` are: first the
Target's primary key; then, only when the source-rule list is non-empty, the line
`  source rules:` followed by one line `    <namespace>/<name>` per source rule in the order of
the list; then the peer block; and last an empty line.  The peer block is one line for the None
and the All peer matcher and the line `  <direction>:` followed by the lines of
`ExplainSpecificPeerMatcher` for a Specific one. -/
theorem ExplainTarget_lines (t : Target) (isIngress : Bool) :
    (ExplainTarget t isIngress =
      match ExplainTargetPeer t.Peer (if isIngress then "ingress" else "egress") "  " [] with
      | .error e => .error e
      | .ok block =>
        .ok (t.GetPrimaryKey ::
          ((if t.SourceRules = [] then []
            else "  source rules:" ::
              t.SourceRules.map (fun sr => "    " ++ sr.Namespace ++ "/" ++ sr.Name)) ++
            block ++ [""]))) ∧
    (∀ targetType : String,
      ExplainTargetPeer NonePeerMatcher targetType "  " [] =
        .ok ["  all " ++ targetType ++ " blocked"]) ∧
    (∀ targetType : String,
      ExplainTargetPeer AllPeerMatcher targetType "  " [] =
        .ok ["  all " ++ targetType ++ " allowed"]) ∧
    (∀ (ip : IPMatcher) (internal : InternalMatcher) (targetType : String),
      ExplainTargetPeer (SpecificPeerMatcher ip internal) targetType "  " [] =
        match ExplainSpecificPeerMatcher ip internal "    " with
        | .error e => .error e
        | .ok block => .ok (("  " ++ targetType ++ ":") :: block)) := by
  exact ⟨ExplainTarget_eq t isIngress, fun _ => rfl, fun _ => rfl, fun _ _ _ => rfl⟩

/-- C19: for every Target whose peer is None `ExplainTarget` renders the peer as the single line
`  all ingress blocked` (ingress) or `  all egress blocked` (egress), and for every Target whose
peer is All as `  all ingress allowed` or `  all egress allowed`, between the header lines and
the closing empty line; hence `Explain` of the Policy built from a deny-all ingress policy
contains `all ingress blocked` and `Explain` of the Policy built from an allow-all egress policy
contains `all egress allowed`. -/
theorem ExplainTarget_none_all (t : Target) (ns name : String) (sel : LabelSelector)
    (ingresses : List NetworkPolicyIngressRule) (egresses : List NetworkPolicyEgressRule) :
    (t.Peer = NonePeerMatcher →
      ExplainTarget t true =
        .ok (t.GetPrimaryKey ::
          ((if t.SourceRules = [] then []
            else "  source rules:" ::
              t.SourceRules.map (fun sr => "    " ++ sr.Namespace ++ "/" ++ sr.Name)) ++
            ["  all ingress blocked"] ++ [""])) ∧
      ExplainTarget t false =
        .ok (t.GetPrimaryKey ::
          ((if t.SourceRules = [] then []
            else "  source rules:" ::
              t.SourceRules.map (fun sr => "    " ++ sr.Namespace ++ "/" ++ sr.Name)) ++
            ["  all egress blocked"] ++ [""]))) ∧
    (t.Peer = AllPeerMatcher →
      ExplainTarget t true =
        .ok (t.GetPrimaryKey ::
          ((if t.SourceRules = [] then []
            else "  source rules:" ::
              t.SourceRules.map (fun sr => "    " ++ sr.Namespace ++ "/" ++ sr.Name)) ++
            ["  all ingress allowed"] ++ [""])) ∧
      ExplainTarget t false =
        .ok (t.GetPrimaryKey ::
          ((if t.SourceRules = [] then []
            else "  source rules:" ::
              t.SourceRules.map (fun sr => "    " ++ sr.Namespace ++ "/" ++ sr.Name)) ++
            ["  all egress allowed"] ++ [""]))) ∧
    (∃ before after : String,
      (BuildNetworkPolicies
          [{ Namespace := ns, Name := name,
             Spec := { PodSelector := sel, Ingress := [], Egress := egresses,
                       PolicyTypes := [PolicyTypeIngress] } }]).bind Explain =
        .ok (before ++ "all ingress blocked" ++ after)) ∧
    (∃ before after : String,
      (BuildNetworkPolicies
          [{ Namespace := ns, Name := name,
             Spec := { PodSelector := sel, Ingress := ingresses,
                       Egress := [{ Ports := [], To := [] }],
                       PolicyTypes := [PolicyTypeEgress] } }]).bind Explain =
        .ok (before ++ "all egress allowed" ++ after)) := by
  have hlines := fun b => ExplainTarget_eq t b
  have hblocked : ("  all ingress blocked" : String) = "  " ++ "all ingress blocked" := by decide
  have hallowed : ("  all egress allowed" : String) = "  " ++ "all egress allowed" := by decide
  refine ⟨?_, ?_, ?_, ?_⟩
  · intro h
    constructor
    · rw [hlines true, h]; rfl
    · rw [hlines false, h]; rfl
  · intro h
    constructor
    · rw [hlines true, h]; rfl
    · rw [hlines false, h]; rfl
  · refine ⟨policyPrimaryKey
        { Namespace := ns, Name := name,
          Spec := { PodSelector := sel, Ingress := [], Egress := egresses,
                    PolicyTypes := [PolicyTypeIngress] } } ++
        "\n" ++ "  source rules:" ++ "\n" ++ ("    " ++ ns ++ "/" ++ name) ++ "\n" ++ "  ",
      "\n", ?_⟩
    have hb : BuildNetworkPolicies
        [{ Namespace := ns, Name := name,
           Spec := { PodSelector := sel, Ingress := [], Egress := egresses,
                     PolicyTypes := [PolicyTypeIngress] } }] =
        .ok { Ingress :=
                [(policyPrimaryKey
                    { Namespace := ns, Name := name,
                      Spec := { PodSelector := sel, Ingress := [], Egress := egresses,
                                PolicyTypes := [PolicyTypeIngress] } },
                  { Namespace := getPolicyNamespace
                      { Namespace := ns, Name := name,
                        Spec := { PodSelector := sel, Ingress := [], Egress := egresses,
                                  PolicyTypes := [PolicyTypeIngress] } },
                    PodSelector := sel,
                    SourceRules :=
                      [{ Namespace := ns, Name := name,
                         Spec := { PodSelector := sel, Ingress := [], Egress := egresses,
                                   PolicyTypes := [PolicyTypeIngress] } }],
                    Peer := NonePeerMatcher })],
              Egress := [] } := rfl
    rw [hb, show ∀ x : Policy, (Except.ok x : Except String Policy).bind Explain = Explain x
      from fun _ => rfl]
    rw [Explain_single_ingress _ _ _ (ExplainTarget_eq _ true)]
    simp only [ExplainTargetPeer, List.nil_append, List.cons_ne_nil, if_false, if_true,
      List.map, List.cons_append, String.intercalate, String.intercalate.go, hblocked,
      String.append_assoc, Except.ok.injEq, String.append_empty]
    rfl
  · refine ⟨policyPrimaryKey
        { Namespace := ns, Name := name,
          Spec := { PodSelector := sel, Ingress := ingresses,
                    Egress := [{ Ports := [], To := [] }],
                    PolicyTypes := [PolicyTypeEgress] } } ++
        "\n" ++ "  source rules:" ++ "\n" ++ ("    " ++ ns ++ "/" ++ name) ++ "\n" ++ "  ",
      "\n", ?_⟩
    have hb : BuildNetworkPolicies
        [{ Namespace := ns, Name := name,
           Spec := { PodSelector := sel, Ingress := ingresses,
                     Egress := [{ Ports := [], To := [] }],
                     PolicyTypes := [PolicyTypeEgress] } }] =
        .ok { Ingress := [],
              Egress :=
                [(policyPrimaryKey
                    { Namespace := ns, Name := name,
                      Spec := { PodSelector := sel, Ingress := ingresses,
                                Egress := [{ Ports := [], To := [] }],
                                PolicyTypes := [PolicyTypeEgress] } },
                  { Namespace := getPolicyNamespace
                      { Namespace := ns, Name := name,
                        Spec := { PodSelector := sel, Ingress := ingresses,
                                  Egress := [{ Ports := [], To := [] }],
                                  PolicyTypes := [PolicyTypeEgress] } },
                    PodSelector := sel,
                    SourceRules :=
                      [{ Namespace := ns, Name := name,
                         Spec := { PodSelector := sel, Ingress := ingresses,
                                   Egress := [{ Ports := [], To := [] }],
                                   PolicyTypes := [PolicyTypeEgress] } }],
                    Peer := AllPeerMatcher })] } := rfl
    rw [hb, show ∀ x : Policy, (Except.ok x : Except String Policy).bind Explain = Explain x
      from fun _ => rfl]
    rw [Explain_single_egress _ _ _ (ExplainTarget_eq _ false)]
    simp only [ExplainTargetPeer, List.nil_append, List.cons_ne_nil, if_false, if_true,
      List.map, List.cons_append, String.intercalate, String.intercalate.go, hallowed,
      String.append_assoc, Except.ok.injEq, String.append_empty]
    rfl

/-- Witness of C19: a Target with the None peer matcher and one source rule. -/
theorem ExplainTarget_none_all_witness :
    ExplainTarget
        { Namespace := "x",
          PodSelector := { MatchLabels := [("pod", "a")], MatchExpressions := [] },
          SourceRules := [denyAllIngressPolicy], Peer := NonePeerMatcher } true =
      .ok ["x/matchLabels: [pod=a], matchExpressions: []", "  source rules:",
        "    x/deny-all", "  all ingress blocked", ""] :=
  ((ExplainTarget_none_all
    { Namespace := "x",
      PodSelector := { MatchLabels := [("pod", "a")], MatchExpressions := [] },
      SourceRules := [denyAllIngressPolicy], Peer := NonePeerMatcher }
    "x" "deny-all" { MatchLabels := [], MatchExpressions := [] } [] []).1 rfl).1

/-! ## Building policy by policy -/

/-- The loop of `BuildNetworkPolicies` over a concatenation runs over the first list and then,
from the Policy it has built, over the second. -/
theorem BuildNetworkPoliciesLoop_append :
    ∀ (ps qs : List NetworkPolicy) (np : Policy),
      BuildNetworkPoliciesLoop (ps ++ qs) np =
        (BuildNetworkPoliciesLoop ps np).bind (BuildNetworkPoliciesLoop qs) := by
  intro ps
  induction ps with
  | nil => intro qs np; rfl
  | cons p rest ih =>
    intro qs np
    rw [List.cons_append, BuildNetworkPoliciesLoop, BuildNetworkPoliciesLoop]
    cases BuildTarget p with
    | error e => rfl
    | ok r =>
      obtain ⟨i, e⟩ := r
      exact ih qs _

/-- C20: for every list of policies `ps` and every policy `p'`, `BuildNetworkPolicies` of
`ps ++ [p']` is the Policy obtained from `BuildNetworkPolicies ps` by `AddTarget` of the ingress
Target of `p'` (when `BuildTarget` returns one) followed by `AddTarget` of its egress Target
(when it returns one), and fails when either of the two fails; so building `[p]` and then
adding `p'` yields the same Policy as building `[p, p']` in one call, and `BuildNetworkPolicy p`
equals `BuildNetworkPolicies [p]`. -/
theorem BuildNetworkPolicies_append_one (ps : List NetworkPolicy) (p p' : NetworkPolicy) :
    BuildNetworkPolicies (ps ++ [p']) =
      (match BuildNetworkPolicies ps with
       | .error e => .error e
       | .ok np =>
         match BuildTarget p' with
         | .error e => .error e
         | .ok (ingress, egress) =>
           .ok (match egress with
             | some t =>
               (match ingress with
                 | some t' => np.AddTarget true t'
                 | none => np).AddTarget false t
             | none =>
               match ingress with
               | some t' => np.AddTarget true t'
               | none => np)) ∧
    BuildNetworkPolicies [p, p'] =
      (match BuildNetworkPolicy p with
       | .error e => .error e
       | .ok np =>
         match BuildTarget p' with
         | .error e => .error e
         | .ok (ingress, egress) =>
           .ok (match egress with
             | some t =>
               (match ingress with
                 | some t' => np.AddTarget true t'
                 | none => np).AddTarget false t
             | none =>
               match ingress with
               | some t' => np.AddTarget true t'
               | none => np)) ∧
    BuildNetworkPolicy p = BuildNetworkPolicies [p] := by
  have hmain : ∀ qs : List NetworkPolicy, BuildNetworkPolicies (qs ++ [p']) =
      (match BuildNetworkPolicies qs with
       | .error e => .error e
       | .ok np =>
         match BuildTarget p' with
         | .error e => .error e
         | .ok (ingress, egress) =>
           .ok (match egress with
             | some t =>
               (match ingress with
                 | some t' => np.AddTarget true t'
                 | none => np).AddTarget false t
             | none =>
               match ingress with
               | some t' => np.AddTarget true t'
               | none => np)) := by
    intro qs
    rw [BuildNetworkPolicies, BuildNetworkPoliciesLoop_append, BuildNetworkPolicies]
    cases BuildNetworkPoliciesLoop qs NewPolicy with
    | error e => rfl
    | ok np =>
      show BuildNetworkPoliciesLoop [p'] np = _
      rw [BuildNetworkPoliciesLoop]
      cases BuildTarget p' with
      | error e => rfl
      | ok r =>
        obtain ⟨i, e⟩ := r
        cases i <;> cases e <;> rfl
  exact ⟨hmain ps, hmain [p], rfl⟩

/-! ## The explainer on built Policies -/

/-- Merging two blocks keeps the port of the first set. -/
theorem CombineIPBlockMatchers_port (a b : IPBlockMatcher) (ha : ∃ port, a.Port = some port)
    (_hb : ∃ port, b.Port = some port) : ∃ port, (CombineIPBlockMatchers a b).Port = some port := by
  obtain ⟨pa, hpa⟩ := ha
  cases hpb : b.Port with
  | none => exact ⟨pa, by simp [CombineIPBlockMatchers, hpa, hpb]⟩
  | some pb => exact ⟨CombinePortMatchers pa pb, by simp [CombineIPBlockMatchers, hpa, hpb]⟩

/-- Every block in the tree of a Target that `BuildTarget` returns has its port set. -/
theorem BuildTarget_ports (p : NetworkPolicy) (i e : Option Target)
    (h : BuildTarget p = .ok (i, e)) (t : Target) (ht : i = some t ∨ e = some t) :
    ∀ b ∈ t.Peer.ipBlocks, ∃ port, b.Port = some port :=
  (BuildTarget_forall (fun _ => True) (fun b => ∃ port, b.Port = some port)
    (fun _ _ _ _ => trivial) CombineIPBlockMatchers_port p (fun _ _ _ _ => trivial)
    (fun _ port => ⟨port, rfl⟩) i e h t ht).2.2.2.2

/-- Adding a Target whose blocks have their ports set to a Policy whose blocks have their ports
set gives such a Policy. -/
theorem AddTarget_ports (np : Policy) (isIngress : Bool) (t : Target)
    (hnp : ∀ x ∈ np.targets, ∀ b ∈ x.Peer.ipBlocks, ∃ port, b.Port = some port)
    (ht : ∀ b ∈ t.Peer.ipBlocks, ∃ port, b.Port = some port) :
    ∀ x ∈ (np.AddTarget isIngress t).targets,
      ∀ b ∈ x.Peer.ipBlocks, ∃ port, b.Port = some port := by
  have hmerge : ∀ a c : Target,
      (∀ b ∈ a.Peer.ipBlocks, ∃ port, b.Port = some port) →
      (∀ b ∈ c.Peer.ipBlocks, ∃ port, b.Port = some port) →
      ∀ b ∈ (Target.Combine a c).Peer.ipBlocks, ∃ port, b.Port = some port := by
    intro a c ha hc
    exact (CombinePeerMatchers_forall (fun _ => True) (fun b => ∃ port, b.Port = some port)
      (fun _ _ _ _ => trivial) CombineIPBlockMatchers_port a.Peer c.Peer
      ⟨fun _ _ => trivial, ha⟩ ⟨fun _ _ => trivial, hc⟩).2
  simp only [Policy.targets, Policy.SortedTargets, List.mem_append, List.mem_map] at hnp ⊢
  intro x hx
  cases isIngress with
  | true =>
    simp only [Policy.AddTarget, if_true] at hx
    rcases hx with ⟨kv, hkv, rfl⟩ | ⟨kv, hkv, rfl⟩
    · exact upsert_forall Target.Combine _ hmerge _ t ht np.Ingress
        (fun kv' hkv' => hnp kv'.2 (Or.inl ⟨kv', hkv', rfl⟩)) kv hkv
    · exact hnp kv.2 (Or.inr ⟨kv, hkv, rfl⟩)
  | false =>
    simp only [Policy.AddTarget, Bool.false_eq_true, if_false] at hx
    rcases hx with ⟨kv, hkv, rfl⟩ | ⟨kv, hkv, rfl⟩
    · exact hnp kv.2 (Or.inl ⟨kv, hkv, rfl⟩)
    · exact upsert_forall Target.Combine _ hmerge _ t ht np.Egress
        (fun kv' hkv' => hnp kv'.2 (Or.inr ⟨kv', hkv', rfl⟩)) kv hkv

/-- The loop of `BuildNetworkPolicies` keeps the ports of all blocks set. -/
theorem BuildNetworkPoliciesLoop_ports :
    ∀ (ps : List NetworkPolicy) (np np' : Policy),
      (∀ x ∈ np.targets, ∀ b ∈ x.Peer.ipBlocks, ∃ port, b.Port = some port) →
      BuildNetworkPoliciesLoop ps np = .ok np' →
      ∀ x ∈ np'.targets, ∀ b ∈ x.Peer.ipBlocks, ∃ port, b.Port = some port := by
  intro ps
  induction ps with
  | nil =>
    intro np np' hnp h
    simp only [BuildNetworkPoliciesLoop, Except.ok.injEq] at h
    subst h; exact hnp
  | cons p rest ih =>
    intro np np' hnp h
    rw [BuildNetworkPoliciesLoop] at h
    cases hbt : BuildTarget p with
    | error e => rw [hbt] at h; cases h
    | ok r =>
      obtain ⟨i, e⟩ := r
      rw [hbt] at h
      refine ih _ np' ?_ h
      have h1 : ∀ x ∈ (match i with
          | some t => np.AddTarget true t
          | none => np).targets, ∀ b ∈ x.Peer.ipBlocks, ∃ port, b.Port = some port := by
        cases i with
        | none => exact hnp
        | some t => exact AddTarget_ports np true t hnp (BuildTarget_ports p _ _ hbt t (Or.inl rfl))
      cases e with
      | none => exact h1
      | some t => exact AddTarget_ports _ false t h1 (BuildTarget_ports p _ _ hbt t (Or.inr rfl))

/-- The function `ExplainPortMatcher` returns for every port matcher that is set. -/
theorem ExplainPortMatcher_ok (pm : PortMatcher) (indent : String) :
    ∃ lines, ExplainPortMatcher (some pm) indent = .ok lines := by
  cases pm <;> exact ⟨_, rfl⟩

/-- The function `ExplainIPBlockMatcher` returns for every block whose port is set. -/
theorem ExplainIPBlockMatcher_ok (ip : IPBlockMatcher) (indent : String)
    (h : ∃ port, ip.Port = some port) : ∃ lines, ExplainIPBlockMatcher ip indent = .ok lines := by
  obtain ⟨port, hp⟩ := h
  obtain ⟨ports, hports⟩ := ExplainPortMatcher_ok port (indent ++ "  ")
  simp only [ExplainIPBlockMatcher, hp, hports]
  exact ⟨_, rfl⟩

/-- The loop over the blocks returns when every block has its port set. -/
theorem ExplainIPBlocksLoop_ok (indent : String) :
    ∀ (blocks : List IPBlockMatcher) (lines : List String),
      (∀ b ∈ blocks, ∃ port, b.Port = some port) →
      ∃ r, ExplainIPBlocksLoop indent blocks lines = .ok r := by
  intro blocks
  induction blocks with
  | nil => intro lines _; exact ⟨_, rfl⟩
  | cons b rest ih =>
    intro lines h
    obtain ⟨block, hblock⟩ := ExplainIPBlockMatcher_ok b (indent ++ "  ")
      (h b (List.mem_cons_self _ _))
    rw [ExplainIPBlocksLoop, hblock]
    exact ih _ (fun x hx => h x (List.mem_cons_of_mem _ hx))

/-- The function `ExplainIPMatcher` returns when every block has its port set. -/
theorem ExplainIPMatcher_ok (ip : IPMatcher) (indent : String)
    (h : ∀ b ∈ ip.ipBlocks, ∃ port, b.Port = some port) :
    ∃ lines, ExplainIPMatcher ip indent = .ok lines := by
  cases ip with
  | NoneIPMatcher => exact ⟨_, rfl⟩
  | AllIPMatcher => exact ⟨_, rfl⟩
  | SpecificIPMatcher portsForAllIPs blocks =>
    obtain ⟨ports, hports⟩ := ExplainPortMatcher_ok portsForAllIPs (indent ++ "  ")
    simp only [ExplainIPMatcher, hports]
    exact ExplainIPBlocksLoop_ok indent _ _ h

/-- The loop over the namespace/pod matchers returns. -/
theorem ExplainNamespacePodsLoop_ok (indent : String) :
    ∀ (peers : List NamespacePodMatcher) (lines : List String),
      ∃ r, ExplainNamespacePodsLoop indent peers lines = .ok r := by
  intro peers
  induction peers with
  | nil => intro lines; exact ⟨_, rfl⟩
  | cons peer rest ih =>
    intro lines
    obtain ⟨ports, hports⟩ := ExplainPortMatcher_ok peer.Port (indent ++ "  " ++ "  ")
    have hpeer : ∃ block, ExplainNamespacePod peer (indent ++ "  ") = .ok block := by
      simp only [ExplainNamespacePod, hports]
      exact ⟨_, rfl⟩
    obtain ⟨block, hblock⟩ := hpeer
    rw [ExplainNamespacePodsLoop, hblock]
    exact ih _

/-- The function `ExplainInternalMatcher` returns for every Internal matcher. -/
theorem ExplainInternalMatcher_ok (i : InternalMatcher) (indent : String) :
    ∃ lines, ExplainInternalMatcher i indent = .ok lines := by
  cases i with
  | NoneInternalMatcher => exact ⟨_, rfl⟩
  | AllInternalMatcher => exact ⟨_, rfl⟩
  | SpecificInternalMatcher peers =>
    simp only [ExplainInternalMatcher]
    exact ExplainNamespacePodsLoop_ok indent _ _

/-- The function `ExplainTarget` returns when every block of the Target has its port set. -/
theorem ExplainTarget_ok (t : Target) (isIngress : Bool)
    (h : ∀ b ∈ t.Peer.ipBlocks, ∃ port, b.Port = some port) :
    ∃ lines, ExplainTarget t isIngress = .ok lines := by
  rw [ExplainTarget_eq]
  cases hp : t.Peer with
  | NonePeerMatcher => exact ⟨_, rfl⟩
  | AllPeerMatcher => exact ⟨_, rfl⟩
  | SpecificPeerMatcher ip internal =>
    rw [hp] at h
    obtain ⟨l1, h1⟩ := ExplainIPMatcher_ok ip ("  " ++ "  ") h
    obtain ⟨l2, h2⟩ := ExplainInternalMatcher_ok internal ("  " ++ "  ")
    simp only [ExplainTargetPeer, ExplainSpecificPeerMatcher, h1, h2]
    exact ⟨_, rfl⟩

/-- The loop of `Explain` over Targets returns when every block has its port set. -/
theorem ExplainTargetsLoop_ok (isIngress : Bool) :
    ∀ (ts : List Target) (lines : List String),
      (∀ t ∈ ts, ∀ b ∈ t.Peer.ipBlocks, ∃ port, b.Port = some port) →
      ∃ r, ExplainTargetsLoop isIngress ts lines = .ok r := by
  intro ts
  induction ts with
  | nil => intro lines _; exact ⟨_, rfl⟩
  | cons t rest ih =>
    intro lines h
    obtain ⟨block, hblock⟩ := ExplainTarget_ok t isIngress (h t (List.mem_cons_self _ _))
    rw [ExplainTargetsLoop, hblock]
    exact ih _ (fun x hx => h x (List.mem_cons_of_mem _ hx))

/-- The function `Explain` returns when every block of the Policy has its port set. -/
theorem Explain_ok (np : Policy)
    (h : ∀ t ∈ np.targets, ∀ b ∈ t.Peer.ipBlocks, ∃ port, b.Port = some port) :
    ∃ s, Explain np = .ok s := by
  simp only [Policy.targets, List.mem_append] at h
  obtain ⟨l1, h1⟩ := ExplainTargetsLoop_ok true np.SortedTargets.1 []
    (fun t ht => h t (Or.inl ht))
  obtain ⟨l2, h2⟩ := ExplainTargetsLoop_ok false np.SortedTargets.2 l1
    (fun t ht => h t (Or.inr ht))
  exact ⟨"\n".intercalate l2, by simp only [Explain, h1, h2]⟩

/-- C17: for every list of policies on which `BuildNetworkPolicies` succeeds, `Explain` of the
result returns a string without failing: every IPBlockMatcher in the tree of every Target has
its port matcher set (its IPBlock and every other position of the tree hold a value of their
declared variants by construction), so no `invalid ... type` branch is reached. -/
theorem Explain_built_policy_returns (ps : List NetworkPolicy) (np : Policy)
    (h : BuildNetworkPolicies ps = .ok np) :
    (∃ s, Explain np = .ok s) ∧
    (∃ s, (BuildNetworkPolicies ps).bind Explain = .ok s) ∧
    ∀ t ∈ np.targets, ∀ b ∈ t.Peer.ipBlocks, ∃ port, b.Port = some port := by
  have hports := BuildNetworkPoliciesLoop_ports ps NewPolicy np
    (by intro x hx; simp [Policy.targets, Policy.SortedTargets, NewPolicy] at hx) h
  obtain ⟨s, hs⟩ := Explain_ok np hports
  exact ⟨⟨s, hs⟩, ⟨s, by rw [h]; exact hs⟩, hports⟩

/-- Witness of C17: a policy with an IPBlock peer and a selector peer on TCP port 80. -/
theorem Explain_built_policy_returns_witness :
    ∃ s, (BuildNetworkPolicies
        [policyOf "cidr" [PolicyTypeIngress]
          [{ Ports := [{ Protocol := none, Port := some ⟨.Int, 80, ""⟩ }],
             From := [{ IPBlock := some { CIDR := "10.0.0.0/24", Except := ["10.0.0.5/32"] },
                        NamespaceSelector := none, PodSelector := none },
                      allNilPeer] }] []]).bind Explain = .ok s := by
  obtain ⟨np, hnp⟩ : ∃ np, BuildNetworkPolicies
      [policyOf "cidr" [PolicyTypeIngress]
        [{ Ports := [{ Protocol := none, Port := some ⟨.Int, 80, ""⟩ }],
           From := [{ IPBlock := some { CIDR := "10.0.0.0/24", Except := ["10.0.0.5/32"] },
                      NamespaceSelector := none, PodSelector := none },
                    allNilPeer] }] []] = .ok np := ⟨_, rfl⟩
  exact (Explain_built_policy_returns _ np hnp).2.1

/-! ## Order of the policies -/

/-- Updates of a map under two different keys commute, the first key being the smaller. -/
theorem upsert_comm_of_lt {V : Type} (merge : V → V → V) (k₁ k₂ : String) (h : k₁ < k₂)
    (v₁ v₂ : V) :
    ∀ m : List (String × V),
      upsert merge k₁ v₁ (upsert merge k₂ v₂ m) = upsert merge k₂ v₂ (upsert merge k₁ v₁ m) := by
  have h21 : ¬ k₂ < k₁ := lt_asymm h
  have hne : ¬ k₂ = k₁ := fun e => lt_irrefl k₁ (e ▸ h)
  intro m
  induction m with
  | nil => simp [upsert, h, h21, hne]
  | cons hd rest ih =>
    obtain ⟨k, v⟩ := hd
    rcases lt_trichotomy k₂ k with hk | hk | hk
    · have hk1 : k₁ < k := lt_trans h hk
      simp [upsert, h, h21, hne, hk, hk1]
    · subst hk
      simp [upsert, h, h21, hne]
    · have hk2 : ¬ k₂ < k := lt_asymm hk
      have hk2' : ¬ k₂ = k := fun e => lt_irrefl k (e ▸ hk)
      rcases lt_trichotomy k₁ k with hj | hj | hj
      · simp [upsert, h, h21, hne, hk2, hk2', hj]
      · subst hj
        simp [upsert, h21, hne, hk2, hk2']
      · have hj1 : ¬ k₁ < k := lt_asymm hj
        have hj1' : ¬ k₁ = k := fun e => lt_irrefl k (e ▸ hj)
        simp [upsert, hk2, hk2', hj1, hj1', ih]

/-- Updates of a map under two different keys commute. -/
theorem upsert_comm {V : Type} (merge : V → V → V) (k₁ k₂ : String) (h : k₁ ≠ k₂)
    (v₁ v₂ : V) (m : List (String × V)) :
    upsert merge k₁ v₁ (upsert merge k₂ v₂ m) = upsert merge k₂ v₂ (upsert merge k₁ v₁ m) := by
  rcases lt_trichotomy k₁ k₂ with h1 | h1 | h1
  · exact upsert_comm_of_lt merge k₁ k₂ h1 v₁ v₂ m
  · exact absurd h1 h
  · exact (upsert_comm_of_lt merge k₂ k₁ h1 v₂ v₁ m).symm

/-- An update under a key that is bound first in the map merges with that binding. -/
theorem upsert_same_key {V : Type} (merge : V → V → V) (k : String) (v v' : V)
    (rest : List (String × V)) :
    upsert merge k v ((k, v') :: rest) = (k, merge v' v) :: rest := by
  simp [upsert]

/-- One round of the loop of `BuildNetworkPolicies` on a policy for which `BuildTarget`
returns. -/
theorem BuildNetworkPoliciesLoop_cons_ok (p : NetworkPolicy) (rest : List NetworkPolicy)
    (np : Policy) (i e : Option Target) (h : BuildTarget p = .ok (i, e)) :
    BuildNetworkPoliciesLoop (p :: rest) np = BuildNetworkPoliciesLoop rest (addTargets np i e) := by
  rw [BuildNetworkPoliciesLoop, h]
  rfl

/-- One round of the loop of `BuildNetworkPolicies` on a policy without policy types. -/
theorem BuildNetworkPoliciesLoop_cons_error (p : NetworkPolicy) (rest : List NetworkPolicy)
    (np : Policy) (h : p.Spec.PolicyTypes = []) :
    BuildNetworkPoliciesLoop (p :: rest) np =
      .error "invalid network policy: need at least 1 type" := by
  rw [BuildNetworkPoliciesLoop, BuildTarget_no_type p h]

/-- Adding the Targets of two policies commutes when no Target of the one has the primary key
of a Target of the other in the same direction. -/
theorem addTargets_comm (np : Policy) (ix ex iy ey : Option Target)
    (hI : ∀ a b, ix = some a → iy = some b → a.GetPrimaryKey ≠ b.GetPrimaryKey)
    (hE : ∀ a b, ex = some a → ey = some b → a.GetPrimaryKey ≠ b.GetPrimaryKey) :
    addTargets (addTargets np ix ex) iy ey = addTargets (addTargets np iy ey) ix ex := by
  cases ix <;> cases ex <;> cases iy <;> cases ey <;>
    simp only [addTargets, Policy.AddTarget, if_true, Bool.false_eq_true, if_false]
  all_goals first
    | rfl
    | (congr 1
       · exact (upsert_comm Target.Combine _ _ (hI _ _ rfl rfl) _ _ _).symm
       · exact (upsert_comm Target.Combine _ _ (hE _ _ rfl rfl) _ _ _).symm)
    | (congr 1; exact (upsert_comm Target.Combine _ _ (hI _ _ rfl rfl) _ _ _).symm)
    | (congr 1; exact (upsert_comm Target.Combine _ _ (hE _ _ rfl rfl) _ _ _).symm)

/-- A Target that `BuildTarget` returns for a direction shows that the policy declares the
direction, and has the primary key of the policy. -/
theorem BuildTarget_keys (p : NetworkPolicy) (i e : Option Target)
    (h : BuildTarget p = .ok (i, e)) :
    (∀ a, i = some a →
      PolicyTypeIngress ∈ p.Spec.PolicyTypes ∧ a.GetPrimaryKey = policyPrimaryKey p) ∧
    (∀ a, e = some a →
      PolicyTypeEgress ∈ p.Spec.PolicyTypes ∧ a.GetPrimaryKey = policyPrimaryKey p) := by
  have hne : p.Spec.PolicyTypes ≠ [] := by
    intro h0
    rw [BuildTarget_no_type p h0] at h
    cases h
  obtain ⟨pi, pe, _, _, hbt⟩ := BuildTarget_eq p hne
  rw [hbt] at h
  simp only [Except.ok.injEq, Prod.mk.injEq] at h
  obtain ⟨h1, h2⟩ := h
  constructor
  · intro a ha
    rw [ha] at h1
    by_cases hin : PolicyTypeIngress ∈ p.Spec.PolicyTypes
    · rw [if_pos hin] at h1
      injection h1 with h1
      subst h1
      exact ⟨hin, rfl⟩
    · rw [if_neg hin] at h1
      cases h1
  · intro a ha
    rw [ha] at h2
    by_cases hin : PolicyTypeEgress ∈ p.Spec.PolicyTypes
    · rw [if_pos hin] at h2
      injection h2 with h2
      subst h2
      exact ⟨hin, rfl⟩
    · rw [if_neg hin] at h2
      cases h2

/-- The function `BuildTarget` returns for every policy with a policy type. -/
theorem BuildTarget_ok (p : NetworkPolicy) (h : p.Spec.PolicyTypes ≠ []) :
    ∃ i e, BuildTarget p = .ok (i, e) := by
  obtain ⟨pi, pe, _, _, hbt⟩ := BuildTarget_eq p h
  exact ⟨_, _, hbt⟩

/-- The loop of `BuildNetworkPolicies` gives the same result, Policy or failure, on every
permutation of a list in which no two policies are merged into one Target. -/
theorem BuildNetworkPoliciesLoop_perm (ps ps' : List NetworkPolicy) (hperm : ps.Perm ps') :
    noMergedTargets ps →
      ∀ np, BuildNetworkPoliciesLoop ps np = BuildNetworkPoliciesLoop ps' np := by
  induction hperm with
  | nil => intro _ np; rfl
  | cons x _ ih =>
    intro H np
    have H' := fun p hp q hq => H p (List.mem_cons_of_mem _ hp) q (List.mem_cons_of_mem _ hq)
    by_cases hx : x.Spec.PolicyTypes = []
    · rw [BuildNetworkPoliciesLoop_cons_error x _ np hx,
        BuildNetworkPoliciesLoop_cons_error x _ np hx]
    · obtain ⟨i, e, hbt⟩ := BuildTarget_ok x hx
      rw [BuildNetworkPoliciesLoop_cons_ok x _ np i e hbt,
        BuildNetworkPoliciesLoop_cons_ok x _ np i e hbt]
      exact ih H' _
  | swap x y l =>
    intro H np
    by_cases hxy : y = x
    · subst hxy; rfl
    · by_cases hx : x.Spec.PolicyTypes = []
      · rw [BuildNetworkPoliciesLoop_cons_error x _ np hx]
        by_cases hy : y.Spec.PolicyTypes = []
        · rw [BuildNetworkPoliciesLoop_cons_error y _ np hy]
        · obtain ⟨i, e, hbt⟩ := BuildTarget_ok y hy
          rw [BuildNetworkPoliciesLoop_cons_ok y _ np i e hbt,
            BuildNetworkPoliciesLoop_cons_error x _ _ hx]
      · obtain ⟨ix, ex, hbx⟩ := BuildTarget_ok x hx
        by_cases hy : y.Spec.PolicyTypes = []
        · rw [BuildNetworkPoliciesLoop_cons_error y _ np hy,
            BuildNetworkPoliciesLoop_cons_ok x _ np ix ex hbx,
            BuildNetworkPoliciesLoop_cons_error y _ _ hy]
        · obtain ⟨iy, ey, hby⟩ := BuildTarget_ok y hy
          rw [BuildNetworkPoliciesLoop_cons_ok y _ np iy ey hby,
            BuildNetworkPoliciesLoop_cons_ok x _ _ ix ex hbx,
            BuildNetworkPoliciesLoop_cons_ok x _ np ix ex hbx,
            BuildNetworkPoliciesLoop_cons_ok y _ _ iy ey hby]
          have hkx := BuildTarget_keys x ix ex hbx
          have hky := BuildTarget_keys y iy ey hby
          have hmy : y ∈ y :: x :: l := List.mem_cons_self _ _
          have hmx : x ∈ y :: x :: l := List.mem_cons_of_mem _ (List.mem_cons_self _ _)
          rw [addTargets_comm np iy ey ix ex]
          · intro a b ha hb
            obtain ⟨ha1, ha2⟩ := hky.1 a ha
            obtain ⟨hb1, hb2⟩ := hkx.1 b hb
            rw [ha2, hb2]
            exact H y hmy x hmx hxy (Or.inl ⟨ha1, hb1⟩)
          · intro a b ha hb
            obtain ⟨ha1, ha2⟩ := hky.2 a ha
            obtain ⟨hb1, hb2⟩ := hkx.2 b hb
            rw [ha2, hb2]
            exact H y hmy x hmx hxy (Or.inr ⟨ha1, hb1⟩)
  | trans h₁ _ ih₁ ih₂ =>
    intro H np
    have H' : noMergedTargets _ := fun p hp q hq =>
      H p (h₁.mem_iff.mpr hp) q (h₁.mem_iff.mpr hq)
    rw [ih₁ H np, ih₂ H' np]

/-- Every binding after an update is a binding under the updated key or an old binding. -/
theorem upsert_mem {V : Type} (merge : V → V → V) (k : String) (v : V) :
    ∀ (m : List (String × V)), ∀ x ∈ upsert merge k v m, x.1 = k ∨ x ∈ m := by
  intro m
  induction m with
  | nil =>
    intro x hx
    simp only [upsert, List.mem_singleton] at hx
    subst hx; exact Or.inl rfl
  | cons hd rest ih =>
    obtain ⟨k', v'⟩ := hd
    intro x hx
    rw [upsert] at hx
    split_ifs at hx with h1 h2
    · rcases List.mem_cons.mp hx with rfl | hx
      · exact Or.inl rfl
      · exact Or.inr hx
    · rcases List.mem_cons.mp hx with rfl | hx
      · exact Or.inl rfl
      · exact Or.inr (List.mem_cons_of_mem _ hx)
    · rcases List.mem_cons.mp hx with rfl | hx
      · exact Or.inr (List.mem_cons_self _ _)
      · rcases ih x hx with h | h
        · exact Or.inl h
        · exact Or.inr (List.mem_cons_of_mem _ h)

/-- An update keeps the keys of a map in ascending order. -/
theorem upsert_sorted {V : Type} (merge : V → V → V) (k : String) (v : V) :
    ∀ (m : List (String × V)), m.Pairwise (fun a b => a.1 < b.1) →
      (upsert merge k v m).Pairwise (fun a b => a.1 < b.1) := by
  intro m
  induction m with
  | nil => intro _; simp [upsert]
  | cons hd rest ih =>
    obtain ⟨k', v'⟩ := hd
    intro hm
    obtain ⟨hhd, hrest⟩ := List.pairwise_cons.mp hm
    rw [upsert]
    split_ifs with h1 h2
    · refine List.pairwise_cons.mpr ⟨?_, hm⟩
      intro x hx
      rcases List.mem_cons.mp hx with rfl | hx
      · exact h1
      · exact lt_trans h1 (hhd x hx)
    · subst h2
      exact List.pairwise_cons.mpr ⟨hhd, hrest⟩
    · have hlt : k' < k := by
        rcases lt_trichotomy k k' with h | h | h
        · exact absurd h h1
        · exact absurd h h2
        · exact h
      refine List.pairwise_cons.mpr ⟨?_, ih hrest⟩
      intro x hx
      rcases upsert_mem merge k v rest x hx with h | h
      · rw [h]; exact hlt
      · exact hhd x h

/-- A key that no binding has is not bound. -/
theorem bindingOf_none {V : Type} (k : String) :
    ∀ (m : List (String × V)), (∀ x ∈ m, x.1 ≠ k) → bindingOf k m = none := by
  intro m
  induction m with
  | nil => intro _; rfl
  | cons hd rest ih =>
    obtain ⟨k', v'⟩ := hd
    intro h
    have h1 : ¬ k = k' := fun e => h (k', v') (List.mem_cons_self _ _) e.symm
    rw [bindingOf, if_neg h1]
    exact ih (fun x hx => h x (List.mem_cons_of_mem _ hx))

/-- In a map with ascending keys every binding is the one found under its key. -/
theorem bindingOf_mem {V : Type} (k : String) (v : V) :
    ∀ (m : List (String × V)), m.Pairwise (fun a b => a.1 < b.1) → (k, v) ∈ m →
      bindingOf k m = some v := by
  intro m
  induction m with
  | nil => intro _ h; simp at h
  | cons hd rest ih =>
    obtain ⟨k', v'⟩ := hd
    intro hm hmem
    obtain ⟨hhd, hrest⟩ := List.pairwise_cons.mp hm
    rcases List.mem_cons.mp hmem with h | h
    · cases h
      simp [bindingOf]
    · have hlt : k' < k := hhd _ h
      have hne : ¬ k = k' := fun e => lt_irrefl k' (by rw [e] at hlt; exact hlt)
      rw [bindingOf, if_neg hne]
      exact ih hrest h

/-- The bindings after an update of a map with ascending keys: under the updated key the new
value, merged into the old one if there was one; under every other key what was there. -/
theorem bindingOf_upsert {V : Type} (merge : V → V → V) (k : String) (v : V) (q : String) :
    ∀ (m : List (String × V)), m.Pairwise (fun a b => a.1 < b.1) →
      bindingOf q (upsert merge k v m) =
        if q = k then
          some (match bindingOf k m with
            | some old => merge old v
            | none => v)
        else bindingOf q m := by
  intro m
  induction m with
  | nil =>
    intro _
    simp [upsert, bindingOf]
  | cons hd rest ih =>
    obtain ⟨k', v'⟩ := hd
    intro hm
    obtain ⟨hhd, hrest⟩ := List.pairwise_cons.mp hm
    have hlook : bindingOf q ((k', v') :: rest) =
        if q = k' then some v' else bindingOf q rest := rfl
    have hlookk : bindingOf k ((k', v') :: rest) =
        if k = k' then some v' else bindingOf k rest := rfl
    rw [upsert]
    by_cases h1 : k < k'
    · rw [if_pos h1]
      have hnone : bindingOf k ((k', v') :: rest) = none := by
        apply bindingOf_none
        intro x hx e
        rcases List.mem_cons.mp hx with rfl | hx
        · exact lt_irrefl _ (by rw [← e] at h1; exact h1)
        · exact lt_asymm h1 (by rw [← e]; exact hhd x hx)
      rw [hnone]
      by_cases hq : q = k
      · rw [if_pos hq, bindingOf, if_pos hq]
      · rw [if_neg hq, bindingOf, if_neg hq]
    · rw [if_neg h1]
      by_cases h2 : k = k'
      · rw [if_pos h2, hlookk, if_pos h2]
        by_cases hq : q = k
        · rw [if_pos hq, bindingOf, if_pos hq]
        · have hq' : ¬ q = k' := fun e => hq (e.trans h2.symm)
          rw [if_neg hq, bindingOf, if_neg hq, hlook, if_neg hq']
      · rw [if_neg h2, hlookk, if_neg h2]
        have hlook2 : bindingOf q ((k', v') :: upsert merge k v rest) =
            if q = k' then some v' else bindingOf q (upsert merge k v rest) := rfl
        rw [hlook2, hlook, ih hrest]
        by_cases hq : q = k
        · have hq' : ¬ q = k' := fun e => h2 (hq.symm.trans e)
          rw [if_neg hq', if_pos hq, if_pos hq]
        · rw [if_neg hq, if_neg hq]

/-- The policies of a Target in a concatenation are those in the first list followed by those in
the second. -/
theorem policiesOfTarget_append (isIngress : Bool) (key : String) (ps qs : List NetworkPolicy) :
    policiesOfTarget isIngress key (ps ++ qs) =
      policiesOfTarget isIngress key ps ++ policiesOfTarget isIngress key qs := by
  simp [policiesOfTarget, List.filter_append]

/-- The Targets that `BuildTarget` returns: one for each declared direction, none for the
others; each has the primary key of the policy and the policy as its only source rule. -/
theorem BuildTarget_declared (p : NetworkPolicy) (i e : Option Target)
    (h : BuildTarget p = .ok (i, e)) (isIngress : Bool) :
    if (if isIngress then PolicyTypeIngress else PolicyTypeEgress) ∈ p.Spec.PolicyTypes then
      ∃ t, (if isIngress then i else e) = some t ∧
        t.GetPrimaryKey = policyPrimaryKey p ∧ t.SourceRules = [p]
    else (if isIngress then i else e) = none := by
  have hne : p.Spec.PolicyTypes ≠ [] := by
    intro h0
    rw [BuildTarget_no_type p h0] at h
    cases h
  obtain ⟨pi, pe, _, _, hbt⟩ := BuildTarget_eq p hne
  rw [hbt] at h
  simp only [Except.ok.injEq, Prod.mk.injEq] at h
  obtain ⟨h1, h2⟩ := h
  cases isIngress with
  | true =>
    simp only [if_true]
    by_cases hin : PolicyTypeIngress ∈ p.Spec.PolicyTypes
    · rw [if_pos hin] at h1 ⊢
      exact ⟨_, h1.symm, rfl, rfl⟩
    · rw [if_neg hin] at h1 ⊢
      exact h1.symm
  | false =>
    simp only [Bool.false_eq_true, if_false]
    by_cases hin : PolicyTypeEgress ∈ p.Spec.PolicyTypes
    · rw [if_pos hin] at h2 ⊢
      exact ⟨_, h2.symm, rfl, rfl⟩
    · rw [if_neg hin] at h2 ⊢
      exact h2.symm

/-- One round of the loop of `BuildNetworkPolicies` keeps the invariant of a direction: the
Target of the policy is bound under its key, after the source rules that were there. -/
theorem sourceRulesInOrder_step (isIngress : Bool) (seen : List NetworkPolicy)
    (m : List (String × Target)) (h : sourceRulesInOrder isIngress seen m) (p : NetworkPolicy)
    (o : Option Target)
    (ho : if (if isIngress then PolicyTypeIngress else PolicyTypeEgress) ∈ p.Spec.PolicyTypes
      then ∃ t, o = some t ∧ t.GetPrimaryKey = policyPrimaryKey p ∧ t.SourceRules = [p]
      else o = none) :
    sourceRulesInOrder isIngress (seen ++ [p])
      (o.elim m (fun t => upsert Target.Combine t.GetPrimaryKey t m)) := by
  obtain ⟨hsorted, hsome, hnone⟩ := h
  by_cases hdecl : (if isIngress then PolicyTypeIngress else PolicyTypeEgress) ∈ p.Spec.PolicyTypes
  · rw [if_pos hdecl] at ho
    obtain ⟨t, rfl, hkey, hsr⟩ := ho
    have hp : policiesOfTarget isIngress (policyPrimaryKey p) [p] = [p] := by
      simp [policiesOfTarget, hdecl]
    have hother : ∀ k, k ≠ policyPrimaryKey p → policiesOfTarget isIngress k [p] = [] := by
      intro k hk
      have hk' : ¬ policyPrimaryKey p = k := fun e => hk e.symm
      simp [policiesOfTarget, hk']
    refine ⟨upsert_sorted _ _ _ m hsorted, ?_, ?_⟩
    · intro k x hx
      simp only [Option.elim] at hx
      rw [bindingOf_upsert Target.Combine _ t k m hsorted, hkey] at hx
      rw [policiesOfTarget_append]
      by_cases hk : k = policyPrimaryKey p
      · rw [if_pos hk] at hx
        subst hk
        rw [hp]
        cases hold : bindingOf (policyPrimaryKey p) m with
        | none =>
          rw [hold] at hx
          simp only [Option.some.injEq] at hx
          subst hx
          rw [hnone _ hold, hsr]
          exact ⟨hkey, List.cons_ne_nil _ _, rfl⟩
        | some old =>
          rw [hold] at hx
          simp only [Option.some.injEq] at hx
          subst hx
          obtain ⟨hk1, _, hk2⟩ := hsome _ old hold
          refine ⟨hk1, ?_, ?_⟩
          · show old.SourceRules ++ t.SourceRules ≠ []
            rw [hsr]
            exact List.append_ne_nil_of_right_ne_nil _ (List.cons_ne_nil _ _)
          · show old.SourceRules ++ t.SourceRules = _
            rw [hk2, hsr]
      · rw [if_neg hk] at hx
        rw [hother k hk, List.append_nil]
        exact hsome k x hx
    · intro k hk
      simp only [Option.elim] at hk
      rw [bindingOf_upsert Target.Combine _ t k m hsorted, hkey] at hk
      by_cases hkp : k = policyPrimaryKey p
      · rw [if_pos hkp] at hk
        cases hk
      · rw [if_neg hkp] at hk
        rw [policiesOfTarget_append, hnone k hk, hother k hkp]
        rfl
  · rw [if_neg hdecl] at ho
    subst ho
    have hp : ∀ k, policiesOfTarget isIngress k [p] = [] := by
      intro k
      simp [policiesOfTarget, hdecl]
    refine ⟨hsorted, ?_, ?_⟩
    · intro k x hx
      rw [policiesOfTarget_append, hp, List.append_nil]
      exact hsome k x hx
    · intro k hk
      rw [policiesOfTarget_append, hp, List.append_nil]
      exact hnone k hk

/-- The maps of a Policy after the Targets of one policy have been added. -/
theorem addTargets_maps (np : Policy) (i e : Option Target) :
    (addTargets np i e).Ingress =
        i.elim np.Ingress (fun t => upsert Target.Combine t.GetPrimaryKey t np.Ingress) ∧
      (addTargets np i e).Egress =
        e.elim np.Egress (fun t => upsert Target.Combine t.GetPrimaryKey t np.Egress) := by
  cases i <;> cases e <;> exact ⟨rfl, rfl⟩

/-- The loop of `BuildNetworkPolicies` keeps the invariant of both directions. -/
theorem BuildNetworkPoliciesLoop_sourceRules :
    ∀ (ps seen : List NetworkPolicy) (np np' : Policy),
      sourceRulesInOrder true seen np.Ingress → sourceRulesInOrder false seen np.Egress →
      BuildNetworkPoliciesLoop ps np = .ok np' →
      sourceRulesInOrder true (seen ++ ps) np'.Ingress ∧
        sourceRulesInOrder false (seen ++ ps) np'.Egress := by
  intro ps
  induction ps with
  | nil =>
    intro seen np np' hI hE h
    simp only [BuildNetworkPoliciesLoop, Except.ok.injEq] at h
    subst h
    rw [List.append_nil]
    exact ⟨hI, hE⟩
  | cons p rest ih =>
    intro seen np np' hI hE h
    cases hbt : BuildTarget p with
    | error err =>
      rw [BuildNetworkPoliciesLoop, hbt] at h
      cases h
    | ok r =>
      obtain ⟨i, e⟩ := r
      rw [BuildNetworkPoliciesLoop_cons_ok p rest np i e hbt] at h
      have hmaps := addTargets_maps np i e
      have hI' := sourceRulesInOrder_step true seen np.Ingress hI p i
        (BuildTarget_declared p i e hbt true)
      have hE' := sourceRulesInOrder_step false seen np.Egress hE p e
        (BuildTarget_declared p i e hbt false)
      rw [← hmaps.1] at hI'
      rw [← hmaps.2] at hE'
      have := ih (seen ++ [p]) _ np' hI' hE' h
      rw [List.append_assoc, List.singleton_append] at this
      exact this

/-- Every Target of a built Policy has exactly the policies of the list that declare its
direction and have its primary key as source rules, in the order of the list. -/
theorem BuildNetworkPolicies_sourceRules (ps : List NetworkPolicy) (np : Policy)
    (h : BuildNetworkPolicies ps = .ok np) (isIngress : Bool) :
    ∀ kt ∈ (if isIngress then np.Ingress else np.Egress),
      kt.2.GetPrimaryKey = kt.1 ∧ kt.2.SourceRules ≠ [] ∧
        kt.2.SourceRules = policiesOfTarget isIngress kt.1 ps := by
  have hempty : ∀ d, sourceRulesInOrder d [] ([] : List (String × Target)) := by
    intro d
    refine ⟨List.Pairwise.nil, ?_, ?_⟩
    · intro k t hk
      cases hk
    · intro k _
      rfl
  have hinv := BuildNetworkPoliciesLoop_sourceRules ps [] NewPolicy np (hempty true)
    (hempty false) h
  rw [List.nil_append] at hinv
  intro kt hkt
  obtain ⟨k, t⟩ := kt
  cases isIngress with
  | true => exact hinv.1.2.1 k t (bindingOf_mem k t _ hinv.1.1 hkt)
  | false => exact hinv.2.2.1 k t (bindingOf_mem k t _ hinv.2.1 hkt)

/-- C16, counterexample: two policies with the same namespace and pod selector that both
declare ingress are merged into one Target, whose source rules `Explain` lists in the order in
which the policies were given; the two orders of the list give two different outputs. -/
theorem Explain_depends_on_order :
    [policyOf "p1" [PolicyTypeIngress] [] [], policyOf "p2" [PolicyTypeIngress] [] []].Perm
      [policyOf "p2" [PolicyTypeIngress] [] [], policyOf "p1" [PolicyTypeIngress] [] []] ∧
    (BuildNetworkPolicies
        [policyOf "p1" [PolicyTypeIngress] [] [], policyOf "p2" [PolicyTypeIngress] [] []]).bind
      Explain =
      .ok ("x/matchLabels: [pod=a], matchExpressions: []\n  source rules:\n" ++
        "    x/p1\n    x/p2\n  all ingress blocked\n") ∧
    (BuildNetworkPolicies
        [policyOf "p2" [PolicyTypeIngress] [] [], policyOf "p1" [PolicyTypeIngress] [] []]).bind
      Explain =
      .ok ("x/matchLabels: [pod=a], matchExpressions: []\n  source rules:\n" ++
        "    x/p2\n    x/p1\n  all ingress blocked\n") ∧
    ("x/matchLabels: [pod=a], matchExpressions: []\n  source rules:\n" ++
        "    x/p1\n    x/p2\n  all ingress blocked\n") ≠
      ("x/matchLabels: [pod=a], matchExpressions: []\n  source rules:\n" ++
        "    x/p2\n    x/p1\n  all ingress blocked\n") := by
  have hbuild : ∀ a b : String,
      BuildNetworkPolicies
        [policyOf a [PolicyTypeIngress] [] [], policyOf b [PolicyTypeIngress] [] []] =
      .ok { Ingress :=
              [("x/matchLabels: [pod=a], matchExpressions: []",
                { Namespace := "x",
                  PodSelector := { MatchLabels := [("pod", "a")], MatchExpressions := [] },
                  SourceRules := [policyOf a [PolicyTypeIngress] [] [],
                    policyOf b [PolicyTypeIngress] [] []],
                  Peer := NonePeerMatcher })],
            Egress := [] } := by
    intro a b
    have h : BuildNetworkPolicies
        [policyOf a [PolicyTypeIngress] [] [], policyOf b [PolicyTypeIngress] [] []] =
        .ok { Ingress :=
                upsert Target.Combine "x/matchLabels: [pod=a], matchExpressions: []"
                  { Namespace := "x",
                    PodSelector := { MatchLabels := [("pod", "a")], MatchExpressions := [] },
                    SourceRules := [policyOf b [PolicyTypeIngress] [] []],
                    Peer := NonePeerMatcher }
                  [("x/matchLabels: [pod=a], matchExpressions: []",
                    { Namespace := "x",
                      PodSelector := { MatchLabels := [("pod", "a")], MatchExpressions := [] },
                      SourceRules := [policyOf a [PolicyTypeIngress] [] []],
                      Peer := NonePeerMatcher })],
              Egress := [] } := rfl
    rw [h, upsert_same_key]
    rfl
  refine ⟨List.Perm.swap _ _ _, ?_, ?_, by decide⟩
  · rw [hbuild]; rfl
  · rw [hbuild]; rfl

/-- Two policies of namespace `x` for pods `pod=a` that both declare ingress are merged into
one Target. -/
theorem BuildNetworkPolicies_merged_pair (a b : String) :
    BuildNetworkPolicies
        [policyOf a [PolicyTypeIngress] [] [], policyOf b [PolicyTypeIngress] [] []] =
      .ok { Ingress :=
              [("x/matchLabels: [pod=a], matchExpressions: []",
                { Namespace := "x",
                  PodSelector := { MatchLabels := [("pod", "a")], MatchExpressions := [] },
                  SourceRules := [policyOf a [PolicyTypeIngress] [] [],
                    policyOf b [PolicyTypeIngress] [] []],
                  Peer := NonePeerMatcher })],
            Egress := [] } := by
  have h : BuildNetworkPolicies
      [policyOf a [PolicyTypeIngress] [] [], policyOf b [PolicyTypeIngress] [] []] =
      .ok { Ingress :=
              upsert Target.Combine "x/matchLabels: [pod=a], matchExpressions: []"
                { Namespace := "x",
                  PodSelector := { MatchLabels := [("pod", "a")], MatchExpressions := [] },
                  SourceRules := [policyOf b [PolicyTypeIngress] [] []],
                  Peer := NonePeerMatcher }
                [("x/matchLabels: [pod=a], matchExpressions: []",
                  { Namespace := "x",
                    PodSelector := { MatchLabels := [("pod", "a")], MatchExpressions := [] },
                    SourceRules := [policyOf a [PolicyTypeIngress] [] []],
                    Peer := NonePeerMatcher })],
            Egress := [] } := rfl
  rw [h, upsert_same_key]
  rfl

/-- C16, amended: for every list of policies in which no two different policies that declare a
common direction have the same primary key (effective namespace and canonical pod selector),
and for every permutation of the list, `BuildNetworkPolicies` gives the same result and
`Explain` of it the same output, byte for byte.  For every list of policies on which
`BuildNetworkPolicies` succeeds, merged or not, the source rules of every Target of the result
are the policies of the list that declare the direction of the Target and have its primary key,
in the order of the list, and `ExplainTarget` prints the primary key, the line
`source rules:` and one line for each of these policies in that order, before the peer block. -/
theorem Explain_permutation_invariant (ps ps' : List NetworkPolicy) :
    (ps.Perm ps' → noMergedTargets ps →
      BuildNetworkPolicies ps' = BuildNetworkPolicies ps ∧
      (BuildNetworkPolicies ps').bind Explain = (BuildNetworkPolicies ps).bind Explain) ∧
    (∀ np, BuildNetworkPolicies ps = .ok np → ∀ isIngress : Bool,
      ∀ kt ∈ (if isIngress then np.Ingress else np.Egress),
        kt.2.SourceRules = policiesOfTarget isIngress kt.1 ps ∧
        ∃ block, ExplainTarget kt.2 isIngress =
          .ok (kt.1 :: "  source rules:" ::
            ((policiesOfTarget isIngress kt.1 ps).map
                (fun sr => "    " ++ sr.Namespace ++ "/" ++ sr.Name) ++ block ++ [""]))) := by
  constructor
  · intro hperm hkeys
    have h : BuildNetworkPolicies ps' = BuildNetworkPolicies ps :=
      (BuildNetworkPoliciesLoop_perm ps ps' hperm hkeys NewPolicy).symm
    exact ⟨h, by rw [h]⟩
  · intro np hnp isIngress kt hkt
    obtain ⟨hkey, hne, hsr⟩ := BuildNetworkPolicies_sourceRules ps np hnp isIngress kt hkt
    refine ⟨hsr, ?_⟩
    have hports : ∀ b ∈ kt.2.Peer.ipBlocks, ∃ port, b.Port = some port := by
      apply BuildNetworkPoliciesLoop_ports ps NewPolicy np _ hnp kt.2
      · simp only [Policy.targets, Policy.SortedTargets, List.mem_append, List.mem_map]
        cases isIngress with
        | true => exact Or.inl ⟨kt, hkt, rfl⟩
        | false => exact Or.inr ⟨kt, hkt, rfl⟩
      · intro x hx
        simp [Policy.targets, Policy.SortedTargets, NewPolicy] at hx
    obtain ⟨lines, hlines⟩ := ExplainTarget_ok kt.2 isIngress hports
    rw [ExplainTarget_eq] at hlines ⊢
    cases hblock : ExplainTargetPeer kt.2.Peer (if isIngress then "ingress" else "egress")
        "  " [] with
    | error err =>
      rw [hblock] at hlines
      cases hlines
    | ok block =>
      refine ⟨block, ?_⟩
      have hne' : ¬ policiesOfTarget isIngress kt.1 ps = [] := by
        rw [← hsr]; exact hne
      simp only [hkey, hsr, if_neg hne', List.cons_append]

/-- Witness of C16 amended: the deny-all ingress policies of two namespaces, in both orders, and
two policies that are merged into one Target. -/
theorem Explain_permutation_invariant_witness :
    ([denyAllIngressIn "x" "a", denyAllIngressIn "y" "b"].Perm
        [denyAllIngressIn "y" "b", denyAllIngressIn "x" "a"] ∧
      noMergedTargets [denyAllIngressIn "x" "a", denyAllIngressIn "y" "b"] ∧
      (BuildNetworkPolicies [denyAllIngressIn "y" "b", denyAllIngressIn "x" "a"]).bind Explain =
        (BuildNetworkPolicies [denyAllIngressIn "x" "a", denyAllIngressIn "y" "b"]).bind
          Explain) ∧
    (BuildNetworkPolicies
        [policyOf "p1" [PolicyTypeIngress] [] [], policyOf "p2" [PolicyTypeIngress] [] []] =
      .ok { Ingress :=
              [("x/matchLabels: [pod=a], matchExpressions: []",
                { Namespace := "x",
                  PodSelector := { MatchLabels := [("pod", "a")], MatchExpressions := [] },
                  SourceRules := [policyOf "p1" [PolicyTypeIngress] [] [],
                    policyOf "p2" [PolicyTypeIngress] [] []],
                  Peer := NonePeerMatcher })],
            Egress := [] } ∧
      policiesOfTarget true "x/matchLabels: [pod=a], matchExpressions: []"
          [policyOf "p1" [PolicyTypeIngress] [] [], policyOf "p2" [PolicyTypeIngress] [] []] =
        [policyOf "p1" [PolicyTypeIngress] [] [], policyOf "p2" [PolicyTypeIngress] [] []] ∧
      ∃ block,
        ExplainTarget
            { Namespace := "x",
              PodSelector := { MatchLabels := [("pod", "a")], MatchExpressions := [] },
              SourceRules := [policyOf "p1" [PolicyTypeIngress] [] [],
                policyOf "p2" [PolicyTypeIngress] [] []],
              Peer := NonePeerMatcher } true =
          .ok ("x/matchLabels: [pod=a], matchExpressions: []" :: "  source rules:" ::
            (["    x/p1", "    x/p2"] ++ block ++ [""]))) := by
  have hkeys : noMergedTargets [denyAllIngressIn "x" "a", denyAllIngressIn "y" "b"] := by
    intro p hp q hq hne _
    simp only [List.mem_cons, List.mem_singleton, List.not_mem_nil, or_false] at hp hq
    rcases hp with rfl | rfl <;> rcases hq with rfl | rfl
    · exact absurd rfl hne
    · decide
    · decide
    · exact absurd rfl hne
  have hfilter : policiesOfTarget true "x/matchLabels: [pod=a], matchExpressions: []"
      [policyOf "p1" [PolicyTypeIngress] [] [], policyOf "p2" [PolicyTypeIngress] [] []] =
      [policyOf "p1" [PolicyTypeIngress] [] [], policyOf "p2" [PolicyTypeIngress] [] []] := by
    decide
  have hmerged := (Explain_permutation_invariant [policyOf "p1" [PolicyTypeIngress] [] [],
      policyOf "p2" [PolicyTypeIngress] [] []] []).2 _
    (BuildNetworkPolicies_merged_pair "p1" "p2") true _ (List.mem_singleton.mpr rfl)
  rw [hfilter] at hmerged
  exact ⟨⟨List.Perm.swap _ _ _, hkeys, ((Explain_permutation_invariant _ _).1 (List.Perm.swap _ _ _) hkeys).2⟩,
    BuildNetworkPolicies_merged_pair "p1" "p2", hfilter, hmerged.2⟩

/-! ## The invalid-peer guards -/

/-- The peer loop depends on the peers only through what `BuildIPBlockNamespacePodMatcher`
returns for them. -/
theorem BuildPeerMatcherLoop_congr (ns : String) (port : PortMatcher)
    (l₁ l₂ : List NetworkPolicyPeer)
    (h : List.Forall₂
      (fun a b => BuildIPBlockNamespacePodMatcher ns a = BuildIPBlockNamespacePodMatcher ns b)
      l₁ l₂) :
    ∀ (ip : IPMatcher) (int : InternalMatcher),
      BuildPeerMatcherLoop ns port l₁ ip int = BuildPeerMatcherLoop ns port l₂ ip int := by
  induction h with
  | nil => intro ip int; rfl
  | cons hab _ ih =>
    intro ip int
    rw [BuildPeerMatcherLoop, BuildPeerMatcherLoop, hab]
    simp only [ih]

/-- C21: for every peer `BuildIPBlockNamespacePodMatcher` returns either an IP block matcher
with no namespace and no pod matcher, exactly when the peer's IPBlock is set, or no IP block
matcher with a namespace matcher and a pod matcher; so the conditions of the two invalid-peer
guards of `BuildPeerMatcher` are false for every peer and `BuildPeerMatcher` returns a matcher
for every input; a peer with all three fields nil is treated as (Exact(policyNamespace), all
pods), and the selectors of a peer that has an IPBlock are ignored. -/
theorem BuildIPBlockNamespacePodMatcher_guards_dead (ns : String) (peer : NetworkPolicyPeer)
    (npPorts : List NetworkPolicyPort) (peers before after : List NetworkPolicyPeer) :
    ((∃ b, peer.IPBlock = some b ∧
        BuildIPBlockNamespacePodMatcher ns peer =
          (some { IPBlock := b, Port := none }, none, none)) ∨
      (peer.IPBlock = none ∧
        ∃ n p, BuildIPBlockNamespacePodMatcher ns peer = (none, some n, some p))) ∧
    (((BuildIPBlockNamespacePodMatcher ns peer).1.isNone &&
        (BuildIPBlockNamespacePodMatcher ns peer).2.1.isNone &&
        (BuildIPBlockNamespacePodMatcher ns peer).2.2.isNone) = false) ∧
    (((BuildIPBlockNamespacePodMatcher ns peer).1.isSome &&
        ((BuildIPBlockNamespacePodMatcher ns peer).2.1.isSome ||
          (BuildIPBlockNamespacePodMatcher ns peer).2.2.isSome)) = false) ∧
    (∃ m, BuildPeerMatcher ns npPorts peers = .ok m) ∧
    BuildIPBlockNamespacePodMatcher ns
        { IPBlock := none, NamespaceSelector := none, PodSelector := none } =
      (none, some (ExactNamespaceMatcher ns), some AllPodMatcher) ∧
    BuildPeerMatcher ns npPorts
        [{ IPBlock := none, NamespaceSelector := none, PodSelector := none }] =
      .ok (SpecificPeerMatcher NoneIPMatcher
        (SpecificInternalMatcher
          [(NamespacePodMatcher.PrimaryKey
              { Namespace := ExactNamespaceMatcher ns, Pod := AllPodMatcher,
                Port := BuildPortMatcher npPorts },
            { Namespace := ExactNamespaceMatcher ns, Pod := AllPodMatcher,
              Port := BuildPortMatcher npPorts })])) ∧
    (∀ b, peer.IPBlock = some b →
      BuildIPBlockNamespacePodMatcher ns peer =
        BuildIPBlockNamespacePodMatcher ns
          { IPBlock := some b, NamespaceSelector := none, PodSelector := none } ∧
      BuildPeerMatcher ns npPorts (before ++ peer :: after) =
        BuildPeerMatcher ns npPorts
          (before ++
            { IPBlock := some b, NamespaceSelector := none, PodSelector := none } :: after)) := by
  have hshape : (∃ b, peer.IPBlock = some b ∧
        BuildIPBlockNamespacePodMatcher ns peer =
          (some { IPBlock := b, Port := none }, none, none)) ∨
      (peer.IPBlock = none ∧
        ∃ n p, BuildIPBlockNamespacePodMatcher ns peer = (none, some n, some p)) := by
    cases hb : peer.IPBlock with
    | some b => exact Or.inl ⟨b, rfl, BuildIPBlockNamespacePodMatcher_block ns peer b hb⟩
    | none => exact Or.inr ⟨rfl, BuildIPBlockNamespacePodMatcher_selector ns peer hb⟩
  refine ⟨hshape, ?_, ?_, BuildPeerMatcher_ok ns npPorts peers, rfl, ?_, ?_⟩
  · rcases hshape with ⟨b, _, h⟩ | ⟨_, n, p, h⟩ <;> rw [h] <;> rfl
  · rcases hshape with ⟨b, _, h⟩ | ⟨_, n, p, h⟩ <;> rw [h] <;> rfl
  · have hlen : ¬ ([{ IPBlock := none, NamespaceSelector := none, PodSelector := none }] :
        List NetworkPolicyPeer).length = 0 := by simp
    simp only [BuildPeerMatcher, hlen, if_false]
    rw [BuildPeerMatcherLoop_selector ns _
      { IPBlock := none, NamespaceSelector := none, PodSelector := none } [] _ _
      (ExactNamespaceMatcher ns) AllPodMatcher rfl]
    have hs : applyShortcut (BuildPortMatcher npPorts) (ExactNamespaceMatcher ns) AllPodMatcher
        NoneInternalMatcher = NoneInternalMatcher := by
      cases BuildPortMatcher npPorts <;> rfl
    rw [hs]
    rfl
  · intro b hb
    have heq : BuildIPBlockNamespacePodMatcher ns peer =
        BuildIPBlockNamespacePodMatcher ns
          { IPBlock := some b, NamespaceSelector := none, PodSelector := none } := by
      rw [BuildIPBlockNamespacePodMatcher_block ns peer b hb]
      rfl
    refine ⟨heq, ?_⟩
    have hl1 : ¬ (before ++ peer :: after).length = 0 := by simp
    have hl2 : ¬ (before ++
        ({ IPBlock := some b, NamespaceSelector := none, PodSelector := none } :
          NetworkPolicyPeer) :: after).length = 0 := by simp
    simp only [BuildPeerMatcher, hl1, hl2, if_false]
    apply BuildPeerMatcherLoop_congr
    apply List.rel_append
    · exact List.forall₂_same.mpr (fun _ _ => rfl)
    · exact List.Forall₂.cons heq (List.forall₂_same.mpr (fun _ _ => rfl))

/-- Witness of C21: the peer of scenario S6, whose pod selector is ignored. -/
theorem BuildIPBlockNamespacePodMatcher_guards_dead_witness :
    BuildIPBlockNamespacePodMatcher "x" mixedPeer =
      BuildIPBlockNamespacePodMatcher "x"
        { IPBlock := some { CIDR := "10.0.0.0/24", Except := [] }, NamespaceSelector := none,
          PodSelector := none } ∧
    BuildPeerMatcher "x" [] ([allNilPeer] ++ mixedPeer :: []) =
      BuildPeerMatcher "x" []
        ([allNilPeer] ++
          { IPBlock := some { CIDR := "10.0.0.0/24", Except := [] }, NamespaceSelector := none,
            PodSelector := none } :: []) :=
  (BuildIPBlockNamespacePodMatcher_guards_dead "x" mixedPeer [] [] [allNilPeer] []).2.2.2.2.2.2
    { CIDR := "10.0.0.0/24", Except := [] } rfl

/-! ## Policy types that are no direction -/

/-- C24: for every policy whose `policyTypes` list is non-empty but contains neither the
Ingress nor the Egress value, `BuildTarget` does not fail and returns no ingress and no egress
Target, so `BuildNetworkPolicies` adds nothing to the Policy for it, wherever it stands in the
list; `BuildTarget` fails for a policy exactly when its `policyTypes` list is empty. -/
theorem BuildTarget_no_direction (p : NetworkPolicy) (hne : p.Spec.PolicyTypes ≠ [])
    (hi : PolicyTypeIngress ∉ p.Spec.PolicyTypes) (he : PolicyTypeEgress ∉ p.Spec.PolicyTypes) :
    BuildTarget p = .ok (none, none) ∧
    BuildNetworkPolicies [p] = .ok NewPolicy ∧
    (∀ before after : List NetworkPolicy,
      BuildNetworkPolicies (before ++ p :: after) = BuildNetworkPolicies (before ++ after)) ∧
    (∀ q : NetworkPolicy, (∃ e, BuildTarget q = .error e) ↔ q.Spec.PolicyTypes = []) := by
  have hbt : BuildTarget p = .ok (none, none) := by
    obtain ⟨pi, pe, _, _, h⟩ := BuildTarget_eq p hne
    rw [h, if_neg hi, if_neg he]
  have hstep : ∀ (rest : List NetworkPolicy) (np : Policy),
      BuildNetworkPoliciesLoop (p :: rest) np = BuildNetworkPoliciesLoop rest np := by
    intro rest np
    rw [BuildNetworkPoliciesLoop_cons_ok p rest np none none hbt]
    rfl
  refine ⟨hbt, ?_, ?_, ?_⟩
  · rw [BuildNetworkPolicies, hstep]; rfl
  · intro before after
    rw [BuildNetworkPolicies, BuildNetworkPolicies, BuildNetworkPoliciesLoop_append,
      BuildNetworkPoliciesLoop_append]
    congr 1
    funext np
    exact hstep after np
  · intro q
    constructor
    · rintro ⟨e, h⟩
      by_contra hq
      obtain ⟨i, e', h'⟩ := BuildTarget_ok q hq
      rw [h'] at h
      cases h
    · intro hq
      exact ⟨_, BuildTarget_no_type q hq⟩

/-- Witness of C24: a policy whose only policy type is the string `Both`. -/
theorem BuildTarget_no_direction_witness :
    BuildTarget (policyOf "both" ["Both"] [{ Ports := [], From := [] }] []) = .ok (none, none) ∧
    BuildNetworkPolicies
        ([denyAllIngressPolicy] ++
          policyOf "both" ["Both"] [{ Ports := [], From := [] }] [] :: []) =
      BuildNetworkPolicies ([denyAllIngressPolicy] ++ []) :=
  ⟨(BuildTarget_no_direction (policyOf "both" ["Both"] [{ Ports := [], From := [] }] [])
      (by decide) (by decide) (by decide)).1,
    (BuildTarget_no_direction (policyOf "both" ["Both"] [{ Ports := [], From := [] }] [])
      (by decide) (by decide) (by decide)).2.2.1 [denyAllIngressPolicy] []⟩

/-! ## Lines of the port and Internal matchers -/

/-- The loop of `ExplainSpecificPortMatcher` appends one line per entry, in order. -/
theorem ExplainSpecificPortMatcherLoop_eq (indent : String) :
    ∀ (ports : List PortProtocolMatcher) (lines : List String),
      ExplainSpecificPortMatcherLoop indent ports lines =
        lines ++ ports.map (fun e =>
          match e.Port with
          | some p => indent ++ ("port " ++ p.String ++ " on protocol " ++ e.Protocol)
          | none => indent ++ ("all ports on protocol " ++ e.Protocol)) := by
  intro ports
  induction ports with
  | nil => intro lines; simp [ExplainSpecificPortMatcherLoop]
  | cons e rest ih =>
    intro lines
    rw [ExplainSpecificPortMatcherLoop]
    cases he : e.Port <;> simp [ih, he]

/-- C22: for every Specific port matcher and indent, `ExplainSpecificPortMatcher` returns
exactly one line per entry, in the order of the entry list: indent + `all ports on protocol
<protocol>` when the entry's port is absent and indent + `port <port> on protocol <protocol>`
when it is present, where `<port>` is the name of a named port and the decimal number of a
numbered one. -/
theorem ExplainSpecificPortMatcher_lines (ports : List PortProtocolMatcher) (indent : String) :
    ExplainSpecificPortMatcher ports indent =
      ports.map (fun e =>
        match e.Port with
        | some p => indent ++ ("port " ++ p.String ++ " on protocol " ++ e.Protocol)
        | none => indent ++ ("all ports on protocol " ++ e.Protocol)) ∧
    (ExplainSpecificPortMatcher ports indent).length = ports.length ∧
    (∀ (n : Int) (s : String),
      IntOrString.String { Kind := IntOrStringKind.String, IntVal := n, StrVal := s } = s ∧
      IntOrString.String { Kind := IntOrStringKind.Int, IntVal := n, StrVal := s } =
        toString n) ∧
    ExplainSpecificPortMatcher
        [{ Port := some ⟨.String, 0, "serve-80"⟩, Protocol := "TCP" },
         { Port := none, Protocol := "UDP" }] "  " =
      ["  port serve-80 on protocol TCP", "  all ports on protocol UDP"] := by
  have h : ExplainSpecificPortMatcher ports indent =
      ports.map (fun e =>
        match e.Port with
        | some p => indent ++ ("port " ++ p.String ++ " on protocol " ++ e.Protocol)
        | none => indent ++ ("all ports on protocol " ++ e.Protocol)) := by
    rw [ExplainSpecificPortMatcher, ExplainSpecificPortMatcherLoop_eq]
    simp
  refine ⟨h, ?_, fun _ _ => ⟨rfl, rfl⟩, ?_⟩
  · rw [h]; simp
  · decide

/-- A line made of the indent and a text that does not start with a blank does not begin with
the indent plus two further spaces. -/
theorem not_indented (indent text : String) (c : Char) (cs : List Char)
    (htext : text.data = c :: cs) (hc : c ≠ ' ') :
    ¬ ∃ rest : String, indent ++ text = indent ++ "  " ++ rest := by
  rintro ⟨rest, h⟩
  have hd := congrArg String.data h
  simp only [String.data_append, List.append_assoc, List.append_cancel_left_eq, htext] at hd
  simp only [List.cons_append, List.cons.injEq] at hd
  exact hc hd.1

/-- C23, evaluation at the None port matcher and at the None and All Internal matchers: after
the header at the indent, `ExplainPortMatcher` prints `no ports` and `ExplainInternalMatcher`
prints `all pods blocked` and `all pods in all namespaces` at the indent of the header, not two
spaces further; the All port matcher, in the branch next to it, is printed two spaces further. -/
theorem ExplainPortMatcher_none_at_header_indent (indent : String) :
    ExplainPortMatcher (some NonePortMatcher) indent =
      .ok [indent ++ "Port(s):", indent ++ "no ports"] ∧
    (¬ ∃ rest : String, indent ++ "no ports" = indent ++ "  " ++ rest) ∧
    ExplainInternalMatcher NoneInternalMatcher indent =
      .ok [indent ++ "Internal:", indent ++ "all pods blocked"] ∧
    (¬ ∃ rest : String, indent ++ "all pods blocked" = indent ++ "  " ++ rest) ∧
    ExplainInternalMatcher AllInternalMatcher indent =
      .ok [indent ++ "Internal:", indent ++ "all pods in all namespaces"] ∧
    (¬ ∃ rest : String, indent ++ "all pods in all namespaces" = indent ++ "  " ++ rest) ∧
    ExplainPortMatcher (some AllPortMatcher) indent =
      .ok [indent ++ "Port(s):", indent ++ "  " ++ "all ports all protocols"] :=
  ⟨rfl, not_indented indent "no ports" 'n' _ rfl (by decide),
    rfl, not_indented indent "all pods blocked" 'a' _ rfl (by decide),
    rfl, not_indented indent "all pods in all namespaces" 'a' _ rfl (by decide),
    rfl⟩

/-! ## The breadth generator -/

/-- Every setter list of `Policies` is `SetDescription` followed by at most one setter and is
applied to the base policy without a panic. -/
theorem Policies_runsOnBase (v : BreadthVars) (e : BreadthGenerator) :
    ∀ setters ∈ e.Policies v, runsOnBase v setters := by
  simp only [BreadthGenerator.Policies, PoliciesLoop, addPolicy, List.nil_append,
    List.cons_append, List.forall_mem_append, List.forall_mem_cons, List.forall_mem_singleton,
    List.not_mem_nil, false_implies, implies_true, and_true]
  and_intros
  all_goals exact ⟨_, _, _, rfl, by simp, rfl⟩

/-- The method `ActionTestCases` does not look at the generator. -/
theorem ActionTestCases_const (v : BreadthVars) (k : TestKit) (e₁ e₂ : BreadthGenerator) :
    e₁.ActionTestCases v k = e₂.ActionTestCases v k := rfl

/-- C25: for every BreadthGenerator, every setter list returned by `Policies` is applied by
`BuildPolicy` to the base policy without a panic, and before each of its setters runs the rule
lists of both directions are non-empty.  On a policy whose rule list of the chosen direction is
non-empty, `SetPorts` (resp. `SetPeers`) changes only the ports (resp. peers) of rule 0 of that
direction and leaves the other direction, the other rules, the target, the name and the
description as they are; applied after `SetRules` with an empty rule list the same setters fail
with the index-out-of-range panic. -/
theorem Policies_setters_apply (v : BreadthVars) (e : BreadthGenerator) (setters : List Setter)
    (h : setters ∈ e.Policies v) :
    (∃ policy, BuildPolicy v setters = .ok policy) ∧
    (∀ (pre : List Setter) (s : Setter) (post : List Setter), setters = pre ++ s :: post →
      ∃ policy ingress egress,
        BuildPolicyLoop pre (baseBreadthPolicy v) = .ok policy ∧
        policy.Ingress = some ingress ∧ policy.Egress = some egress ∧
        ingress.Rules ≠ [] ∧ egress.Rules ≠ []) ∧
    (∀ (policy : Netpol) (peers : NetpolPeers) (rule : Rule) (rest : List Rule)
        (ports : List NetworkPolicyPort) (newPeers : List NetworkPolicyPeer),
      (policy.Ingress = some peers → peers.Rules = rule :: rest →
        SetPorts true ports policy =
          .ok { Name := policy.Name, Description := policy.Description,
                Target := policy.Target,
                Ingress := some { Rules := { Ports := ports, Peers := rule.Peers } :: rest },
                Egress := policy.Egress } ∧
        SetPeers true newPeers policy =
          .ok { Name := policy.Name, Description := policy.Description,
                Target := policy.Target,
                Ingress := some { Rules := { Ports := rule.Ports, Peers := newPeers } :: rest },
                Egress := policy.Egress }) ∧
      (policy.Egress = some peers → peers.Rules = rule :: rest →
        SetPorts false ports policy =
          .ok { Name := policy.Name, Description := policy.Description,
                Target := policy.Target, Ingress := policy.Ingress,
                Egress := some { Rules := { Ports := ports, Peers := rule.Peers } :: rest } } ∧
        SetPeers false newPeers policy =
          .ok { Name := policy.Name, Description := policy.Description,
                Target := policy.Target, Ingress := policy.Ingress,
                Egress := some
                  { Rules := { Ports := rule.Ports, Peers := newPeers } :: rest } })) ∧
    (∀ (isIngress : Bool) (ports : List NetworkPolicyPort) (peers : List NetworkPolicyPeer),
      BuildPolicy v [SetRules isIngress [], SetPorts isIngress ports] =
        .error indexOutOfRange ∧
      BuildPolicy v [SetRules isIngress [], SetPeers isIngress peers] =
        .error indexOutOfRange) := by
  obtain ⟨d, tail, policy, hshape, hlen, hok⟩ := Policies_runsOnBase v e setters h
  refine ⟨⟨policy, hok⟩, ?_, ?_, ?_⟩
  · intro pre s post hsplit
    rw [hshape] at hsplit
    cases pre with
    | nil => exact ⟨_, _, _, rfl, rfl, rfl, by simp, by simp⟩
    | cons a pre' =>
      simp only [List.cons_append, List.cons.injEq] at hsplit
      obtain ⟨ha, htail⟩ := hsplit
      have hpre : pre' = [] := by
        rw [htail] at hlen
        simp only [List.length_append, List.length_cons] at hlen
        exact List.length_eq_zero.mp (by omega)
      subst hpre
      rw [← ha]
      exact ⟨_, _, _, rfl, rfl, rfl, by simp, by simp⟩
  · intro p peers rule rest ports newPeers
    constructor
    · intro hi hr
      obtain ⟨rules⟩ := peers
      simp only at hr
      subst hr
      simp [SetPorts, SetPeers, hi]
    · intro he hr
      obtain ⟨rules⟩ := peers
      simp only at hr
      subst hr
      simp [SetPorts, SetPeers, he]
  · intro isIngress ports peers
    cases isIngress <;> exact ⟨rfl, rfl⟩

/-- Witness of C25: the setter list `ingress: numbered port on TCP` and what it builds. -/
theorem Policies_setters_apply_witness :
    [SetDescription "ingress: numbered port on TCP",
      SetPorts true [{ Protocol := some sampleVars.tcp, Port := some sampleVars.port81 }]] ∈
      (NewBreadthGenerator true "192.168.1.10").Policies sampleVars ∧
    ∃ policy,
      BuildPolicy sampleVars
        [SetDescription "ingress: numbered port on TCP",
          SetPorts true [{ Protocol := some sampleVars.tcp, Port := some sampleVars.port81 }]] =
        .ok policy := by
  have hmem : [SetDescription "ingress: numbered port on TCP",
      SetPorts true [{ Protocol := some sampleVars.tcp, Port := some sampleVars.port81 }]] ∈
      (NewBreadthGenerator true "192.168.1.10").Policies sampleVars := by
    simp [BreadthGenerator.Policies, PoliciesLoop, addPolicy]
  exact ⟨hmem, (Policies_setters_apply sampleVars _ _ hmem).1⟩

/-- C26: the field `AllowDNS` of a BreadthGenerator has no effect: for every pod IP the
generators built with `allowDNS = true` and `allowDNS = false` return the same `Policies` and
the same `GenerateTestCases`, and the egress rules of the base policy end with the allow-DNS
rule. -/
theorem AllowDNS_has_no_effect (v : BreadthVars) (k : TestKit) (podIP : String) :
    (NewBreadthGenerator true podIP).Policies v = (NewBreadthGenerator false podIP).Policies v ∧
    (NewBreadthGenerator true podIP).GenerateTestCases v k =
      (NewBreadthGenerator false podIP).GenerateTestCases v k ∧
    (∃ (egress : NetpolPeers) (first : List Rule),
      (baseBreadthPolicy v).Egress = some egress ∧
      egress.Rules = first ++ [v.AllowDNSRule] ∧
      egress.Rules.getLast? = some v.AllowDNSRule) := by
  have hpol : (NewBreadthGenerator true podIP).Policies v =
      (NewBreadthGenerator false podIP).Policies v := rfl
  refine ⟨hpol, ?_, ⟨_, [_], rfl, rfl, rfl⟩⟩
  unfold BreadthGenerator.GenerateTestCases
  rw [hpol, ActionTestCases_const v k (NewBreadthGenerator true podIP)
    (NewBreadthGenerator false podIP)]

end Cyclonus
